import Mathlib

/-!
# Acquire Worker (apt-pkg/acquire-worker.cc)

A shallow embedding of `pkgAcquire::Worker`: the loop of `RunMessages` with the
handlers of its `switch`, `HandleFailure`, `ChangeSiteIsMirrorChange`,
`Capabilities`, `MediaChange`, `SendConfiguration`, `QueueItem`, `ReplyAux`, the
I/O pump (`InFdReady`, `OutFdReady`, `MethodFailure`), and `Construct` and `Start`.

Conventions of the embedding:

* `std::string` is `String`; positions are indices into its character list.
* The callbacks the worker makes on an owner (`Done`, `Failed`, `FailMessage`,
  `VerifyDone`), on the queue (`Enqueue`) and on the progress sink (`Log->Done`,
  `Log->IMSHit`, `Log->Fail`) are recorded, in program order, as `Event`s together
  with their arguments.  The callees live outside acquire-worker.cc; what they do
  to the owner on their own is not part of the model, the owner state is the one
  the worker itself leaves behind.
* Helpers of strutl.cc and hashes.cc that the worker calls are taken as
  parameters, collected in `Env`.
* A C++ exception (`std::out_of_range` from `std::string::substr`) is the flag
  `Thrown` of a step; what was written before the throw stays written.
* The worker is the record `Worker`; the further values it takes from outside
  (other translation units, the configuration, the system calls) are the fields of
  `WorkerEnv` and `StartEnv` or arguments of the function that uses them, and the
  further calls it makes are recorded as `Call`s.
-/

namespace AptWorker

/-! ## Strings -/

/-- Index of the first occurrence of `pat` in a character list, as `std::string::find`
returns it; `none` stands for `npos`. -/
def findSub (pat : List Char) : List Char → Option Nat
  | [] => if pat = [] then some 0 else none
  | c :: cs =>
    if pat.isPrefixOf (c :: cs) then some 0
    else (findSub pat cs).map (· + 1)

/-- The call `s.find(pat)`. -/
def strFind (s pat : String) : Option Nat := findSub pat.data s.data

/-- The test `s.find(pat) != std::string::npos`. -/
def strContains (s pat : String) : Bool := (strFind s pat).isSome

/-- The call `s.substr(0, n)`. -/
def strTake (s : String) (n : Nat) : String := ⟨s.data.take n⟩

/-- The call `s.substr(pos)`: it throws `std::out_of_range` (here `none`) when
`pos > s.size()`. -/
def strSubstrFrom (s : String) (pos : Nat) : Option String :=
  if pos ≤ s.data.length then some ⟨s.data.drop pos⟩ else none

/-- The call `s.replace(0, n, r)` for `n ≤ s.size()`. -/
def strReplaceHead (s : String) (n : Nat) (r : String) : String :=
  ⟨r.data ++ s.data.drop n⟩

/-- The helper `APT::String::Startswith` of strutl.cc: a prefix test. -/
def Startswith (s start : String) : Bool := start.data.isPrefixOf s.data

/-- The helper `APT::String::Endswith` of strutl.cc: a suffix test. -/
def Endswith (s ending : String) : Bool := ending.data.isSuffixOf s.data

/-! ## Data model -/

/-- The enumeration `pkgAcquire::Item::ItemState`. -/
inductive ItemState
  | StatIdle
  | StatFetching
  | StatDone
  | StatError
  | StatAuthError
  | StatTransientNetworkError
  deriving DecidableEq, Repr

/-- The enumeration `pkgAcqTransactionItem::TransactionStates`. -/
inductive TransactionStates
  | TransactionStarted
  | TransactionCommit
  | TransactionAbort
  deriving DecidableEq, Repr

/-- One `HashString`: algorithm name and digest. -/
structure HashString where
  HashType : String
  HashValue : String
  deriving DecidableEq, Repr

/-- A `HashStringList`. -/
abbrev HashStringList := List HashString

/-- The structure `pkgAcquire::ItemDesc`; `Owner` is the identity of the owning item. -/
structure ItemDesc where
  URI : String
  Description : String
  ShortDesc : String
  Owner : Nat
  deriving DecidableEq, Repr

/-- The part of a `pkgAcquire::Item` (an Owner) the worker reads and writes.
`Transaction` is `none` for an item that is not a `pkgAcqTransactionItem`, else the
state of its transaction manager.  `ExpectedHashes` and `HashesRequired` are what
the virtual getters `GetExpectedHashes()` and `HashesRequired()` return. -/
structure Item where
  ID : Nat
  Desc : ItemDesc
  DestFile : String
  Status : ItemState
  Retries : Nat
  FetchAfter : Int
  UsedMirror : String
  ExpectedHashes : HashStringList
  HashesRequired : Bool
  AlternativeURIs : List String
  BadAlternativeSites : List String
  Transaction : Option TransactionStates
  Local : Bool
  Complete : Bool
  deriving DecidableEq, Repr

/-- A call made by the worker, with its arguments. -/
inductive Event
  | VerifyDone (owner : Nat) (Message : String)
  | Done (owner : Nat) (Message : String) (Hashes : HashStringList)
  | Failed (owner : Nat) (Message : String)
  | FailMessage (owner : Nat) (Message : String)
  | Enqueue (desc : ItemDesc)
  | LogDone (desc : ItemDesc)
  | LogIMSHit (desc : ItemDesc)
  | LogFail (desc : ItemDesc)
  deriving DecidableEq, Repr

/-- An event of the progress sink (`Log->Done`, `Log->IMSHit`, `Log->Fail`). -/
def Event.isUI : Event → Bool
  | .LogDone _ => true
  | .LogIMSHit _ => true
  | .LogFail _ => true
  | _ => false

/-- A call of `Owner->Done`, `Owner->Failed` or `OwnerQ->Owner->Enqueue`. -/
def Event.isCallback : Event → Bool
  | .Done _ _ _ => true
  | .Failed _ _ => true
  | .Enqueue _ => true
  | _ => false

/-- A call of `Owner->Failed`. -/
def Event.isFailed : Event → Bool
  | .Failed _ _ => true
  | _ => false

/-- A call of `Owner->VerifyDone`. -/
def Event.isVerifyDone : Event → Bool
  | .VerifyDone _ _ => true
  | _ => false

/-- A call of `OwnerQ->Owner->Enqueue`. -/
def Event.isEnqueue : Event → Bool
  | .Enqueue _ => true
  | _ => false

/-- Functions the worker calls that are defined in other translation units
(strutl.cc, hashes.cc, acquire-item.cc), taken as parameters.
`StringToBool` returns an `int`; `hashesEq` is `HashStringList::operator==`
(`operator!=` is its negation); `VerifyDone` is the virtual `Item::VerifyDone`;
`ShiftOutOfRange n` is whatever the platform yields for `1 << n` with `n ≥ 32`. -/
structure Env where
  LookupTag : String → String → String → String
  StringToBool : String → Int → Int
  hashesEq : HashStringList → HashStringList → Bool
  usable : HashStringList → Bool
  SiteOnly : String → String
  ArchiveOnly : String → String
  VerifyDone : Item → String → Bool
  ShiftOutOfRange : Nat → Int

/-- The values of the global configuration the two handlers read:
`Acquire::ForceHash`, `Acquire::Retries::Delay` (default true), `Acquire::Retries`
(default 3) and `Acquire::Retries::Delay::Maximum` (default 30). -/
structure Configuration where
  ForceHash : String
  RetriesDelay : Bool
  Retries : Int
  RetriesDelayMaximum : Int
  deriving DecidableEq, Repr

/-- State of one owner after one pass of a loop body, the calls made during the
pass, and whether the pass ended by a thrown exception. -/
structure Step where
  Owner : Item
  Trace : List Event
  Thrown : Bool
  deriving DecidableEq, Repr

/-- Result of the `URI_DONE` loop body: as `Step` (the body cannot throw), plus the
`Message` variable, which the body may extend and the next owner then sees. -/
structure DoneStep where
  Owner : Item
  Message : String
  Trace : List Event
  deriving DecidableEq, Repr

/-! ## Helpers of acquire-worker.cc -/

/-- The static function `isDoomedItem`. -/
def isDoomedItem (Itm : Item) : Bool :=
  match Itm.Transaction with
  | none => false
  | some State => State != TransactionStates.TransactionStarted

/-- Modelled from the spec: `Item::RemoveAlternativeSite` (acquire-item.cc is not
among the sources) removes the site from the owner's mirror list: every alternate
URI on that site is dropped and the site is recorded as a bad alternative. -/
def RemoveAlternativeSite (env : Env) (OldSite : String) (Owner : Item) : Item :=
  { Owner with
    AlternativeURIs := Owner.AlternativeURIs.filter (fun u => env.SiteOnly u != OldSite)
    BadAlternativeSites := OldSite :: Owner.BadAlternativeSites }

/-- Modelled from the spec: `Item::PopAlternativeURI` (acquire-item.cc is not among
the sources) pops the top of the owner's alternate-URI stack; `none` is the return
value `false`. -/
def PopAlternativeURI (Owner : Item) : Option (String × Item) :=
  match Owner.AlternativeURIs with
  | [] => none
  | NewURI :: rest => some (NewURI, { Owner with AlternativeURIs := rest })

/-- The static function `ChangeSiteIsMirrorChange`, with `desc` the description of
`Owner`.  `none` is the `std::out_of_range` of `desc.URI.substr(OldSite.length() + 1)`;
nothing has been written when it is thrown. -/
def ChangeSiteIsMirrorChange (env : Env) (NewURI : String) (Owner : Item) : Option Item :=
  if env.SiteOnly NewURI = env.SiteOnly Owner.Desc.URI then some Owner
  else
    match strFind Owner.Desc.Description " " with
    | none => some Owner
    | some firstSpace =>
      let OldSite := strTake Owner.Desc.Description firstSpace
      if Startswith Owner.Desc.URI OldSite then
        match strSubstrFrom Owner.Desc.URI (OldSite.data.length + 1) with
        | none => none
        | some OldExtra =>
          if Endswith NewURI OldExtra then
            let NewSite := strTake NewURI (NewURI.data.length - OldExtra.data.length)
            let UsedMirror := env.ArchiveOnly NewSite
            some { Owner with
              UsedMirror := UsedMirror
              Desc := { Owner.Desc with
                Description := strReplaceHead Owner.Desc.Description firstSpace UsedMirror } }
          else some Owner
      else some Owner

/-! ## `URI_DONE`: the loop over the owners (lines 460-532) -/

/-- The variable `isIMSHit`: the two `int`s are read as booleans. -/
def isIMSHit (env : Env) (Message : String) : Bool :=
  decide (env.StringToBool (env.LookupTag Message "IMS-Hit" "") 0 ≠ 0) ||
  decide (env.StringToBool (env.LookupTag Message "Alt-IMS-Hit" "") 0 ≠ 0)

/-- The value of `consideredOkay` after "decide if what we got is what we expected"
and before `VerifyDone` is asked. -/
def consideredOkayByHashes (env : Env) (forcedHash : String) (ReceivedHashes : HashStringList)
    (isIMSHit : Bool) (Owner : Item) : Bool :=
  if (forcedHash = "" ∧ Owner.ExpectedHashes ≠ []) ∨
      (forcedHash ≠ "" ∧ env.usable Owner.ExpectedHashes = true) then
    if ReceivedHashes = [] then isIMSHit
    else if env.hashesEq ReceivedHashes Owner.ExpectedHashes = true then true
    else false
  else !Owner.HashesRequired

/-- The message handed to `Owner->Failed` in the `URI_DONE` case: a `FailReason` is
appended unless the message already has one. -/
def appendFailReason (env : Env) (ReceivedHashes : HashStringList) (Message : String)
    (Owner : Item) : String :=
  if strContains Message "\nFailReason:" = false then
    if env.hashesEq ReceivedHashes Owner.ExpectedHashes = false then
      Message ++ "\nFailReason: HashSumMismatch"
    else
      Message ++ "\nFailReason: WeakHashSums"
  else Message

/-- Body of the loop `for (auto const Owner : ItmOwners)` of the `URI_DONE` case.
`Log` says whether a progress sink is attached (`Log != nullptr`). -/
def URIDoneOwner (env : Env) (cfg : Configuration) (Log : Bool)
    (ReceivedHashes : HashStringList) (isIMSHit : Bool) (Message : String)
    (Owner : Item) : DoneStep :=
  if consideredOkayByHashes env cfg.ForceHash ReceivedHashes isIMSHit Owner = true then
    if env.VerifyDone Owner Message = true then
      { Owner := Owner
        Message := Message
        Trace := [Event.VerifyDone Owner.ID Message] ++
          (if isDoomedItem Owner = false then [Event.Done Owner.ID Message ReceivedHashes]
            else []) ++
          (if Log then [if isIMSHit then Event.LogIMSHit Owner.Desc else Event.LogDone Owner.Desc]
            else []) }
    else
      let Message1 :=
        if isDoomedItem Owner = false then appendFailReason env ReceivedHashes Message Owner
        else Message
      { Owner := Owner
        Message := Message1
        Trace := [Event.VerifyDone Owner.ID Message] ++
          (if isDoomedItem Owner = false then [Event.Failed Owner.ID Message1] else []) ++
          (if Log then [Event.LogFail Owner.Desc] else []) }
  else
    let Owner1 := { Owner with Status := ItemState.StatAuthError }
    let Message1 :=
      if isDoomedItem Owner1 = false then appendFailReason env ReceivedHashes Message Owner1
      else Message
    { Owner := Owner1
      Message := Message1
      Trace :=
        (if isDoomedItem Owner1 = false then [Event.Failed Owner1.ID Message1] else []) ++
        (if Log then [Event.LogFail Owner1.Desc] else []) }

/-- The loop over `ItmOwners` of the `URI_DONE` case, threading `Message`. -/
def URIDoneOwners (env : Env) (cfg : Configuration) (Log : Bool)
    (ReceivedHashes : HashStringList) (isIMSHit : Bool) :
    String → List Item → List DoneStep
  | _, [] => []
  | Message, Owner :: rest =>
    let s := URIDoneOwner env cfg Log ReceivedHashes isIMSHit Message Owner
    s :: URIDoneOwners env cfg Log ReceivedHashes isIMSHit s.Message rest

/-- Lines 460-532: `isIMSHit` is read once from the message as received, then the
owners are handled in order. -/
def URIDone (env : Env) (cfg : Configuration) (Log : Bool)
    (ReceivedHashes : HashStringList) (Message : String) (ItmOwners : List Item) :
    List DoneStep :=
  URIDoneOwners env cfg Log ReceivedHashes (isIMSHit env Message) Message ItmOwners

/-! ## `URI_FAILURE`: classification (lines 593-609) -/

/-- The first list `reasons` of the `URI_FAILURE` case. -/
def transientReasons : List String :=
  ["Timeout", "ConnectionRefused", "ConnectionTimedOut", "ResolveFailure", "TmpResolveFailure"]

/-- The second list `reasons` of the `URI_FAILURE` case. -/
def authReasons : List String :=
  ["HashSumMismatch", "WeakHashSums", "MaximumSizeExceeded"]

/-- The pair `(errTransient, errAuthErr)` as the `URI_FAILURE` case computes it.
`StringToBool(...) == true` compares the returned `int` with 1. -/
def classifyFailure (env : Env) (Message : String) : Bool × Bool :=
  if env.StringToBool (env.LookupTag Message "Transient-Failure" "") 0 = 1 then
    (true, false)
  else
    let failReason := env.LookupTag Message "FailReason" ""
    let errTransient := decide (failReason ∈ transientReasons)
    if errTransient = false then
      (errTransient, decide (failReason ∈ authReasons))
    else
      (errTransient, false)

/-! ## `HandleFailure` (lines 628-689) -/

/-- The expression `1 << Iter` on a 32-bit `int`: exact below bit 31, the sign bit
at 31, and the platform's value beyond the width of the type. -/
def shiftOne (env : Env) (Iter : Nat) : Int :=
  if Iter < 31 then 2 ^ Iter
  else if Iter = 31 then -(2 ^ 31)
  else env.ShiftOutOfRange Iter

/-- The variable `Iter`: `FindI("Acquire::Retries", 3) - Owner->Retries - 1`, an
`int` minus an `unsigned int`, hence computed modulo 2^32. -/
def retryIter (cfg : Configuration) (Retries : Nat) : Nat :=
  ((cfg.Retries - (Retries : Int) - 1) % 2 ^ 32).toNat

/-- The count of `Dur`, `std::min(1 << Iter, MaxDur)`, in seconds; `Retries` is the
owner's counter after the decrement. -/
def retryDelay (env : Env) (cfg : Configuration) (Retries : Nat) : Int :=
  min (shiftOne env (retryIter cfg Retries)) cfg.RetriesDelayMaximum

/-- Body of the loop of `HandleFailure`.  `LocalOnly` is `Config->LocalOnly`, `Log`
says whether a progress sink is attached, `currentTime` is `clock::now()` in
seconds. -/
def HandleFailureOwner (env : Env) (cfg : Configuration) (LocalOnly Log : Bool)
    (currentTime : Int) (Message : String) (errTransient errAuthErr : Bool)
    (Owner : Item) : Step :=
  if errTransient = true ∧ LocalOnly = false ∧ Owner.Retries ≠ 0 then
    let Owner1 := { Owner with Retries := Owner.Retries - 1 }
    let SavedDesc := Owner1.Desc
    let Owner2 :=
      if cfg.RetriesDelay = true then
        { Owner1 with FetchAfter := currentTime + retryDelay env cfg Owner1.Retries }
      else
        { Owner1 with FetchAfter := currentTime }
    { Owner := Owner2
      Trace := [Event.FailMessage Owner.ID Message] ++
        (if Log then [Event.LogFail SavedDesc] else []) ++
        (if isDoomedItem Owner2 = false then [Event.Enqueue SavedDesc] else [])
      Thrown := false }
  else
    let Owner1 :=
      if errAuthErr = true then RemoveAlternativeSite env (env.SiteOnly Owner.Desc.URI) Owner
      else Owner
    match PopAlternativeURI Owner1 with
    | some (NewURI, Owner2) =>
      let before := [Event.FailMessage Owner.ID Message] ++
        (if Log then [Event.LogFail Owner2.Desc] else [])
      match ChangeSiteIsMirrorChange env NewURI Owner2 with
      | none => { Owner := Owner2, Trace := before, Thrown := true }
      | some Owner3 =>
        let Owner4 := { Owner3 with Desc := { Owner3.Desc with URI := NewURI } }
        { Owner := Owner4
          Trace := before ++
            (if isDoomedItem Owner4 = false then [Event.Enqueue Owner4.Desc] else [])
          Thrown := false }
    | none =>
      let Owner2 :=
        if errAuthErr = true ∧ Owner1.ExpectedHashes ≠ [] then
          { Owner1 with Status := ItemState.StatAuthError }
        else if errTransient = true then
          { Owner1 with Status := ItemState.StatTransientNetworkError }
        else Owner1
      let SavedDesc := Owner2.Desc
      { Owner := Owner2
        Trace :=
          (if isDoomedItem Owner2 = false then [Event.Failed Owner.ID Message] else []) ++
          (if Log then [Event.LogFail SavedDesc] else [])
        Thrown := false }

/-- The loop of `HandleFailure` over `ItmOwners`: one step per owner, in order; a
throwing step ends the loop. -/
def HandleFailure (env : Env) (cfg : Configuration) (LocalOnly Log : Bool)
    (currentTime : Int) (Message : String) (errTransient errAuthErr : Bool) :
    List Item → List Step
  | [] => []
  | Owner :: rest =>
    let s := HandleFailureOwner env cfg LocalOnly Log currentTime Message errTransient
      errAuthErr Owner
    if s.Thrown = true then [s]
    else s :: HandleFailure env cfg LocalOnly Log currentTime Message errTransient errAuthErr rest

/-- The `URI_FAILURE` case from the classification on (lines 593-610): classify the
message, then run the failure policy on the owners. -/
def URIFailure (env : Env) (cfg : Configuration) (LocalOnly Log : Bool)
    (currentTime : Int) (Message : String) (ItmOwners : List Item) : List Step :=
  HandleFailure env cfg LocalOnly Log currentTime Message
    (classifyFailure env Message).1 (classifyFailure env Message).2 ItmOwners

/-- The same owner failing `n` times in a row with the same message and class: the
state after each failure is the input of the next. -/
def failRepeatedly (env : Env) (cfg : Configuration) (LocalOnly Log : Bool)
    (currentTime : Int) (Message : String) (errTransient errAuthErr : Bool) :
    Nat → Item → List Step
  | 0, _ => []
  | n + 1, Owner =>
    let s := HandleFailureOwner env cfg LocalOnly Log currentTime Message errTransient
      errAuthErr Owner
    s :: failRepeatedly env cfg LocalOnly Log currentTime Message errTransient errAuthErr n s.Owner

/-! ## A concrete environment

Reference versions of the parameters of `Env`, used to run the handlers on
concrete messages. -/

/-- Split a character list at every newline. -/
def splitLines : List Char → List (List Char)
  | [] => [[]]
  | c :: cs =>
    match splitLines cs with
    | [] => [[c]]
    | l :: ls => if c = '\n' then [] :: l :: ls else (c :: l) :: ls

/-- The value of a line `Tag: value`, if the line has that key (keys compare
case-insensitively); blanks after the colon are skipped. -/
def lineValue (Tag line : List Char) : Option (List Char) :=
  if (Tag.map Char.toLower ++ [':']).isPrefixOf (line.map Char.toLower) then
    some ((line.drop (Tag.length + 1)).dropWhile (fun c => c = ' '))
  else none

/-- Modelled from the spec: `LookupTag` (strutl.cc is not among the sources) returns
the value of the first `Key: Value` line of the record whose key is the tag, keys
being case-insensitive, and the default when there is none. -/
def refLookupTag (Message Tag Default : String) : String :=
  match (splitLines Message.data).findSome? (lineValue Tag.data) with
  | some v => ⟨v⟩
  | none => Default

/-- Modelled from the spec: `StringToBool` (strutl.cc is not among the sources) reads
`true` as 1 (as in `Transient-Failure: true`), `false` as 0, and gives the default
for any other text. -/
def refStringToBool (Text : String) (Default : Int) : Int :=
  if Text ∈ ["1", "yes", "true", "on", "enable"] then 1
  else if Text ∈ ["0", "no", "false", "off", "disable"] then 0
  else Default

/-- Modelled from the spec: `HashStringList::operator==` (hashes.cc is not among the
sources) compares the two lists as multisets keyed by algorithm name,
case-insensitive on the algorithm and exact on the digest. -/
def refHashesEq (a b : HashStringList) : Bool :=
  (a.map (fun h => (h.HashType.data.map Char.toLower, h.HashValue))).isPerm
    (b.map (fun h => (h.HashType.data.map Char.toLower, h.HashValue)))

/-- Modelled from the spec: `HashStringList::usable` (hashes.cc is not among the
sources) holds iff the list has at least one algorithm deemed required; here
SHA256 and SHA512 are the required ones. -/
def refUsable (l : HashStringList) : Bool :=
  l.any (fun h => decide (h.HashType ∈ ["SHA256", "SHA512"]))

/-- Modelled from the spec: `URI::SiteOnly` (strutl.cc is not among the sources)
gives the site part of a URI: scheme and host, without the path. -/
def refSiteOnly (U : String) : String :=
  match findSub "://".data U.data with
  | some p => ⟨U.data.take (p + 3) ++ (U.data.drop (p + 3)).takeWhile (fun c => c ≠ '/')⟩
  | none => ⟨U.data.takeWhile (fun c => c ≠ '/')⟩

/-- Modelled from the spec: `URI::ArchiveOnly` (strutl.cc is not among the sources)
gives the URI of the archive, without a trailing slash. -/
def refArchiveOnly (U : String) : String :=
  ⟨(U.data.reverse.dropWhile (fun c => c = '/')).reverse⟩

/-- The reference environment: an owner whose `VerifyDone` accepts; a shift
beyond the width uses the count modulo 32. -/
def refEnv : Env where
  LookupTag := refLookupTag
  StringToBool := refStringToBool
  hashesEq := refHashesEq
  usable := refUsable
  SiteOnly := refSiteOnly
  ArchiveOnly := refArchiveOnly
  VerifyDone := fun _ _ => true
  ShiftOutOfRange := fun n => if n % 32 = 31 then -(2 ^ 31) else 2 ^ (n % 32)

/-- The reference environment with an owner whose `VerifyDone` refuses. -/
def refusingEnv : Env := { refEnv with VerifyDone := fun _ _ => false }

/-- The reference environment in which `VerifyDone` refuses for the owner with
identity 1 and accepts for every other owner. -/
def refusingFirstEnv : Env := { refEnv with VerifyDone := fun O _ => O.ID != 1 }

/-- The default configuration: no forced hash, delay on, 3 retries, at most 30 s. -/
def defaultConfig : Configuration :=
  { ForceHash := "", RetriesDelay := true, Retries := 3, RetriesDelayMaximum := 30 }

/-- An owner fetching `http://a/x` that expects the SHA256 digest `abc` (scenario
E2 of the spec), not part of a transaction, with no alternates. -/
def ownerE2 : Item :=
  { ID := 1
    Desc := { URI := "http://a/x", Description := "http://a stable InRelease",
              ShortDesc := "InRelease", Owner := 1 }
    DestFile := "/var/lib/apt/lists/partial/x"
    Status := ItemState.StatFetching
    Retries := 3
    FetchAfter := 0
    UsedMirror := ""
    ExpectedHashes := [⟨"SHA256", "abc"⟩]
    HashesRequired := true
    AlternativeURIs := []
    BadAlternativeSites := []
    Transaction := none
    Local := false
    Complete := false }

/-- An owner as `ownerE2` whose transaction has been aborted: a doomed owner. -/
def ownerDoomed : Item :=
  { ownerE2 with ID := 2, Transaction := some TransactionStates.TransactionAbort }

/-- A second owner of the URI of `ownerE2`, with its own destination file, that
expects the SHA256 digest `def`. -/
def ownerOther : Item :=
  { ownerE2 with
    ID := 4
    Desc := { ownerE2.Desc with Owner := 4 }
    DestFile := "/var/lib/apt/lists/partial/y"
    ExpectedHashes := [⟨"SHA256", "def"⟩] }

/-- An owner whose URI is exactly the first token of its description, with one
alternate URI on another site. -/
def ownerBare : Item :=
  { ownerE2 with
    ID := 3
    Desc := { URI := "http://a", Description := "http://a stable", ShortDesc := "stable",
              Owner := 3 }
    AlternativeURIs := ["http://b/x"] }

/-! ## The `URI_DONE` loop, owner by owner -/

/-- The value of the variable `Message` when the loop of the `URI_DONE` case reaches
the owner at position `i`: the message as received for the first owner, afterwards
the message as the owners before left it. -/
def messageAt (env : Env) (cfg : Configuration) (Log : Bool)
    (ReceivedHashes : HashStringList) (isIMSHit : Bool) :
    String → List Item → Nat → String
  | Message, [], _ => Message
  | Message, _ :: _, 0 => Message
  | Message, Owner :: rest, i + 1 =>
    messageAt env cfg Log ReceivedHashes isIMSHit
      (URIDoneOwner env cfg Log ReceivedHashes isIMSHit Message Owner).Message rest i

/-- The hash decision in the words of the specification (§4.4.3, step 6): under
the guard, okay iff nothing was received and the message is an IMS hit, or
something was received and it equals the expected list; without the guard, okay
iff the owner does not require hashes. -/
def specConsideredOkay (env : Env) (forcedHash : String) (ReceivedHashes : HashStringList)
    (Message : String) (Owner : Item) : Prop :=
  if (forcedHash = "" ∧ Owner.ExpectedHashes ≠ []) ∨
      (forcedHash ≠ "" ∧ env.usable Owner.ExpectedHashes = true) then
    (ReceivedHashes = [] ∧
      (env.StringToBool (env.LookupTag Message "IMS-Hit" "") 0 ≠ 0 ∨
        env.StringToBool (env.LookupTag Message "Alt-IMS-Hit" "") 0 ≠ 0)) ∨
    (ReceivedHashes ≠ [] ∧ env.hashesEq ReceivedHashes Owner.ExpectedHashes = true)
  else Owner.HashesRequired = false

/-! ## The worker, its queue and its environment -/

/-- The structure `pkgAcquire::MethodConfig`: the access name, the version and the
capabilities the method advertises in its `100 Capabilities`. -/
structure MethodConfig where
  Access : String
  Version : String
  SingleInstance : Bool
  Pipeline : Bool
  SendConfig : Bool
  LocalOnly : Bool
  NeedsCleanup : Bool
  Removable : Bool
  AuxRequests : Bool
  SendURIEncoded : Bool
  deriving DecidableEq, Repr

/-- The structure `pkgAcquire::Queue::QItem`: one URI on the queue with its owners.
`Itm->Owner` is the first of `Owners`.  The queue's items are kept in an arena
(`Worker.Items`); `InFlight` says that the item is on the queue and assigned to this
worker, and `OwnerQ->ItemDone(Itm)` clears it, leaving the owners where they
are. -/
structure QItem where
  URI : String
  Description : String
  Owners : List Item
  TotalSize : Nat
  CurrentSize : Nat
  ResumePoint : Nat
  InFlight : Bool
  deriving DecidableEq, Repr

/-- The kinds of record of the error sink `_error`. -/
inductive ErrorKind
  | Error
  | Warning
  | Notice
  | Errno
  deriving DecidableEq, Repr

/-- A call the worker makes outside acquire-worker.cc, with its arguments: the
calls on owners, queue and progress sink of `Event`, and the further ones of
`RunMessages` and the I/O pump.  `Dispatch` marks the point where `RunMessages`
enters its `switch` for a message, with the message number, the message and the
messages still pending at that point. -/
inductive Call
  | Item (e : Event)
  | Dispatch (Number : Nat) (Message : String) (Pending : List String)
  | QueueItemDone (URI : String)
  | Start (owner : Nat) (Message : String) (Size : Nat)
  | IsRedirectionLoop (owner : Nat) (URI : String)
  | LogPulse (owner : Nat)
  | LogFetch (desc : ItemDesc)
  | LogFetched (Size : Nat) (ResumePoint : Int)
  | LogMediaChange (Media : String) (Drive : String)
  | NewAuxFile (owner : Nat) (ShortDesc : String) (Description : String) (URI : String)
      (Hashes : HashStringList) (MaxSize : Nat)
  | ChangeOwnerAndPermissionOfFile (caller : String) (file : String) (user : String)
      (group : String) (mode : Nat)
  | RemoveFile (caller : String) (file : String)
  | Link (target : String) (linkpath : String)
  | Symlink (target : String) (linkpath : String)
  | SyncDestinationFiles (URI : String)
  | StatusFdWrite (fd : Int) (text : String)
  | ExecWait (Process : Int) (Reap : Bool)
  | Close (fd : Int)
  deriving DecidableEq, Repr

/-- A call of `Owner->Failed`. -/
def Call.isFailed : Call → Bool
  | .Item e => e.isFailed
  | _ => false

/-- A call of `OwnerQ->Owner->Enqueue`. -/
def Call.isEnqueue : Call → Bool
  | .Item e => e.isEnqueue
  | _ => false

/-- A call of `Owner->IsRedirectionLoop`. -/
def Call.isLoopCheck : Call → Bool
  | .IsRedirectionLoop _ _ => true
  | _ => false

/-- A call of `Log->Fetched`. -/
def Call.isFetched : Call → Bool
  | .LogFetched _ _ => true
  | _ => false

/-- A creation of an auxiliary sub-item (`new pkgAcqAuxFile`). -/
def Call.isNewAuxFile : Call → Bool
  | .NewAuxFile _ _ _ _ _ _ => true
  | _ => false

/-- The message of a `Dispatch` mark. -/
def Call.dispatched : Call → Option (String × List String)
  | .Dispatch _ Message Pending => some (Message, Pending)
  | _ => none

/-- The parameters of `Env` together with the further functions and values the
worker takes from other translation units, the C library, the file system, the
configuration and the user interface:
`IsRedirectionLoop` is `Item::IsRedirectionLoop`; `EncodePath U` is the string of
the URI `U` with its path passed through `pkgAcquire::URIEncode`, `DeQuotePath U`
the same with `DeQuoteString`; `URIAccess` and `URIHost` are the fields of the
parsed URI; `FileSize` is `HashStringList::FileSize`; `HashFile E f` is the hash
list computed over file `f` for the algorithms of `E`; `QItemExpectedHashes`,
`Custom600Headers` and `GetMaximumSize` are the methods of `QItem`; `link` and
`symlink` say whether the system call succeeds; `Proxy key` is the value of the
configuration item `key`, if it exists; `StatusFd` is `APT::Status-Fd` (default
-1), `ConfigSendURIEncoded` is `Acquire::Send-URI-Encoded` (default true);
`LogMediaChange` is the answer of `Log->MediaChange`; `MediaChangePrompt` is the
localised prompt; `clock n` is the reading of `clock::now()`, in seconds, while
`n` messages are pending. -/
structure WorkerEnv extends Env where
  IsRedirectionLoop : Item → String → Bool
  EncodePath : String → String
  DeQuotePath : String → String
  URIAccess : String → String
  URIHost : String → String
  VectorizeString : String → Char → List String
  SupportedHashes : List String
  FileSize : HashStringList → Nat
  HashFile : HashStringList → String → HashStringList
  QItemExpectedHashes : QItem → HashStringList
  Custom600Headers : QItem → String
  GetMaximumSize : QItem → Nat
  RealFileExists : String → Bool
  link : String → String → Bool
  symlink : String → String → Bool
  flCombine : String → String → String
  atoi : String → Int
  Proxy : String → Option String
  SandboxUser : String
  ROOT_GROUP : String
  StatusFd : Int
  ConfigSendURIEncoded : Bool
  LogMediaChange : String → String → Bool
  MediaChangePrompt : String → String → String
  clock : Nat → Int

/-- The state of a `pkgAcquire::Worker` and of what it works on: the method
configuration, whether a progress sink is attached (`Log != nullptr`) and its
`MorePulses`, the child process and the two descriptors, the readiness flags, the
outbound buffer, the pending messages, the current item (an index into `Items`),
the status text, the items of the owning queue, the records made on the error sink
and the calls made so far, both in program order. -/
structure Worker where
  Config : MethodConfig
  Log : Bool
  MorePulses : Bool
  Process : Int
  InFd : Int
  OutFd : Int
  InReady : Bool
  OutReady : Bool
  OutQueue : String
  MessageQueue : List String
  CurrentItem : Option Nat
  Status : String
  Items : List QItem
  Errors : List (ErrorKind × String)
  Trace : List Call
  deriving DecidableEq, Repr

/-- How a run of `RunMessages` ends: it returns true, it returns false, or an
exception leaves it. -/
inductive RunResult
  | Success
  | Failure
  | Thrown
  deriving DecidableEq, Repr

/-- The C library's `isspace` in the C locale. -/
def isspace (c : Char) : Bool :=
  c = ' ' || c = '\t' || c = '\n' || c = '\r' || c.toNat = 11 || c.toNat = 12

/-- The C library's `strtoul(s, &End, 10)` on a 64-bit `unsigned long`: blanks are
skipped, a sign is taken, then the decimal digits; `none` stands for `End == s`
(no digits, nothing converted).  A value that does not fit gives `ULONG_MAX`, a
minus sign negates modulo 2^64. -/
def strtoul (s : String) : Option Nat :=
  let s1 := s.data.dropWhile isspace
  let neg := s1.head? = some '-'
  let s2 := if s1.head? = some '-' ∨ s1.head? = some '+' then s1.drop 1 else s1
  let ds := s2.takeWhile Char.isDigit
  if ds = [] then none
  else
    let v := ds.foldl (fun a c => 10 * a + (c.toNat - 48)) 0
    if 2 ^ 64 ≤ v then some (2 ^ 64 - 1)
    else if neg then some ((2 ^ 64 - v) % 2 ^ 64)
    else some v

/-- The value of `strtoull(s, NULL, 10)`: as `strtoul`, 0 when nothing converts. -/
def strtoull (s : String) : Nat := (strtoul s).getD 0

/-- The cast `static_cast<MessageType>(...)` of the `unsigned long` to the
32-bit enumeration, as the bit pattern it keeps. -/
def MessageNumber (v : Nat) : Nat := v % 2 ^ 32

/-- First owner of an item, `Itm->Owner`. -/
def QItem.Owner (Itm : QItem) : Option Item := Itm.Owners.head?

/-- The destination file `Itm->Owner->DestFile`. -/
def QItem.DestFile (Itm : QItem) : String :=
  match Itm.Owners with
  | [] => ""
  | Owner :: _ => Owner.DestFile

/-- Modelled from the spec: `Queue::FindItem` (acquire.cc is not among the sources)
finds the in-flight item of this worker for an incoming URI; the result is its
position in the arena. -/
def FindItem : List QItem → String → Option Nat
  | [], _ => none
  | Itm :: rest, URI =>
    if Itm.InFlight = true ∧ Itm.URI = URI then some 0
    else (FindItem rest URI).map (· + 1)

/-- Modelled from the spec: `Item::PushAlternativeURI(uri, {}, false)`
(acquire-item.cc is not among the sources) pushes the URI onto the owner's
alternate-URI stack. -/
def PushAlternativeURI (NewURI : String) (Owner : Item) : Item :=
  { Owner with AlternativeURIs := NewURI :: Owner.AlternativeURIs }

/-- Modelled from the spec: `Item::IsGoodAlternativeURI` (acquire-item.cc is not
among the sources) holds unless the URI is recorded as a bad alternative for the
owner, that is unless its site is among the owner's bad alternative sites. -/
def IsGoodAlternativeURI (env : Env) (AltUri : String) (Owner : Item) : Bool :=
  !(Owner.BadAlternativeSites.contains (env.SiteOnly AltUri))

/-- The static function `GetHashesFromMessage`. -/
def GetHashesFromMessage (env : WorkerEnv) (Prefix Message : String) : HashStringList :=
  env.SupportedHashes.filterMap (fun type =>
    let hashsum := env.LookupTag Message (Prefix ++ type ++ "-Hash") ""
    if hashsum = "" then none else some ⟨type, hashsum⟩)

/-! ## `RunMessages`: the handlers -/

/-- The owners of an item after a loop over them that handled the first ones (all
of them unless a pass threw): the handled owners in their new state, then the
owners the loop did not reach. -/
def mergeOwners (Owners handled : List Item) : List Item :=
  handled ++ Owners.drop handled.length

/-- The worker's `ItemDone()`. -/
def Worker.ItemDone (w : Worker) : Worker :=
  { w with CurrentItem := none, Status := "" }

/-- A record on the error sink (`_error->Error`, `_error->Warning`). -/
def Worker.error (w : Worker) (kind : ErrorKind) (text : String) : Worker :=
  { w with Errors := w.Errors ++ [(kind, text)] }

/-- The lookup `OwnerQ->FindItem(URI, this)`, done only for a non-empty URI:
the position of the item and the item. -/
def Worker.find (w : Worker) (URI : String) : Option (Nat × QItem) :=
  if URI = "" then none
  else
    match FindItem w.Items URI with
    | none => none
    | some i => (w.Items[i]?).map (fun Itm => (i, Itm))

/-- The update of the used mirror at the head of the loop of `RunMessages`
(lines 270-282), on the item the message is about. -/
def updateUsedMirror (env : WorkerEnv) (Message : String) (Itm : QItem) : QItem :=
  let UsedMirror := env.LookupTag Message "UsedMirror" ""
  if UsedMirror = "" then Itm
  else
    { Itm with
      Owners := Itm.Owners.map (fun O => { O with UsedMirror := UsedMirror })
      Description :=
        match strFind Itm.Description " " with
        | none => Itm.Description
        | some firstSpace => strReplaceHead Itm.Description firstSpace UsedMirror }

/-- Result of one pass of the loop over the owners in the `REDIRECT` case: the
owner, the variable `NewURI` (declared before the loop, so the next pass starts
from the value this pass leaves), the calls made, and whether the pass ended by a
thrown exception. -/
structure RedirectStep where
  Owner : Item
  NewURI : String
  Trace : List Call
  Thrown : Bool
  deriving DecidableEq, Repr

/-- The pushes of the alternate URIs of the message onto an owner's stack, last one
first; the URIs are re-encoded unless the method sends encoded URIs. -/
def pushAlternates (env : WorkerEnv) (SendURIEncoded : Bool) (AltUris : List String)
    (Owner : Item) : Item :=
  AltUris.reverse.foldl
    (fun O alt => PushAlternativeURI (if SendURIEncoded = true then alt else env.EncodePath alt) O)
    Owner

/-- The variable `simpleRetry`. -/
def isSimpleRetry (env : WorkerEnv) (SendURIEncoded : Bool) (GotNewURI : String)
    (Owner : Item) : Bool :=
  if SendURIEncoded = true then decide (Owner.Desc.URI = GotNewURI)
  else decide (GotNewURI = env.DeQuotePath Owner.Desc.URI)

/-- The URI and the owner after `if (IsGoodAlternativeURI(NewURI) == false &&
PopAlternativeURI(NewURI) == false) NewURI.clear();`: a good URI stays, a bad one is
replaced by the popped alternate, or cleared when there is none. -/
def replaceBadURI (env : WorkerEnv) (NewURI : String) (Owner : Item) : String × Item :=
  if IsGoodAlternativeURI env.toEnv NewURI Owner = false then
    match PopAlternativeURI Owner with
    | some (Popped, Owner1) => (Popped, Owner1)
    | none => ("", Owner)
  else (NewURI, Owner)

/-- Body of the loop `for (auto const &Owner : ItmOwners)` of the `REDIRECT` case
(lines 332-382).  `NewURI` is the value of the variable when the pass starts. -/
def RedirectOwner (env : WorkerEnv) (SendURIEncoded Log : Bool) (Message GotNewURI : String)
    (AltUris : List String) (NewURI : String) (Owner : Item) : RedirectStep :=
  let Owner1 := pushAlternates env SendURIEncoded AltUris Owner
  if isSimpleRetry env SendURIEncoded GotNewURI Owner = true then
    { Owner := Owner1
      NewURI := NewURI
      Trace := if isDoomedItem Owner1 = false then [Call.Item (Event.Enqueue Owner1.Desc)] else []
      Thrown := false }
  else
    let NewURI1 := (replaceBadURI env NewURI Owner1).1
    let Owner2 := (replaceBadURI env NewURI Owner1).2
    if NewURI1 = "" then
      { Owner := Owner2
        NewURI := NewURI1
        Trace := [Call.Item (Event.Failed Owner.ID (Message ++ "\nFailReason: RedirectionLoop"))] ++
          (if Log then [Call.Item (Event.LogFail Owner2.Desc)] else [])
        Thrown := false }
    else if env.IsRedirectionLoop Owner2 NewURI1 = true then
      { Owner := Owner2
        NewURI := NewURI1
        Trace := [Call.IsRedirectionLoop Owner.ID NewURI1,
            Call.Item (Event.Failed Owner.ID (Message ++ "\nFailReason: RedirectionLoop"))] ++
          (if Log then [Call.Item (Event.LogFail Owner2.Desc)] else [])
        Thrown := false }
    else
      let before := [Call.IsRedirectionLoop Owner.ID NewURI1] ++
        (if Log then [Call.Item (Event.LogDone Owner2.Desc)] else [])
      match ChangeSiteIsMirrorChange env.toEnv NewURI1 Owner2 with
      | none => { Owner := Owner2, NewURI := NewURI1, Trace := before, Thrown := true }
      | some Owner3 =>
        let Owner4 := { Owner3 with Desc := { Owner3.Desc with URI := NewURI1 } }
        { Owner := Owner4
          NewURI := NewURI1
          Trace := before ++
            (if isDoomedItem Owner4 = false then [Call.Item (Event.Enqueue Owner4.Desc)] else [])
          Thrown := false }

/-- The loop over `ItmOwners` of the `REDIRECT` case: one pass per owner, in order,
each starting from the `NewURI` the pass before left; a throwing pass ends the
loop. -/
def RedirectOwners (env : WorkerEnv) (SendURIEncoded Log : Bool) (Message GotNewURI : String)
    (AltUris : List String) : String → List Item → List RedirectStep
  | _, [] => []
  | NewURI, Owner :: rest =>
    let s := RedirectOwner env SendURIEncoded Log Message GotNewURI AltUris NewURI Owner
    if s.Thrown = true then [s]
    else s :: RedirectOwners env SendURIEncoded Log Message GotNewURI AltUris s.NewURI rest

/-- The case `MessageType::REDIRECT`.  The result says whether an exception left
the handler. -/
def RedirectCase (env : WorkerEnv) (w : Worker) (Message URI : String) :
    Option (Nat × QItem) → Worker × Bool
  | none => (w.error ErrorKind.Error "Method gave invalid 103 Redirect message", false)
  | some (i, Itm) =>
    let GotNewURI := env.LookupTag Message "New-URI" URI
    let ItmURI := if w.Config.SendURIEncoded = true then GotNewURI else env.EncodePath GotNewURI
    let AltUris := env.VectorizeString (env.LookupTag Message "Alternate-URIs" "") '\n'
    let Owners0 := Itm.Owners.map (fun O => { O with Status := ItemState.StatIdle })
    let steps := RedirectOwners env w.Config.SendURIEncoded w.Log Message GotNewURI AltUris
      ItmURI Owners0
    let Itm1 := { Itm with
      URI := ItmURI
      Owners := mergeOwners Owners0 (steps.map (fun s => s.Owner))
      InFlight := false }
    ({ w.ItemDone with
        Items := w.Items.set i Itm1
        Trace := w.Trace ++ [Call.QueueItemDone ItmURI] ++ (steps.map (fun s => s.Trace)).flatten },
      steps.any (fun s => s.Thrown))

/-- The case `MessageType::URI_START`. -/
def URIStartCase (env : WorkerEnv) (w : Worker) (Message : String) :
    Option (Nat × QItem) → Worker
  | none => w.error ErrorKind.Error "Method gave invalid 200 URI Start message"
  | some (i, Itm) =>
    let TotalSize := strtoull (env.LookupTag Message "Size" "0")
    let Itm1 := { Itm with
      CurrentSize := 0
      TotalSize := TotalSize
      ResumePoint := strtoull (env.LookupTag Message "Resume-Point" "0") }
    { w with
      CurrentItem := some i
      Items := w.Items.set i Itm1
      Trace := w.Trace ++ (Itm.Owners.map (fun Owner =>
        [Call.Start Owner.ID Message TotalSize] ++
        (if w.Log = true then
          (if w.MorePulses = true then [Call.LogPulse Owner.ID] else []) ++
            [Call.LogFetch Owner.Desc]
         else []))).flatten }

/-- The identity of the first owner of an item. -/
def QItem.OwnerID (Itm : QItem) : Nat :=
  match Itm.Owners with
  | [] => 0
  | Owner :: _ => Owner.ID

/-- The function `PrepareFiles`: the calls it makes on the file system and the
errors it records. -/
def PrepareFiles (env : WorkerEnv) (caller : String) (Itm : QItem) :
    List Call × List (ErrorKind × String) :=
  let filename := Itm.DestFile
  if env.RealFileExists filename = true then
    let perOwner := Itm.Owners.map (fun Owner =>
      if Owner.DestFile = filename ∨ filename = "/dev/null" then
        (([] : List Call), ([] : List (ErrorKind × String)))
      else if env.link filename Owner.DestFile = true then
        ([Call.RemoveFile "PrepareFiles" Owner.DestFile, Call.Link filename Owner.DestFile], [])
      else if env.symlink filename Owner.DestFile = true then
        ([Call.RemoveFile "PrepareFiles" Owner.DestFile, Call.Link filename Owner.DestFile,
          Call.Symlink filename Owner.DestFile], [])
      else
        ([Call.RemoveFile "PrepareFiles" Owner.DestFile, Call.Link filename Owner.DestFile,
          Call.Symlink filename Owner.DestFile],
         [(ErrorKind.Error,
            "Can't create (sym)link of file " ++ filename ++ " to " ++ Owner.DestFile)]))
    ([Call.ChangeOwnerAndPermissionOfFile caller filename "root" env.ROOT_GROUP 0o644] ++
        (perOwner.map (fun r => r.1)).flatten,
      (perOwner.map (fun r => r.2)).flatten)
  else
    (Itm.Owners.map (fun Owner => Call.RemoveFile "PrepareFiles" Owner.DestFile), [])

/-- The pulses "Display update before completion" of the `URI_DONE` and
`URI_FAILURE` cases. -/
def pulses (w : Worker) (Itm : QItem) : List Call :=
  if w.Log = true ∧ w.MorePulses = true then Itm.Owners.map (fun Owner => Call.LogPulse Owner.ID)
  else []

/-- The variable `filename` of the `URI_DONE` case: the `Filename` tag if the
message has one, else the destination file of the first owner. -/
def authoritativeFilename (env : WorkerEnv) (Message : String) (Itm : QItem) : String :=
  if env.LookupTag Message "Filename" "" = "" then Itm.DestFile
  else env.LookupTag Message "Filename" ""

/-- The variable `ReceivedHashes` of the `URI_DONE` case (lines 432-449): the
hashes of the message, or, when those are not usable and the expected ones are and
the file exists, the hashes computed over the file. -/
def receivedHashes (env : WorkerEnv) (Message : String) (Itm : QItem) : HashStringList :=
  if env.usable (GetHashesFromMessage env "" Message) = false then
    if env.usable (env.QItemExpectedHashes Itm) = true ∧
        env.RealFileExists (authoritativeFilename env Message Itm) = true then
      env.HashFile (env.QItemExpectedHashes Itm) (authoritativeFilename env Message Itm)
    else GetHashesFromMessage env "" Message
  else GetHashesFromMessage env "" Message

/-- The notification of the progress sink of the `URI_DONE` case (lines 451-453). -/
def fetchedCalls (env : WorkerEnv) (w : Worker) (Message : String) (Itm : QItem) : List Call :=
  match Itm.Owners with
  | [] => []
  | Owner :: _ =>
    if w.Log = true ∧ Owner.Complete = false ∧ Owner.Local = false ∧
        env.LookupTag Message "Filename" "" = authoritativeFilename env Message Itm then
      [Call.LogFetched (env.FileSize (receivedHashes env Message Itm))
        (env.atoi (env.LookupTag Message "Resume-Point" "0"))]
    else []

/-- The case `MessageType::URI_DONE`. -/
def URIDoneCase (env : WorkerEnv) (cfg : Configuration) (w : Worker) (Message : String) :
    Option (Nat × QItem) → Worker
  | none => w.error ErrorKind.Error "Method gave invalid 201 URI Done message"
  | some (i, Itm) =>
    let steps := URIDone env.toEnv cfg w.Log (receivedHashes env Message Itm) Message Itm.Owners
    let Itm1 := { Itm with
      Owners := mergeOwners Itm.Owners (steps.map (fun s => s.Owner))
      InFlight := false }
    { w.ItemDone with
      Items := w.Items.set i Itm1
      Errors := w.Errors ++ (PrepareFiles env "201::URIDone" Itm).2
      Trace := w.Trace ++ (PrepareFiles env "201::URIDone" Itm).1 ++ pulses w Itm ++
        fetchedCalls env w Message Itm ++ [Call.QueueItemDone Itm.URI] ++
        (steps.map (fun s => s.Trace.map Call.Item)).flatten }

/-- The state after a loop of `HandleFailure` over the owners of an item that was
taken off the queue: the owners written back, the calls appended. -/
def Worker.afterFailure (w : Worker) (i : Nat) (Itm : QItem) (steps : List Step) : Worker :=
  { w with
    Items := w.Items.set i { Itm with
      Owners := mergeOwners Itm.Owners (steps.map (fun s => s.Owner))
      InFlight := false }
    Trace := w.Trace ++ [Call.QueueItemDone Itm.URI] ++
      (steps.map (fun s => s.Trace.map Call.Item)).flatten }

/-- The case `MessageType::AUX_REQUEST`; `now` is the reading of the clock in
`HandleFailure`.  The result says whether an exception left the handler. -/
def AuxRequestCase (env : WorkerEnv) (cfg : Configuration) (now : Int) (w : Worker)
    (Message : String) : Option (Nat × QItem) → Worker × Bool
  | none => (w.error ErrorKind.Error "Method gave invalid Aux Request message", false)
  | some (i, Itm) =>
    if w.Config.AuxRequests = false then
      let Message1 := Message ++
        "\nMessage: Method tried to make an Aux Request while not being allowed to do them"
      let steps := HandleFailure env.toEnv cfg w.Config.LocalOnly w.Log now Message1 false false
        Itm.Owners
      if steps.any (fun s => s.Thrown) = true then
        (w.afterFailure i Itm steps, true)
      else
        ({ (w.afterFailure i Itm steps).ItemDone with
            OutQueue := w.OutQueue ++ ("600 URI Acquire\n" ++
              ("URI: " ++ env.LookupTag Message1 "Aux-URI" "") ++
              "\nFilename: /nonexistent/auxrequest.blocked" ++ "\n\n")
            OutReady := true }, false)
    else
      let maxsizestr := env.LookupTag Message "MaximumSize" ""
      ({ w with
          Trace := w.Trace ++ [Call.NewAuxFile Itm.OwnerID
            (env.LookupTag Message "Aux-ShortDesc" "")
            (env.LookupTag Message "Aux-Description" "") (env.LookupTag Message "Aux-URI" "")
            (GetHashesFromMessage env "Aux-" Message)
            (if maxsizestr = "" then 0 else strtoull maxsizestr)] }, false)

/-- The case `MessageType::URI_FAILURE`; `now` is the reading of the clock in
`HandleFailure`.  The result says whether an exception left the handler. -/
def URIFailureCase (env : WorkerEnv) (cfg : Configuration) (now : Int) (w : Worker)
    (Message : String) : Option (Nat × QItem) → Worker × Bool
  | none =>
    (w.error ErrorKind.Error
      ("Method gave invalid 400 URI Failure message: " ++ env.LookupTag Message "Message" ""),
     false)
  | some (i, Itm) =>
    let w1 := { w with
      Errors := w.Errors ++ (PrepareFiles env "400::URIFailure" Itm).2
      Trace := w.Trace ++ (PrepareFiles env "400::URIFailure" Itm).1 ++ pulses w Itm }
    let steps := URIFailure env.toEnv cfg w.Config.LocalOnly w.Log now Message Itm.Owners
    if steps.any (fun s => s.Thrown) = true then
      (w1.afterFailure i Itm steps, true)
    else
      ((w1.afterFailure i Itm steps).ItemDone, false)

/-- The function `Capabilities` (it returns true on every path). -/
def Capabilities (env : WorkerEnv) (w : Worker) (Message : String) : Worker :=
  { w with Config := { w.Config with
      Version := env.LookupTag Message "Version" ""
      SingleInstance := decide (env.StringToBool (env.LookupTag Message "Single-Instance" "") 0 ≠ 0)
      Pipeline := decide (env.StringToBool (env.LookupTag Message "Pipeline" "") 0 ≠ 0)
      SendConfig := decide (env.StringToBool (env.LookupTag Message "Send-Config" "") 0 ≠ 0)
      LocalOnly := decide (env.StringToBool (env.LookupTag Message "Local-Only" "") 0 ≠ 0)
      NeedsCleanup := decide (env.StringToBool (env.LookupTag Message "Needs-Cleanup" "") 0 ≠ 0)
      Removable := decide (env.StringToBool (env.LookupTag Message "Removable" "") 0 ≠ 0)
      AuxRequests := decide (env.StringToBool (env.LookupTag Message "AuxRequests" "") 0 ≠ 0)
      SendURIEncoded :=
        if env.ConfigSendURIEncoded = true then
          decide (env.StringToBool (env.LookupTag Message "Send-URI-Encoded" "") 0 ≠ 0)
        else w.Config.SendURIEncoded } }

/-- The function `MediaChange`. -/
def MediaChange (env : WorkerEnv) (w : Worker) (Message : String) : Worker :=
  let Media := env.LookupTag Message "Media" ""
  let Drive := env.LookupTag Message "Drive" ""
  let statusCalls :=
    if 0 < env.StatusFd then
      [Call.StatusFdWrite env.StatusFd
        ("media-change: " ++ Media ++ ":" ++ Drive ++ ":" ++ env.MediaChangePrompt Media Drive
          ++ "\n")]
    else []
  if w.Log = false then
    { w with
      Trace := w.Trace ++ statusCalls
      OutQueue := w.OutQueue ++ "603 Media Changed\nFailed: true\n\n"
      OutReady := true }
  else if env.LogMediaChange Media Drive = false then
    { w with
      Trace := w.Trace ++ statusCalls ++ [Call.LogMediaChange Media Drive]
      OutQueue := w.OutQueue ++ "603 Media Changed\nFailed: true\n\n"
      OutReady := true }
  else
    { w with
      Trace := w.Trace ++ statusCalls ++ [Call.LogMediaChange Media Drive]
      OutQueue := w.OutQueue ++ "603 Media Changed\n\n"
      OutReady := true }

/-- The text of the `_error->Warning` of the `WARNING` case. -/
def warningText (env : WorkerEnv) (w : Worker) (Message : String) :
    Option (Nat × QItem) → String
  | some (_, Itm) =>
    (match Itm.Owners with
      | [] => w.Config.Access
      | Owner :: _ => Owner.Desc.URI) ++ ": " ++ env.LookupTag Message "Message" ""
  | none => w.Config.Access ++ ": " ++ env.LookupTag Message "Message" ""

/-- One pass of the loop of `RunMessages` after the message number was read: the
lookup of the item, the update of the used mirror, and the `switch`.  `w` is the
worker with the message already erased from its queue.  Any other number falls
through the `switch`.  The result says whether an exception left the handler. -/
def dispatch (env : WorkerEnv) (cfg : Configuration) (w : Worker) (Number : Nat)
    (Message : String) : Worker × Bool :=
  let URI := env.LookupTag Message "URI" ""
  let Itm := (w.find URI).map (fun f => (f.1, updateUsedMirror env Message f.2))
  let w1 :=
    match Itm with
    | none => w
    | some (i, Itm1) => { w with Items := w.Items.set i Itm1 }
  let w2 := { w1 with Trace := w1.Trace ++ [Call.Dispatch Number Message w.MessageQueue] }
  if Number = 100 then (Capabilities env w2 Message, false)
  else if Number = 101 then (w2, false)
  else if Number = 102 then ({ w2 with Status := env.LookupTag Message "Message" "" }, false)
  else if Number = 103 then RedirectCase env w2 Message URI Itm
  else if Number = 104 then
    (w2.error ErrorKind.Warning (warningText env w2 Message Itm), false)
  else if Number = 200 then (URIStartCase env w2 Message Itm, false)
  else if Number = 201 then (URIDoneCase env cfg w2 Message Itm, false)
  else if Number = 351 then
    AuxRequestCase env cfg (env.clock w.MessageQueue.length) w2 Message Itm
  else if Number = 400 then
    URIFailureCase env cfg (env.clock w.MessageQueue.length) w2 Message Itm
  else if Number = 401 then
    (w2.error ErrorKind.Error
      ("Method " ++ w2.Config.Access ++ " General failure: " ++
        env.LookupTag Message "Message" ""), false)
  else if Number = 403 then (MediaChange env w2 Message, false)
  else (w2, false)

/-- The loop of `RunMessages`, with a bound on the number of passes: `none` when
the bound is used up with messages still pending. -/
def RunMessagesLoop (env : WorkerEnv) (cfg : Configuration) :
    Nat → Worker → Option (Worker × RunResult)
  | fuel, w =>
    match w.MessageQueue with
    | [] => some (w, RunResult.Success)
    | Message :: rest =>
      match fuel with
      | 0 => none
      | fuel1 + 1 =>
        let w1 := { w with MessageQueue := rest }
        match strtoul Message with
        | none =>
          some (w1.error ErrorKind.Error
            ("Invalid message from method " ++ w.Config.Access ++ ": " ++ Message),
            RunResult.Failure)
        | some v =>
          let r := dispatch env cfg w1 (MessageNumber v) Message
          if r.2 = true then some (r.1, RunResult.Thrown)
          else RunMessagesLoop env cfg fuel1 r.1

/-- The function `RunMessages`: the loop, bounded by the number of pending
messages. -/
def RunMessages (env : WorkerEnv) (cfg : Configuration) (w : Worker) :
    Option (Worker × RunResult) :=
  RunMessagesLoop env cfg w.MessageQueue.length w

/-! ## The I/O pump, `QueueItem` and `ReplyAux` -/

/-- The function `MethodFailure`; the second component is its return value. -/
def MethodFailure (w : Worker) : Worker × Bool :=
  ({ w with
      Errors := w.Errors ++
        [(ErrorKind.Error, "Method " ++ w.Config.Access ++ " has died unexpectedly!")]
      Trace := w.Trace ++ [Call.ExecWait w.Process false, Call.Close w.InFd, Call.Close w.OutFd]
      Process := -1
      InFd := -1
      OutFd := -1
      OutReady := false
      InReady := false
      OutQueue := ""
      MessageQueue := [] }, false)

/-- The loop `do Res = write(...) while (Res < 0 && errno == EINTR)` of
`OutFdReady`, run on the outcomes of the successive calls of `write`, each given as
the value stored in `int Res` and whether `errno` is `EINTR`: the result that ends
the loop, `none` when only interrupted calls are listed. -/
def writeLoop : List (Int × Bool) → Option Int
  | [] => none
  | (Res, eintr) :: rest =>
    if Res < 0 ∧ eintr = true then writeLoop rest else some Res

/-- The function `OutFdReady`, on the outcomes of the successive calls of `write`;
the second component is its return value. -/
def OutFdReady (w : Worker) (writes : List (Int × Bool)) : Option (Worker × Bool) :=
  match writeLoop writes with
  | none => none
  | some Res =>
    if Res ≤ 0 then some (MethodFailure w)
    else
      some ({ w with
        OutQueue := ⟨w.OutQueue.data.drop Res.toNat⟩
        OutReady := if w.OutQueue.data.drop Res.toNat = [] then false else w.OutReady }, true)

/-- The member function `ReadMessages`, on the outcome of the global
`ReadMessages(InFd, MessageQueue)`: `none` when it returns false (a read returned
0 or -1), else the complete messages it appended to the queue. -/
def ReadMessages (w : Worker) (read : Option (List String)) : Worker × Bool :=
  match read with
  | none => MethodFailure w
  | some Messages => ({ w with MessageQueue := w.MessageQueue ++ Messages }, true)

/-- The function `InFdReady`: how the call ends (`Success` for the return value
true, `Failure` for false).  The return value of `RunMessages` is not looked at. -/
def InFdReady (env : WorkerEnv) (cfg : Configuration) (w : Worker)
    (read : Option (List String)) : Option (Worker × RunResult) :=
  if (ReadMessages w read).2 = false then some ((ReadMessages w read).1, RunResult.Failure)
  else
    match RunMessages env cfg (ReadMessages w read).1 with
    | none => none
    | some (w1, RunResult.Thrown) => some (w1, RunResult.Thrown)
    | some (w1, _) => some (w1, RunResult.Success)

/-- The text of the `600 URI Acquire` record `QueueItem` builds for an item. -/
def QueueItemMessage (env : WorkerEnv) (w : Worker) (Item : QItem) : String :=
  let Message1 := "600 URI Acquire\n" ++
    (if w.Config.SendURIEncoded = true then "URI: " ++ Item.URI
     else "URI: " ++ env.DeQuotePath Item.URI) ++
    ("\nFilename: " ++ Item.DestFile)
  let Message2 :=
    if env.URIAccess Item.URI = "http" ∨ env.URIAccess Item.URI = "https" then
      match env.Proxy ("Acquire::" ++ env.URIAccess Item.URI ++ "::proxy::" ++
          env.URIHost Item.URI) with
      | some proxy => Message1 ++ ("\nProxy: " ++ proxy)
      | none => Message1
    else Message1
  let hsl := env.QItemExpectedHashes Item
  let Message3 := hsl.foldl
    (fun M hs => M ++ ("\nExpected-" ++ hs.HashType ++ ": " ++ hs.HashValue)) Message2
  let Message4 := Message3 ++ env.Custom600Headers Item
  let Message5 :=
    if env.FileSize hsl = 0 ∧ strContains Message4 "\nMaximum-Size: " = false then
      if 0 < env.GetMaximumSize Item then
        Message4 ++ ("\nMaximum-Size: " ++ toString (env.GetMaximumSize Item))
      else Message4
    else Message4
  Message5 ++ "\n\n"

/-- The function `QueueItem`; the second component is its return value. -/
def QueueItem (env : WorkerEnv) (w : Worker) (Item : QItem) : Worker × Bool :=
  if w.OutFd = -1 then (w, false)
  else
    match Item.Owners with
    | [] => (w, true)
    | Owner :: _ =>
      if isDoomedItem Owner = true then (w, true)
      else
        ({ w with
            Trace := w.Trace ++ [Call.SyncDestinationFiles Item.URI] ++
              (if env.RealFileExists Owner.DestFile = true then
                [Call.ChangeOwnerAndPermissionOfFile "Item::QueueURI" Owner.DestFile
                  env.SandboxUser env.ROOT_GROUP 0o600]
               else [])
            OutQueue := w.OutQueue ++ QueueItemMessage env w Item
            OutReady := true }, true)

/-- The function `ReplyAux`, for an item description and the owner it points to;
the second component is its return value. -/
def ReplyAux (env : WorkerEnv) (w : Worker) (Item : ItemDesc) (Owner : AptWorker.Item) :
    Worker × Bool :=
  if w.OutFd = -1 then (w, false)
  else if isDoomedItem Owner = true then (w, true)
  else
    let head := "600 URI Acquire\n" ++ ("URI: " ++ Item.URI)
    if env.RealFileExists Owner.DestFile = true then
      if Owner.Status = ItemState.StatDone then
        ({ w with
            Trace := w.Trace ++ [Call.ChangeOwnerAndPermissionOfFile "Worker::ReplyAux"
              Owner.DestFile env.SandboxUser env.ROOT_GROUP 0o600]
            OutQueue := w.OutQueue ++ (head ++ ("\nFilename: " ++ Owner.DestFile) ++ "\n\n")
            OutReady := true }, true)
      else
        ({ w with
            OutQueue := w.OutQueue ++
              (head ++ ("\nFilename: " ++ env.flCombine "/nonexistent" Owner.DestFile) ++ "\n\n")
            OutReady := true }, true)
    else
      ({ w with
          OutQueue := w.OutQueue ++ (head ++ ("\nFilename: " ++ Owner.DestFile) ++ "\n\n")
          OutReady := true }, true)

/-! ## A concrete worker -/

/-- Split a string at every occurrence of a character, as `VectorizeString` does
for a non-empty string; the empty string gives no piece. -/
def refVectorizeString (haystack : String) (split : Char) : List String :=
  if haystack = "" then []
  else
    (haystack.data.foldr
      (fun c acc =>
        match acc with
        | [] => [[c]]
        | l :: ls => if c = split then [] :: l :: ls else (c :: l) :: ls)
      [[]]).map (fun l => String.mk l)

/-- The file size of a hash list: the value of its `Checksum-FileSize` entry, 0
when it has none. -/
def refFileSize (l : HashStringList) : Nat :=
  match l.find? (fun h => h.HashType = "Checksum-FileSize") with
  | some h => strtoull h.HashValue
  | none => 0

/-- The reference environment of the worker: the reference `Env`; no redirection
was seen before (`IsRedirectionLoop` is false); plain paths, which encoding and
de-quoting leave as they are; the hash algorithms of apt; no file exists; links
succeed; no proxy; no status descriptor; the user interface accepts a media
change; the clock reads 1000. -/
def refWorkerEnv : WorkerEnv :=
  { toEnv := refEnv
    IsRedirectionLoop := fun _ _ => false
    EncodePath := fun U => U
    DeQuotePath := fun U => U
    URIAccess := fun U =>
      match findSub "://".data U.data with
      | some p => ⟨U.data.take p⟩
      | none => ""
    URIHost := fun U =>
      match findSub "://".data U.data with
      | some p => ⟨(U.data.drop (p + 3)).takeWhile (fun c => c ≠ '/')⟩
      | none => ""
    VectorizeString := refVectorizeString
    SupportedHashes := ["SHA512", "SHA256", "SHA1", "MD5Sum", "Checksum-FileSize"]
    FileSize := refFileSize
    HashFile := fun Expected _ => Expected
    QItemExpectedHashes := fun Itm =>
      match Itm.Owners with
      | [] => []
      | Owner :: _ => Owner.ExpectedHashes
    Custom600Headers := fun _ => ""
    GetMaximumSize := fun _ => 0
    RealFileExists := fun _ => false
    link := fun _ _ => true
    symlink := fun _ _ => true
    flCombine := fun Dir File => Dir ++ "/" ++ File
    atoi := fun s => ((strtoul s).getD 0 : Nat)
    Proxy := fun _ => none
    SandboxUser := "_apt"
    ROOT_GROUP := "root"
    StatusFd := -1
    ConfigSendURIEncoded := true
    LogMediaChange := fun _ _ => true
    MediaChangePrompt := fun Media Drive =>
      "Please insert the disc labeled: '" ++ Media ++ "' in the drive '" ++ Drive ++
        "' and press [Enter]."
    clock := fun _ => 1000 }

/-- The method configuration of an `http` method that sends encoded URIs and may
not make aux requests. -/
def httpConfig : MethodConfig :=
  { Access := "http", Version := "1.2", SingleInstance := false, Pipeline := true,
    SendConfig := true, LocalOnly := false, NeedsCleanup := false, Removable := false,
    AuxRequests := false, SendURIEncoded := true }

/-- The item of scenario E2: the URI `http://a/x` in flight for `ownerE2`. -/
def itemE2 : QItem :=
  { URI := "http://a/x", Description := "http://a stable InRelease", Owners := [ownerE2],
    TotalSize := 0, CurrentSize := 0, ResumePoint := 0, InFlight := true }

/-- A running worker of the `http` method with a progress sink attached, the item
of scenario E2 in flight and nothing pending. -/
def workerE2 : Worker :=
  { Config := httpConfig, Log := true, MorePulses := false, Process := 4242, InFd := 5,
    OutFd := 6, InReady := true, OutReady := false, OutQueue := "", MessageQueue := [],
    CurrentItem := none, Status := "", Items := [itemE2], Errors := [], Trace := [] }

/-- An owner as `ownerE2` whose description does not start with its site. -/
def ownerPlain : Item :=
  { ownerE2 with
    ID := 5
    Desc := { URI := "http://a/x", Description := "Debian stable InRelease",
              ShortDesc := "InRelease", Owner := 5 } }

/-- The item of `ownerBare`: the URI `http://a` in flight. -/
def itemBare : QItem :=
  { URI := "http://a", Description := "http://a stable", Owners := [ownerBare],
    TotalSize := 0, CurrentSize := 0, ResumePoint := 0, InFlight := true }

/-- A running worker as `workerE2` with the item of `ownerBare` in flight and
current. -/
def workerBare : Worker :=
  { workerE2 with Items := [itemBare], CurrentItem := some 0 }

/-- A call that is neither a `Dispatch` mark nor a `Log->Fetched`. -/
def Call.plain (c : Call) : Bool := c.dispatched.isNone && !c.isFetched

/-- The `Dispatch` marks of a list of calls: the messages `RunMessages` handled, in
the order in which it handled them, each with the messages pending at that
point. -/
def marks (t : List Call) : List (String × List String) := t.filterMap Call.dispatched

/-- The successive states of a queue that is worked off from the front, one
message at a time: each message with the messages behind it. -/
def inOrder : List String → List (String × List String)
  | [] => []
  | Message :: rest => (Message, rest) :: inOrder rest

/-- What every handler of `RunMessages` keeps: it leaves the pending messages as
they are, and it only appends calls, none of them a `Dispatch` mark. -/
def Extends (w w2 : Worker) : Prop :=
  w2.MessageQueue = w.MessageQueue ∧
  ∃ t, w2.Trace = w.Trace ++ t ∧ ∀ c ∈ t, c.dispatched = none

/-! ## The counter `Retries` across an operation -/

/-- An owner before and after an operation of the worker: the counter `Retries`
is the same, or it was positive and went down by exactly one, which needs
`retried`. -/
def RetriesKept (retried : Prop) (o o2 : Item) : Prop :=
  o2.Retries = o.Retries ∨ (o2.Retries + 1 = o.Retries ∧ retried)

/-- The owners of one item before and after an operation, position by position. -/
def OwnersKept (retried : Prop) (l l2 : List Item) : Prop :=
  List.Forall₂ (RetriesKept retried) l l2

/-- The items of a worker before and after an operation, position by position. -/
def ItemsKept (retried : Prop) (L L2 : List QItem) : Prop :=
  List.Forall₂ (fun I I2 => OwnersKept retried I.Owners I2.Owners) L L2

/-- The items of a worker after a handler ran for the item `itm` the message is
about: the items are as before, or that item was written back at its position
with the counters of its owners kept. -/
def HandlerKept (retried : Prop) (Items : List QItem) (itm : Option (Nat × QItem))
    (Items2 : List QItem) : Prop :=
  Items2 = Items ∨
    ∃ i Itm Itm1, itm = some (i, Itm) ∧ Items2 = Items.set i Itm1 ∧
      OwnersKept retried Itm.Owners Itm1.Owners

/-- The items of a worker before and after a run of operations, position by
position: no counter `Retries` is higher than before. -/
def ItemsNotUp (L L2 : List QItem) : Prop :=
  List.Forall₂
    (fun I I2 => List.Forall₂ (fun o o2 => o2.Retries ≤ o.Retries) I.Owners I2.Owners) L L2

/-! ## `403 Media Change` -/

/-- A write to the descriptor of `APT::Status-Fd` (`FileFd::Write(status_fd, ...)`). -/
def Call.isStatusFdWrite : Call → Bool
  | .StatusFdWrite _ _ => true
  | _ => false

/-- The reference environment with `APT::Status-Fd` set to 3. -/
def statusEnv : WorkerEnv := { refWorkerEnv with StatusFd := 3 }

/-- The reference environment with `APT::Status-Fd` set to 0. -/
def statusZeroEnv : WorkerEnv := { refWorkerEnv with StatusFd := 0 }

/-! ## A redirect on an item with two owners -/

/-- A call that settles a redirect for the owner with the given identity: the
call of `Failed` on it, or the call of `Enqueue` with its description. -/
def Call.outcomeOf (ID : Nat) : Call → Bool
  | .Item (Event.Failed owner _) => owner == ID
  | .Item (Event.Enqueue desc) => desc.Owner == ID
  | _ => false

/-- The owner `ownerE2` for which the site `http://b` is recorded as a bad
alternative and which has the alternate URI `http://c/x`. -/
def ownerBurnt : Item :=
  { ownerE2 with BadAlternativeSites := ["http://b"], AlternativeURIs := ["http://c/x"] }

/-- The owner `ownerE2` for which the site `http://b` is recorded as a bad
alternative and which has no alternate URI. -/
def ownerBurntOut : Item :=
  { ownerE2 with BadAlternativeSites := ["http://b"] }

/-- A running worker whose item `http://a/x` has two owners, `first` and then
`ownerOther`, and which has received a redirect of that item to `http://b/x`. -/
def workerShared (first : Item) : Worker :=
  { workerE2 with
    Items := [{ itemE2 with Owners := [first, ownerOther] }]
    MessageQueue := ["103 Redirect\nURI: http://a/x\nNew-URI: http://b/x"] }

/-! ## Construction and start of a worker -/

/-- The constructor of a worker for a queue, with `Construct()`: no process, no
descriptors, both readiness flags false, the strings and the message list empty,
no current item.  `Items` are the items of the owning queue; the error sink and
the list of calls start empty. -/
def Construct (Cnf : MethodConfig) (Log MorePulses : Bool) (Items : List QItem) : Worker :=
  { Config := Cnf, Log := Log, MorePulses := MorePulses, Process := -1, InFd := -1,
    OutFd := -1, InReady := false, OutReady := false, OutQueue := "", MessageQueue := [],
    CurrentItem := none, Status := "", Items := Items, Errors := [], Trace := [] }

/-- The function `SendConfiguration`; the second component is its return value.
`ConfigExists` is `_config->Exists("Acquire::Send-URI-Encoded")`, `ConfigDump` the
text `_config->Dump` writes with the format `Config-Item: %F=%V\n`. -/
def SendConfiguration (ConfigExists : Bool) (ConfigDump : String) (w : Worker) :
    Worker × Bool :=
  if w.Config.SendConfig = false then (w, true)
  else if w.OutFd = -1 then (w, false)
  else
    ({ w with
        OutQueue := w.OutQueue ++
          ("601 Configuration\n" ++
            (if ConfigExists = false then "Config-Item: Acquire::Send-URI-Encoded=1\n" else "") ++
            ConfigDump ++ "\n")
        OutReady := true }, true)

/-- What `Start` finds outside the worker: `ConfiguredMethod` is the file of
`Dir::Bin::Methods::<Access>` if that item exists, `MethodsDir` the directory
`Dir::Bin::Methods`; `FileExists` and `flNotDir` are the functions of fileutl.cc;
`PipesOk` says whether both calls of `pipe` succeeded and `Pipes` is the array
after them; `ExecFork` is the value `ExecFork()` returns; `WaitFd` is the result of
`WaitFd(InFd)`; `read` is the outcome of the first `ReadMessages`; `HasOwnerQ` is
`OwnerQ != 0`; `ConfigExists` and `ConfigDump` are the inputs of
`SendConfiguration`. -/
structure StartEnv where
  ConfiguredMethod : Option String
  MethodsDir : String
  FileExists : String → Bool
  flNotDir : String → String
  PipesOk : Bool
  Pipes : Int × Int × Int × Int
  ExecFork : Int
  WaitFd : Bool
  read : Option (List String)
  HasOwnerQ : Bool
  ConfigExists : Bool
  ConfigDump : String

/-- The function `Start`, in the process that called it: how the call ends
(`Success` for the return value true, `Failure` for false, `Thrown` for an
exception that left `RunMessages`).  In the child process (`ExecFork()` returned
0) the call does not return: the process image is replaced or the process exits;
that is `none`.  The flags set on the descriptors are not modelled. -/
def Start (env : WorkerEnv) (cfg : Configuration) (se : StartEnv) (w : Worker) :
    Option (Worker × RunResult) :=
  let Access := w.Config.Access
  if se.ConfiguredMethod = none ∧ (Access = "ftp" ∨ Access = "rsh" ∨ Access = "ssh") then
    some (w.error ErrorKind.Error
      ("The method '" ++ Access ++ "' is unsupported and disabled by default. Consider " ++
        "switching to http(s). Set Dir::Bin::Methods::" ++ Access ++ " to \"" ++ Access ++
        "\" to enable it again."), RunResult.Failure)
  else
    let Method := se.ConfiguredMethod.getD (se.MethodsDir ++ Access)
    if se.FileExists Method = false then
      if se.flNotDir Method = "false" then
        let w1 := w.error ErrorKind.Error
          ("The method '" ++ Access ++ "' is explicitly disabled via configuration.")
        if Access = "http" ∨ Access = "https" then
          some (w1.error ErrorKind.Notice
            ("If you meant to use Tor remember to use tor+" ++ Access ++ " instead of " ++
              Access ++ "."), RunResult.Failure)
        else some (w1, RunResult.Failure)
      else
        some ((w.error ErrorKind.Error
            ("The method driver " ++ Method ++ " could not be found.")).error
          ErrorKind.Notice
          ("Is the package apt-transport-" ++
            (⟨Access.data.takeWhile (fun c => c ≠ '+')⟩ : String) ++ " installed?"),
          RunResult.Failure)
    else if se.PipesOk = false then
      some ({ w.error ErrorKind.Errno "Failed to create IPC pipe to subprocess" with
          Trace := w.Trace ++ [Call.Close se.Pipes.1, Call.Close se.Pipes.2.1,
            Call.Close se.Pipes.2.2.1, Call.Close se.Pipes.2.2.2] }, RunResult.Failure)
    else if se.ExecFork = 0 then none
    else
      let w1 := { w with
        Process := se.ExecFork
        InFd := se.Pipes.1
        OutFd := se.Pipes.2.2.2
        OutReady := false
        InReady := true
        Trace := w.Trace ++ [Call.Close se.Pipes.2.1, Call.Close se.Pipes.2.2.1] }
      if se.WaitFd = false then
        some (w1.error ErrorKind.Error ("Method " ++ Method ++ " did not start correctly"),
          RunResult.Failure)
      else if (ReadMessages w1 se.read).2 = false then
        some ((ReadMessages w1 se.read).1.error ErrorKind.Error
          ("Method " ++ Method ++ " did not start correctly"), RunResult.Failure)
      else
        match RunMessages env cfg (ReadMessages w1 se.read).1 with
        | none => none
        | some (w2, RunResult.Thrown) => some (w2, RunResult.Thrown)
        | some (w2, _) =>
          if se.HasOwnerQ = true then
            some ((SendConfiguration se.ConfigExists se.ConfigDump w2).1, RunResult.Success)
          else some (w2, RunResult.Success)

/-- The states of a worker that can be reached: a worker is constructed, started
once, and then `QueueItem`, `ReplyAux`, `SendConfiguration`, `RunMessages`,
`InFdReady`, `OutFdReady` and `MethodFailure` are called on it in any order and
with any arguments and outcomes of the system calls, while the owning queue may
change its items between two calls. -/
inductive Reachable (env : WorkerEnv) (cfg : Configuration) : Worker → Prop
  | constructed (Cnf : MethodConfig) (Log MorePulses : Bool) (Items : List QItem) :
    Reachable env cfg (Construct Cnf Log MorePulses Items)
  | started (se : StartEnv) (Cnf : MethodConfig) (Log MorePulses : Bool)
      (Items : List QItem) (w2 : Worker) (r : RunResult) :
    Start env cfg se (Construct Cnf Log MorePulses Items) = some (w2, r) →
    Reachable env cfg w2
  | queueItem (w : Worker) (Item : QItem) :
    Reachable env cfg w → Reachable env cfg (QueueItem env w Item).1
  | replyAux (w : Worker) (Item : ItemDesc) (Owner : AptWorker.Item) :
    Reachable env cfg w → Reachable env cfg (ReplyAux env w Item Owner).1
  | sendConfiguration (w : Worker) (ConfigExists : Bool) (ConfigDump : String) :
    Reachable env cfg w → Reachable env cfg (SendConfiguration ConfigExists ConfigDump w).1
  | runMessages (w w2 : Worker) (r : RunResult) :
    Reachable env cfg w → RunMessages env cfg w = some (w2, r) → Reachable env cfg w2
  | inFdReady (w : Worker) (read : Option (List String)) (w2 : Worker) (r : RunResult) :
    Reachable env cfg w → InFdReady env cfg w read = some (w2, r) → Reachable env cfg w2
  | outFdReady (w : Worker) (writes : List (Int × Bool)) (w2 : Worker) (b : Bool) :
    Reachable env cfg w → OutFdReady w writes = some (w2, b) → Reachable env cfg w2
  | methodFailure (w : Worker) :
    Reachable env cfg w → Reachable env cfg (MethodFailure w).1
  | queue (w : Worker) (Items : List QItem) :
    Reachable env cfg w → Reachable env cfg { w with Items := Items }

/-- A pipe to a started method: what `Start` finds when the method `http` exists,
the pipes are made and the method sends its capabilities. -/
def startHttp : StartEnv :=
  { ConfiguredMethod := none
    MethodsDir := "/usr/lib/apt/methods/"
    FileExists := fun _ => true
    flNotDir := fun f => f
    PipesOk := true
    Pipes := (5, 7, 8, 6)
    ExecFork := 4242
    WaitFd := true
    read := some ["100 Capabilities\nVersion: 1.2\nPipeline: true\nSend-Config: true"]
    HasOwnerQ := true
    ConfigExists := true
    ConfigDump := "Config-Item: APT::Architecture=amd64\n" }

/-- What an operation of the worker does to the outbound buffer and to `OutReady`:
it leaves both alone, or it ends with the flag set and the buffer not empty, or it
ends with the flag cleared and the buffer empty. -/
def OutStep (w w2 : Worker) : Prop :=
  (w2.OutQueue = w.OutQueue ∧ w2.OutReady = w.OutReady) ∨
    (w2.OutReady = true ∧ w2.OutQueue ≠ "") ∨ (w2.OutReady = false ∧ w2.OutQueue = "")

/-- The worker `Start` leaves for `startHttp` and a worker constructed for the
`http` method with the item of scenario E2 on its queue: the capabilities are read
and the configuration is waiting in the outbound buffer. -/
def startedHttp : Worker :=
  { workerE2 with
    Config := { httpConfig with SendURIEncoded := false }
    OutReady := true
    OutQueue := "601 Configuration\nConfig-Item: APT::Architecture=amd64\n\n"
    Trace := [Call.Close 7, Call.Close 8,
      Call.Dispatch 100 "100 Capabilities\nVersion: 1.2\nPipeline: true\nSend-Config: true" []] }

/-- The reference environment of the worker in which every file exists. -/
def fileEnv : WorkerEnv := { refWorkerEnv with RealFileExists := fun _ => true }

/-! ## An item with two owners, the first of which makes the relabelling throw -/

/-- The owner `ownerBare` with no retry left. -/
def ownerBareSpent : Item := { ownerBare with Retries := 0 }

/-- A second owner of the URI of `ownerBare`, with two retries left and no
alternate URI. -/
def ownerBehind : Item :=
  { ownerBare with
    ID := 7
    Desc := { ownerBare.Desc with Owner := 7 }
    Retries := 2
    AlternativeURIs := [] }

/-- The owner `ownerBehind` in a transaction that has been aborted: a doomed
owner. -/
def ownerBehindDoomed : Item :=
  { ownerBehind with
    ID := 8
    Desc := { ownerBehind.Desc with Owner := 8 }
    Transaction := some TransactionStates.TransactionAbort }

/-- A running worker with a progress sink attached whose current item, the URI
`http://a`, has the given owners, and which has received the given message. -/
def workerOwners (Owners : List Item) (Message : String) : Worker :=
  { workerBare with
    Items := [{ itemBare with Owners := Owners }]
    MessageQueue := [Message] }

/-- A call of the progress sink (`Log->Done`, `Log->IMSHit`, `Log->Fail`) for the
description of the owner with the given identity. -/
def Call.isUIFor (ID : Nat) : Call → Bool
  | .Item (Event.LogDone desc) => desc.Owner == ID
  | .Item (Event.LogIMSHit desc) => desc.Owner == ID
  | .Item (Event.LogFail desc) => desc.Owner == ID
  | _ => false

/-- A call that concerns the owner with the given identity: a call on the owner,
an `Enqueue` of its description, or a call of the progress sink for it. -/
def Call.concerns (ID : Nat) : Call → Bool
  | .Item (Event.VerifyDone owner _) => owner == ID
  | .Item (Event.Done owner _ _) => owner == ID
  | .Item (Event.Failed owner _) => owner == ID
  | .Item (Event.FailMessage owner _) => owner == ID
  | .Item (Event.Enqueue desc) => desc.Owner == ID
  | .Item (Event.LogDone desc) => desc.Owner == ID
  | .Item (Event.LogIMSHit desc) => desc.Owner == ID
  | .Item (Event.LogFail desc) => desc.Owner == ID
  | _ => false

/-- The value of the variable `NewURI` when the loop of the `REDIRECT` case comes
to the owner at position `i`: the URI of the item for the first owner, afterwards
the value the owners before left. -/
def newURIAt (env : WorkerEnv) (SendURIEncoded Log : Bool) (Message GotNewURI : String)
    (AltUris : List String) : String → List Item → Nat → String
  | NewURI, [], _ => NewURI
  | NewURI, _ :: _, 0 => NewURI
  | NewURI, Owner :: rest, i + 1 =>
    newURIAt env SendURIEncoded Log Message GotNewURI AltUris
      (RedirectOwner env SendURIEncoded Log Message GotNewURI AltUris NewURI Owner).NewURI rest i

end AptWorker

/-! # Theorems -/

namespace AptWorker

/-! ## Strings -/

theorem findSub_isSome_of_infix (pat : List Char) :
    ∀ s : List Char, pat <:+: s → (findSub pat s).isSome = true := by
  intro s
  induction s with
  | nil =>
    intro h
    have : pat = [] := List.eq_nil_of_infix_nil h
    simp [findSub, this]
  | cons c cs ih =>
    intro h
    unfold findSub
    by_cases hp : pat.isPrefixOf (c :: cs) = true
    · simp [hp]
    · rcases List.infix_cons_iff.mp h with h1 | h1
      · exact absurd (List.isPrefixOf_iff_prefix.mpr h1) hp
      · have := ih h1
        simp only [hp]
        cases hf : findSub pat cs with
        | none => simp [hf] at this
        | some n => simp

theorem strContains_append_tail (M a b : String) :
    strContains (M ++ (a ++ b)) b = true := by
  unfold strContains strFind
  apply findSub_isSome_of_infix
  simp only [String.data_append]
  exact ⟨M.data ++ a.data, [], by simp⟩

/-! ## The `URI_DONE` loop reaches every owner -/

theorem URIDoneOwners_get (env : Env) (cfg : Configuration) (Log : Bool)
    (R : HashStringList) (ims : Bool) :
    ∀ (owners : List Item) (Message : String) (i : Nat) (O : Item),
      owners[i]? = some O →
      (URIDoneOwners env cfg Log R ims Message owners)[i]? =
        some (URIDoneOwner env cfg Log R ims
          (messageAt env cfg Log R ims Message owners i) O) := by
  intro owners
  induction owners with
  | nil => intro Message i O h; simp at h
  | cons o rest ih =>
    intro Message i O h
    cases i with
    | zero =>
      simp at h
      simp [URIDoneOwners, messageAt, h]
    | succ j =>
      simp at h
      simp only [URIDoneOwners, messageAt, List.getElem?_cons_succ]
      exact ih _ j O h

theorem URIDoneOwners_length (env : Env) (cfg : Configuration) (Log : Bool)
    (R : HashStringList) (ims : Bool) :
    ∀ (owners : List Item) (Message : String),
      (URIDoneOwners env cfg Log R ims Message owners).length = owners.length := by
  intro owners
  induction owners with
  | nil => intro _; rfl
  | cons o rest ih => intro Message; simp [URIDoneOwners, ih]

/-! ## Hash verification on `201 URI Done` -/

theorem consideredOkayByHashes_iff_spec (env : Env) (forcedHash : String)
    (R : HashStringList) (Message : String) (O : Item) :
    consideredOkayByHashes env forcedHash R (isIMSHit env Message) O = true ↔
      specConsideredOkay env forcedHash R Message O := by
  unfold consideredOkayByHashes specConsideredOkay isIMSHit
  by_cases hg : (forcedHash = "" ∧ O.ExpectedHashes ≠ []) ∨
      (forcedHash ≠ "" ∧ env.usable O.ExpectedHashes = true)
  · rw [if_pos hg, if_pos hg]
    by_cases hR : R = []
    · simp [hR]
    · by_cases he : env.hashesEq R O.ExpectedHashes = true
      · simp [hR, he]
      · simp [hR, he]
  · rw [if_neg hg, if_neg hg]
    cases O.HashesRequired <;> simp

theorem URIDoneOwner_asks_VerifyDone (env : Env) (cfg : Configuration) (Log : Bool)
    (R : HashStringList) (ims : Bool) (M : String) (O : Item) :
    (URIDoneOwner env cfg Log R ims M O).Trace.any Event.isVerifyDone =
      consideredOkayByHashes env cfg.ForceHash R ims O := by
  unfold URIDoneOwner
  by_cases h : consideredOkayByHashes env cfg.ForceHash R ims O = true
  · by_cases hv : env.VerifyDone O M = true
    · simp [h, hv, Event.isVerifyDone]
    · simp [h, hv, Event.isVerifyDone]
  · have h0 : consideredOkayByHashes env cfg.ForceHash R ims O = false := by
      simpa using h
    simp only [h0, Bool.false_eq_true, if_false]
    cases hd : isDoomedItem { O with Status := ItemState.StatAuthError } <;>
      cases Log <;> simp [Event.isVerifyDone]

/-- C1: for every owner of an item completed by a 201 URI Done, the value of
`consideredOkay` before `VerifyDone` is the decision of §4.4.3 step 6 (under the
guard on the forced hash and the expected hashes: okay iff nothing was received and
the message is an IMS hit, or something was received and it equals the expected
list; otherwise: okay iff the owner does not require hashes), and the loop asks
the owner's `VerifyDone` exactly when that decision is okay. -/
theorem C1_hash_decision (env : Env) (cfg : Configuration) (Log : Bool)
    (R : HashStringList) (Message : String) (owners : List Item) (i : Nat) (O : Item)
    (hO : owners[i]? = some O) :
    (consideredOkayByHashes env cfg.ForceHash R (isIMSHit env Message) O = true ↔
      specConsideredOkay env cfg.ForceHash R Message O) ∧
    ∃ s, (URIDone env cfg Log R Message owners)[i]? = some s ∧
      (s.Trace.any Event.isVerifyDone = true ↔
        specConsideredOkay env cfg.ForceHash R Message O) := by
  refine ⟨consideredOkayByHashes_iff_spec env cfg.ForceHash R Message O, _,
    URIDoneOwners_get env cfg Log R (isIMSHit env Message) owners Message i O hO, ?_⟩
  rw [URIDoneOwner_asks_VerifyDone]
  exact consideredOkayByHashes_iff_spec env cfg.ForceHash R Message O

/-- Witness of C1: the owner of scenario E2 receiving the expected digest. -/
theorem C1_hash_decision_witness :
    [ownerE2][0]? = some ownerE2 ∧
    ((consideredOkayByHashes refEnv defaultConfig.ForceHash [⟨"SHA256", "abc"⟩]
        (isIMSHit refEnv "201 URI Done\nURI: http://a/x\nSHA256-Hash: abc") ownerE2 = true ↔
      specConsideredOkay refEnv defaultConfig.ForceHash [⟨"SHA256", "abc"⟩]
        "201 URI Done\nURI: http://a/x\nSHA256-Hash: abc" ownerE2) ∧
    ∃ s, (URIDone refEnv defaultConfig true [⟨"SHA256", "abc"⟩]
        "201 URI Done\nURI: http://a/x\nSHA256-Hash: abc" [ownerE2])[0]? = some s ∧
      (s.Trace.any Event.isVerifyDone = true ↔
        specConsideredOkay refEnv defaultConfig.ForceHash [⟨"SHA256", "abc"⟩]
          "201 URI Done\nURI: http://a/x\nSHA256-Hash: abc" ownerE2)) :=
  ⟨rfl, C1_hash_decision refEnv defaultConfig true [⟨"SHA256", "abc"⟩]
    "201 URI Done\nURI: http://a/x\nSHA256-Hash: abc" [ownerE2] 0 ownerE2 rfl⟩

theorem isDoomedItem_status (O : Item) (st : ItemState) :
    isDoomedItem { O with Status := st } = isDoomedItem O := rfl

theorem URIDoneOwner_of_rejected (env : Env) (cfg : Configuration) (Log : Bool)
    (R : HashStringList) (ims : Bool) (M : String) (O : Item)
    (h : consideredOkayByHashes env cfg.ForceHash R ims O = false) :
    URIDoneOwner env cfg Log R ims M O =
      { Owner := { O with Status := ItemState.StatAuthError }
        Message := if isDoomedItem O = false then
            appendFailReason env R M { O with Status := ItemState.StatAuthError }
          else M
        Trace :=
          (if isDoomedItem O = false then
            [Event.Failed O.ID (if isDoomedItem O = false then
              appendFailReason env R M { O with Status := ItemState.StatAuthError } else M)]
           else []) ++
          (if Log then [Event.LogFail O.Desc] else []) } := by
  unfold URIDoneOwner
  simp only [h, Bool.false_eq_true, if_false, isDoomedItem_status]

theorem URIDoneOwner_of_refused (env : Env) (cfg : Configuration) (Log : Bool)
    (R : HashStringList) (ims : Bool) (M : String) (O : Item)
    (h : consideredOkayByHashes env cfg.ForceHash R ims O = true)
    (hv : env.VerifyDone O M = false) :
    URIDoneOwner env cfg Log R ims M O =
      { Owner := O
        Message := if isDoomedItem O = false then appendFailReason env R M O else M
        Trace := [Event.VerifyDone O.ID M] ++
          (if isDoomedItem O = false then
            [Event.Failed O.ID (if isDoomedItem O = false then appendFailReason env R M O
              else M)]
           else []) ++
          (if Log then [Event.LogFail O.Desc] else []) } := by
  unfold URIDoneOwner
  simp only [h, hv, Bool.false_eq_true, if_false, if_true]

theorem consideredOkayByHashes_mismatch (env : Env) (R : HashStringList) (ims : Bool)
    (O : Item) (hE : O.ExpectedHashes ≠ []) (hR : R ≠ [])
    (hne : env.hashesEq R O.ExpectedHashes = false) :
    consideredOkayByHashes env "" R ims O = false := by
  unfold consideredOkayByHashes
  simp [hE, hR, hne]

/-- A loop that handled every owner leaves exactly the handled owners. -/
theorem mergeOwners_full (Owners handled : List Item) (h : handled.length = Owners.length) :
    mergeOwners Owners handled = handled := by
  unfold mergeOwners
  rw [h, List.drop_length, List.append_nil]

/-- C2 (amended): take a 201 URI Done for an item and the hash list the handler
verifies it with (`receivedHashes`: the hashes the message carries when they are
usable, else the hashes computed over the file when the item's expected hashes
are usable and the file exists, else the carried ones).  For every owner of the
item with non-empty expected hashes, when that list is non-empty and differs from
them and no hash is forced, the handler sets the owner's status to `AuthError`
and writes the owner back so; a doomed owner gets no call of `Failed`; an owner
that is not doomed gets exactly one, and its message is the message extended by
`FailReason: HashSumMismatch` when the message, as the owners handled before left
it, has no `FailReason` yet, and that message unchanged when it already has
one. -/
theorem C2_mismatch_sets_AuthError (env : WorkerEnv) (cfg : Configuration) (w : Worker)
    (Message : String) (i : Nat) (Itm : QItem) (j : Nat) (O : Item) (M : String)
    (hO : Itm.Owners[j]? = some O)
    (hM : messageAt env.toEnv cfg w.Log (receivedHashes env Message Itm)
      (isIMSHit env.toEnv Message) Message Itm.Owners j = M)
    (hforce : cfg.ForceHash = "") (hE : O.ExpectedHashes ≠ [])
    (hR : receivedHashes env Message Itm ≠ [])
    (hne : env.hashesEq (receivedHashes env Message Itm) O.ExpectedHashes = false) :
    (env.usable (GetHashesFromMessage env "" Message) = true →
      receivedHashes env Message Itm = GetHashesFromMessage env "" Message) ∧
    ∃ s, (URIDone env.toEnv cfg w.Log (receivedHashes env Message Itm) Message
        Itm.Owners)[j]? = some s ∧
      s.Owner = { O with Status := ItemState.StatAuthError } ∧
      (∃ Itm2, (URIDoneCase env cfg w Message (some (i, Itm))).Items = w.Items.set i Itm2 ∧
        Itm2.Owners[j]? = some s.Owner) ∧
      (∀ e ∈ s.Trace,
        Call.Item e ∈ (URIDoneCase env cfg w Message (some (i, Itm))).Trace) ∧
      (isDoomedItem O = true → s.Trace.filter Event.isFailed = []) ∧
      (isDoomedItem O = false →
        s.Trace.filter Event.isFailed = [Event.Failed O.ID s.Message] ∧
        (strContains M "\nFailReason:" = false →
          s.Message = M ++ "\nFailReason: HashSumMismatch" ∧
          strContains s.Message "FailReason: HashSumMismatch" = true) ∧
        (strContains M "\nFailReason:" = true → s.Message = M)) := by
  have hrej : consideredOkayByHashes env.toEnv cfg.ForceHash (receivedHashes env Message Itm)
      (isIMSHit env.toEnv Message) O = false := by
    rw [hforce]; exact consideredOkayByHashes_mismatch env.toEnv _ _ O hE hR hne
  have hget := URIDoneOwners_get env.toEnv cfg w.Log (receivedHashes env Message Itm)
    (isIMSHit env.toEnv Message) Itm.Owners Message j O hO
  have hlen := URIDoneOwners_length env.toEnv cfg w.Log (receivedHashes env Message Itm)
    (isIMSHit env.toEnv Message) Itm.Owners Message
  constructor
  · intro hu
    unfold receivedHashes
    rw [if_neg (by rw [hu]; decide)]
  refine ⟨_, hget, ?_, ?_, ?_, ?_⟩
  · rw [hM, URIDoneOwner_of_rejected env.toEnv cfg w.Log _ _ M O hrej]
  · refine ⟨_, rfl, ?_⟩
    show (mergeOwners Itm.Owners
      ((URIDone env.toEnv cfg w.Log (receivedHashes env Message Itm) Message Itm.Owners).map
        (fun s => s.Owner)))[j]? = _
    rw [mergeOwners_full _ _ (by rw [List.length_map]; exact hlen), List.getElem?_map]
    unfold URIDone
    rw [hget]
    rfl
  · intro e he
    have hs := List.getElem?_mem hget
    show Call.Item e ∈ w.Trace ++ (PrepareFiles env "201::URIDone" Itm).1 ++ pulses w Itm ++
      fetchedCalls env w Message Itm ++ [Call.QueueItemDone Itm.URI] ++
      ((URIDone env.toEnv cfg w.Log (receivedHashes env Message Itm) Message Itm.Owners).map
        (fun s => s.Trace.map Call.Item)).flatten
    apply List.mem_append_right
    rw [List.mem_flatten]
    exact ⟨_, List.mem_map.mpr ⟨_, hs, rfl⟩, List.mem_map.mpr ⟨e, he, rfl⟩⟩
  · rw [hM, URIDoneOwner_of_rejected env.toEnv cfg w.Log _ _ M O hrej]
    refine ⟨?_, ?_⟩
    · intro hd
      cases w.Log <;> simp [hd, Event.isFailed]
    · intro hd
      refine ⟨?_, ?_, ?_⟩
      · cases w.Log <;> simp [hd, Event.isFailed]
      · intro hc
        have hmsg : appendFailReason env.toEnv (receivedHashes env Message Itm) M
            { O with Status := ItemState.StatAuthError } =
            M ++ "\nFailReason: HashSumMismatch" := by
          unfold appendFailReason
          simp [hc, hne]
        simp only [hd, if_true, hmsg, true_and]
        exact strContains_append_tail M "\n" "FailReason: HashSumMismatch"
      · intro hc
        simp [hd, appendFailReason, hc]

/-- Witness of C2: scenario E3, the item of `ownerE2`, which expects `abc`, and a
201 URI Done that carries `def`. -/
theorem C2_mismatch_sets_AuthError_witness :
    receivedHashes refWorkerEnv "201 URI Done\nURI: http://a/x\nSHA256-Hash: def" itemE2 =
      [⟨"SHA256", "def"⟩] ∧
    ∃ s, (URIDone refWorkerEnv.toEnv defaultConfig workerE2.Log
        (receivedHashes refWorkerEnv "201 URI Done\nURI: http://a/x\nSHA256-Hash: def" itemE2)
        "201 URI Done\nURI: http://a/x\nSHA256-Hash: def" itemE2.Owners)[0]? = some s ∧
      s.Owner = { ownerE2 with Status := ItemState.StatAuthError } ∧
      s.Trace.filter Event.isFailed = [Event.Failed ownerE2.ID s.Message] ∧
      s.Message = "201 URI Done\nURI: http://a/x\nSHA256-Hash: def" ++
        "\nFailReason: HashSumMismatch" := by
  obtain ⟨_, s, hs, hOwner, _, _, _, hnd⟩ :=
    C2_mismatch_sets_AuthError refWorkerEnv defaultConfig workerE2
      "201 URI Done\nURI: http://a/x\nSHA256-Hash: def" 0 itemE2 0 ownerE2
      "201 URI Done\nURI: http://a/x\nSHA256-Hash: def" rfl rfl rfl (by decide) (by decide)
      (by decide)
  obtain ⟨hF, hmsg, _⟩ := hnd (by decide)
  exact ⟨by decide, s, hs, hOwner, hF, (hmsg (by decide)).1⟩

/-- C2 fails as stated, in two ways.  First: a single owner that expects `abc`,
is not doomed, and gets a 201 URI Done carrying the digest `def` whose text
already has a `FailReason` line; no hash is forced, both lists are non-empty and
differ, the status becomes `AuthError`, yet the only message handed to `Failed` is
the message as received, without `FailReason: HashSumMismatch`.  Second: the file
exists and the 201 carries only the MD5 digest `xyz`, a non-empty list that
differs from the expected one and is not usable; the handler then verifies with
the hashes computed over the file, the owner gets `Done`, no `Failed`, and its
status is not `AuthError`. -/
theorem C2_counterexample :
    defaultConfig.ForceHash = "" ∧ ownerE2.ExpectedHashes ≠ [] ∧
    GetHashesFromMessage refWorkerEnv ""
      "201 URI Done\nURI: http://a/x\nSHA256-Hash: def\nFailReason: Timeout" =
      [⟨"SHA256", "def"⟩] ∧
    refEnv.hashesEq [⟨"SHA256", "def"⟩] ownerE2.ExpectedHashes = false ∧
    (RunMessages refWorkerEnv defaultConfig
      { workerE2 with MessageQueue :=
        ["201 URI Done\nURI: http://a/x\nSHA256-Hash: def\nFailReason: Timeout"] }).map
      (fun r => (r.2, r.1.Trace.filter Call.isFailed,
        r.1.Items.map (fun I => I.Owners.map (fun o => o.Status)))) =
      some (RunResult.Success,
        [Call.Item (Event.Failed 1
          "201 URI Done\nURI: http://a/x\nSHA256-Hash: def\nFailReason: Timeout")],
        [[ItemState.StatAuthError]]) ∧
    strContains "201 URI Done\nURI: http://a/x\nSHA256-Hash: def\nFailReason: Timeout"
      "FailReason: HashSumMismatch" = false ∧
    GetHashesFromMessage fileEnv "" "201 URI Done\nURI: http://a/x\nMD5Sum-Hash: xyz" =
      [⟨"MD5Sum", "xyz"⟩] ∧
    fileEnv.hashesEq [⟨"MD5Sum", "xyz"⟩] ownerE2.ExpectedHashes = false ∧
    (RunMessages fileEnv defaultConfig
      { workerE2 with MessageQueue :=
        ["201 URI Done\nURI: http://a/x\nMD5Sum-Hash: xyz"] }).map
      (fun r => (r.2, r.1.Trace.filter Call.isFailed,
        r.1.Trace.filter (fun c => decide (c = Call.Item (Event.Done 1
          "201 URI Done\nURI: http://a/x\nMD5Sum-Hash: xyz" [⟨"SHA256", "abc"⟩]))),
        r.1.Items.map (fun I => I.Owners.map (fun o => o.Status)))) =
      some (RunResult.Success, [],
        [Call.Item (Event.Done 1 "201 URI Done\nURI: http://a/x\nMD5Sum-Hash: xyz"
          [⟨"SHA256", "abc"⟩])],
        [[ItemState.StatFetching]]) := by
  refine ⟨rfl, by decide, by decide, by decide, by decide, by decide, by decide, by decide,
    by decide⟩

theorem URIDoneOwner_status_of_okay (env : Env) (cfg : Configuration) (Log : Bool)
    (R : HashStringList) (ims : Bool) (M : String) (O : Item)
    (h : consideredOkayByHashes env cfg.ForceHash R ims O = true) :
    (URIDoneOwner env cfg Log R ims M O).Owner = O := by
  unfold URIDoneOwner
  by_cases hv : env.VerifyDone O M = true
  · simp [h, hv]
  · simp [h, hv]

theorem appendFailReason_status (env : Env) (R : HashStringList) (M : String) (O : Item)
    (st : ItemState) :
    appendFailReason env R M { O with Status := st } = appendFailReason env R M O := rfl

theorem URIDoneOwner_message_of_not_okay (env : Env) (cfg : Configuration) (Log : Bool)
    (R : HashStringList) (ims : Bool) (M : String) (O : Item)
    (h : consideredOkayByHashes env cfg.ForceHash R ims O = false ∨
      env.VerifyDone O M = false) :
    (URIDoneOwner env cfg Log R ims M O).Message =
        (if isDoomedItem O = false then appendFailReason env R M O else M) ∧
    (isDoomedItem O = false →
      Event.Failed O.ID (appendFailReason env R M O) ∈
        (URIDoneOwner env cfg Log R ims M O).Trace) := by
  by_cases hk : consideredOkayByHashes env cfg.ForceHash R ims O = true
  · have hv : env.VerifyDone O M = false := by
      rcases h with h | h
      · rw [hk] at h; exact absurd h (by decide)
      · exact h
    rw [URIDoneOwner_of_refused env cfg Log R ims M O hk hv]
    refine ⟨rfl, ?_⟩
    intro hd
    simp [hd]
  · have hk0 : consideredOkayByHashes env cfg.ForceHash R ims O = false := by
      simpa using hk
    rw [URIDoneOwner_of_rejected env cfg Log R ims M O hk0]
    refine ⟨by simp only [appendFailReason_status], ?_⟩
    intro hd
    simp [hd, appendFailReason_status]

/-- C3 (amended): for every owner of a 201 URI Done, the worker forces the status
to `AuthError` exactly when the owner is rejected by the hash decision; an owner
that passes the hash decision keeps its status, also when `VerifyDone` then
refuses.  For an owner that ends up not okay (rejected by the hash decision or
refused by `VerifyDone`), if it is not doomed and the message has no `FailReason`
yet, the worker appends `FailReason: WeakHashSums` exactly when the received and
expected lists compare equal and `FailReason: HashSumMismatch` otherwise, and hands
the extended message to `Failed`; if it is doomed or the message already has a
`FailReason`, nothing is appended. -/
theorem C3_FailReason_of_not_okay (env : Env) (cfg : Configuration) (Log : Bool)
    (R : HashStringList) (Message : String) (owners : List Item) (i : Nat) (O : Item)
    (M : String) (hO : owners[i]? = some O)
    (hM : messageAt env cfg Log R (isIMSHit env Message) Message owners i = M) :
    ∃ s, (URIDone env cfg Log R Message owners)[i]? = some s ∧
      (consideredOkayByHashes env cfg.ForceHash R (isIMSHit env Message) O = false →
        s.Owner.Status = ItemState.StatAuthError) ∧
      (consideredOkayByHashes env cfg.ForceHash R (isIMSHit env Message) O = true →
        s.Owner.Status = O.Status) ∧
      ((consideredOkayByHashes env cfg.ForceHash R (isIMSHit env Message) O = false ∨
          env.VerifyDone O M = false) →
        ((isDoomedItem O = false ∧ strContains M "\nFailReason:" = false) →
          s.Message = M ++ (if env.hashesEq R O.ExpectedHashes = true
            then "\nFailReason: WeakHashSums" else "\nFailReason: HashSumMismatch") ∧
          Event.Failed O.ID s.Message ∈ s.Trace) ∧
        ((isDoomedItem O = true ∨ strContains M "\nFailReason:" = true) →
          s.Message = M)) := by
  refine ⟨_, URIDoneOwners_get env cfg Log R (isIMSHit env Message) owners Message i O hO, ?_⟩
  rw [hM]
  refine ⟨?_, ?_, ?_⟩
  · intro h
    rw [URIDoneOwner_of_rejected env cfg Log R _ M O h]
  · intro h
    rw [URIDoneOwner_status_of_okay env cfg Log R _ M O h]
  · intro h
    obtain ⟨hmsg, hfail⟩ := URIDoneOwner_message_of_not_okay env cfg Log R _ M O h
    refine ⟨?_, ?_⟩
    · rintro ⟨hd, hc⟩
      have happ : appendFailReason env R M O = M ++ (if env.hashesEq R O.ExpectedHashes = true
          then "\nFailReason: WeakHashSums" else "\nFailReason: HashSumMismatch") := by
        unfold appendFailReason
        cases hq : env.hashesEq R O.ExpectedHashes <;> simp [hc]
      rw [hmsg]
      simp only [hd, if_true]
      rw [← happ]
      exact ⟨rfl, hfail hd⟩
    · intro hdc
      rw [hmsg]
      rcases hdc with hd | hc
      · simp [hd]
      · by_cases hd : isDoomedItem O = false
        · simp [hd, appendFailReason, hc]
        · simp [hd]

/-- Witness of C3: the owner of scenario E3, rejected by the hash decision. -/
theorem C3_FailReason_of_not_okay_witness :
    ∃ s, (URIDone refEnv defaultConfig true [⟨"SHA256", "def"⟩]
        "201 URI Done\nURI: http://a/x\nSHA256-Hash: def" [ownerE2])[0]? = some s ∧
      s.Owner.Status = ItemState.StatAuthError ∧
      s.Message = "201 URI Done\nURI: http://a/x\nSHA256-Hash: def\nFailReason: HashSumMismatch" ∧
      Event.Failed 1 s.Message ∈ s.Trace := by
  obtain ⟨s, hs, h1, _, h3⟩ := C3_FailReason_of_not_okay refEnv defaultConfig true
    [⟨"SHA256", "def"⟩] "201 URI Done\nURI: http://a/x\nSHA256-Hash: def" [ownerE2] 0 ownerE2
    "201 URI Done\nURI: http://a/x\nSHA256-Hash: def" rfl rfl
  have h4 := (h3 (Or.inl (by decide))).1 ⟨by decide, by decide⟩
  exact ⟨s, hs, h1 (by decide), h4.1, h4.2⟩

/-- C3 fails as stated: the owner of scenario E2 receives exactly the digest it
expects, a SHA256 digest, and its `VerifyDone` refuses.  The owner ends up not
okay, yet the worker leaves its status at `Fetching`, and the reason it appends is
`WeakHashSums` although the equal lists hold a required-strength digest. -/
theorem C3_counterexample :
    (URIDone refusingEnv defaultConfig true [⟨"SHA256", "abc"⟩]
        "201 URI Done\nURI: http://a/x\nSHA256-Hash: abc" [ownerE2]).map
        (fun s => (s.Owner.Status, s.Trace)) =
      [(ItemState.StatFetching,
        [Event.VerifyDone 1 "201 URI Done\nURI: http://a/x\nSHA256-Hash: abc",
         Event.Failed 1 "201 URI Done\nURI: http://a/x\nSHA256-Hash: abc\nFailReason: WeakHashSums",
         Event.LogFail ownerE2.Desc])] ∧
    ItemState.StatFetching ≠ ItemState.StatAuthError ∧
    refusingEnv.hashesEq [⟨"SHA256", "abc"⟩] ownerE2.ExpectedHashes = true ∧
    refusingEnv.usable ownerE2.ExpectedHashes = true := by
  decide

/-- For an owner rejected by the hash decision, equal lists mean that the guard of
the decision was off: with no forced hash nothing was expected, with a forced hash
the expected list was not usable.  The hypothesis says that an empty received list
compares equal to nothing, as a comparison that needs a common algorithm does. -/
theorem rejected_with_equal_lists (env : Env) (forcedHash : String) (R : HashStringList)
    (ims : Bool) (O : Item) (hempty : R = [] → env.hashesEq R O.ExpectedHashes = false)
    (hrej : consideredOkayByHashes env forcedHash R ims O = false)
    (heq : env.hashesEq R O.ExpectedHashes = true) :
    (forcedHash = "" → O.ExpectedHashes = []) ∧
    (forcedHash ≠ "" → env.usable O.ExpectedHashes = false) ∧
    O.HashesRequired = true := by
  unfold consideredOkayByHashes at hrej
  have hR : R ≠ [] := by
    intro h
    rw [hempty h] at heq
    exact absurd heq (by decide)
  by_cases hg : (forcedHash = "" ∧ O.ExpectedHashes ≠ []) ∨
      (forcedHash ≠ "" ∧ env.usable O.ExpectedHashes = true)
  · rw [if_pos hg] at hrej
    simp [hR, heq] at hrej
  · rw [if_neg hg] at hrej
    refine ⟨?_, ?_, by simpa using hrej⟩
    · intro hf
      by_contra hE
      exact hg (Or.inl ⟨hf, hE⟩)
    · intro hf
      by_contra hu
      exact hg (Or.inr ⟨hf, by simpa using hu⟩)

/-- The variable `Message` is shared by the owners of one item: with two owners, the
first refused by `VerifyDone` on equal hashes and the second expecting another
digest, the reason `WeakHashSums` appended for the first is what the second is
failed with, although its own hashes mismatch. -/
theorem URIDone_reason_carried_over :
    (URIDone refusingFirstEnv defaultConfig true [⟨"SHA256", "abc"⟩]
        "201 URI Done\nURI: http://a/x\nSHA256-Hash: abc" [ownerE2, ownerOther]).map
        (fun s => (s.Owner.Status, s.Trace.filter Event.isFailed)) =
      [(ItemState.StatFetching,
        [Event.Failed 1 "201 URI Done\nURI: http://a/x\nSHA256-Hash: abc\nFailReason: WeakHashSums"]),
       (ItemState.StatAuthError,
        [Event.Failed 4 "201 URI Done\nURI: http://a/x\nSHA256-Hash: abc\nFailReason: WeakHashSums"])] := by
  decide

/-! ## Classification of a `400 URI Failure` -/

/-- C4: a 400 URI Failure is classified as transient if and only if its
`Transient-Failure` tag is true or its `FailReason` is one of `Timeout`,
`ConnectionRefused`, `ConnectionTimedOut`, `ResolveFailure`, `TmpResolveFailure`. -/
theorem C4_transient_classification (env : Env) (Message : String) :
    (classifyFailure env Message).1 = true ↔
      (env.StringToBool (env.LookupTag Message "Transient-Failure" "") 0 = 1 ∨
        env.LookupTag Message "FailReason" "" = "Timeout" ∨
        env.LookupTag Message "FailReason" "" = "ConnectionRefused" ∨
        env.LookupTag Message "FailReason" "" = "ConnectionTimedOut" ∨
        env.LookupTag Message "FailReason" "" = "ResolveFailure" ∨
        env.LookupTag Message "FailReason" "" = "TmpResolveFailure") := by
  unfold classifyFailure
  by_cases ht : env.StringToBool (env.LookupTag Message "Transient-Failure" "") 0 = 1
  · simp [ht]
  · by_cases hr : env.LookupTag Message "FailReason" "" ∈ transientReasons
    · simp only [ht, if_false, hr, decide_True, Bool.true_eq_false, false_or, true_iff]
      simpa [transientReasons] using hr
    · simp only [ht, if_false, hr, decide_False, if_true, false_or]
      have hr2 := hr
      simp only [transientReasons, List.mem_cons, List.mem_singleton, List.not_mem_nil,
        or_false] at hr2
      simp [hr2]

/-- C5 (amended): a 400 URI Failure is classified as Auth if and only if its
`Transient-Failure` tag is not true and its `FailReason` is one of
`HashSumMismatch`, `WeakHashSums`, `MaximumSizeExceeded`. -/
theorem C5_auth_classification (env : Env) (Message : String) :
    (classifyFailure env Message).2 = true ↔
      (env.StringToBool (env.LookupTag Message "Transient-Failure" "") 0 ≠ 1 ∧
        (env.LookupTag Message "FailReason" "" = "HashSumMismatch" ∨
          env.LookupTag Message "FailReason" "" = "WeakHashSums" ∨
          env.LookupTag Message "FailReason" "" = "MaximumSizeExceeded")) := by
  unfold classifyFailure
  by_cases ht : env.StringToBool (env.LookupTag Message "Transient-Failure" "") 0 = 1
  · simp [ht]
  · by_cases hr : env.LookupTag Message "FailReason" "" ∈ transientReasons
    · simp only [ht, if_false, hr, decide_True, Bool.true_eq_false, Bool.false_eq_true,
        ne_eq, not_false_eq_true, true_and, false_iff]
      simp only [transientReasons, List.mem_cons, List.mem_singleton, List.not_mem_nil,
        or_false] at hr
      rcases hr with h | h | h | h | h <;> rw [h] <;> decide
    · simp only [ht, if_false, hr, decide_False, if_true, ne_eq, not_false_eq_true, true_and,
        decide_eq_true_eq]
      simp [authReasons]

/-- C5 fails as stated: a 400 URI Failure with `Transient-Failure: true` and
`FailReason: HashSumMismatch` is classified as transient and not as Auth, although
its `FailReason` is one of the three. -/
theorem C5_counterexample :
    refEnv.LookupTag
      "400 URI Failure\nURI: http://a/x\nTransient-Failure: true\nFailReason: HashSumMismatch"
      "FailReason" "" = "HashSumMismatch" ∧
    classifyFailure refEnv
      "400 URI Failure\nURI: http://a/x\nTransient-Failure: true\nFailReason: HashSumMismatch" =
      (true, false) := by
  decide

/-! ## The failure policy -/

theorem ChangeSiteIsMirrorChange_frame (env : Env) (NewURI : String) (O O3 : Item)
    (h : ChangeSiteIsMirrorChange env NewURI O = some O3) :
    O3.ID = O.ID ∧ O3.Retries = O.Retries ∧ O3.Transaction = O.Transaction ∧
    O3.Status = O.Status ∧ O3.Desc.URI = O.Desc.URI ∧ O3.Desc.Owner = O.Desc.Owner ∧
    O3.Desc.ShortDesc = O.Desc.ShortDesc ∧ O3.FetchAfter = O.FetchAfter ∧
    O3.ExpectedHashes = O.ExpectedHashes ∧ O3.AlternativeURIs = O.AlternativeURIs ∧
    O3.BadAlternativeSites = O.BadAlternativeSites := by
  unfold ChangeSiteIsMirrorChange at h
  split at h
  · cases h; simp
  · split at h
    · cases h; simp
    · dsimp only at h
      split at h
      · split at h
        · cases h
        · split at h
          · cases h; simp
          · cases h; simp
      · cases h; simp

theorem PopAlternativeURI_some (O O2 : Item) (NewURI : String)
    (h : PopAlternativeURI O = some (NewURI, O2)) :
    ∃ rest, O.AlternativeURIs = NewURI :: rest ∧ O2 = { O with AlternativeURIs := rest } := by
  unfold PopAlternativeURI at h
  split at h
  · cases h
  · rename_i u rest hl
    cases h
    exact ⟨rest, hl, rfl⟩

theorem HandleFailureOwner_retry (env : Env) (cfg : Configuration) (LocalOnly Log : Bool)
    (now : Int) (Message : String) (errTransient errAuthErr : Bool) (O : Item)
    (h : errTransient = true ∧ LocalOnly = false ∧ O.Retries ≠ 0) :
    HandleFailureOwner env cfg LocalOnly Log now Message errTransient errAuthErr O =
      { Owner := { O with
          Retries := O.Retries - 1
          FetchAfter := if cfg.RetriesDelay = true then
              now + retryDelay env cfg (O.Retries - 1) else now }
        Trace := [Event.FailMessage O.ID Message] ++
          (if Log then [Event.LogFail O.Desc] else []) ++
          (if isDoomedItem O = false then [Event.Enqueue O.Desc] else [])
        Thrown := false } := by
  unfold HandleFailureOwner
  rw [if_pos h]
  by_cases hd : cfg.RetriesDelay = true
  · simp only [hd, if_true]; rfl
  · simp only [hd, if_false]; rfl

theorem HandleFailureOwner_no_retry_frame (env : Env) (cfg : Configuration)
    (LocalOnly Log : Bool) (now : Int) (Message : String) (errTransient errAuthErr : Bool)
    (O : Item) (h : ¬(errTransient = true ∧ LocalOnly = false ∧ O.Retries ≠ 0)) :
    (HandleFailureOwner env cfg LocalOnly Log now Message errTransient errAuthErr O).Owner.Retries
        = O.Retries ∧
    (HandleFailureOwner env cfg LocalOnly Log now Message errTransient errAuthErr O).Owner.FetchAfter
        = O.FetchAfter := by
  unfold HandleFailureOwner
  rw [if_neg h]
  have h1 : (if errAuthErr = true then RemoveAlternativeSite env (env.SiteOnly O.Desc.URI) O
      else O).Retries = O.Retries ∧
      (if errAuthErr = true then RemoveAlternativeSite env (env.SiteOnly O.Desc.URI) O
      else O).FetchAfter = O.FetchAfter := by
    cases errAuthErr <;> simp [RemoveAlternativeSite]
  generalize (if errAuthErr = true then RemoveAlternativeSite env (env.SiteOnly O.Desc.URI) O
      else O) = O1 at h1 ⊢
  dsimp only
  split
  · rename_i NewURI O2 hp
    obtain ⟨rest, _, hO2⟩ := PopAlternativeURI_some O1 O2 NewURI hp
    split
    · subst hO2; simpa using h1
    · rename_i O3 hc
      have hf := ChangeSiteIsMirrorChange_frame env NewURI O2 O3 hc
      subst hO2
      simp only [hf.2.1, hf.2.2.2.2.2.2.2.1]
      simpa using h1
  · split_ifs <;> simpa using h1

theorem HandleFailureOwner_retry_trace (env : Env) (cfg : Configuration)
    (LocalOnly Log : Bool) (now : Int) (Message : String) (errTransient errAuthErr : Bool)
    (O : Item) (h : errTransient = true ∧ LocalOnly = false ∧ O.Retries ≠ 0) :
    (HandleFailureOwner env cfg LocalOnly Log now Message errTransient errAuthErr O).Trace.filter
        Event.isFailed = [] ∧
    (HandleFailureOwner env cfg LocalOnly Log now Message errTransient errAuthErr O).Trace.filter
        Event.isEnqueue = (if isDoomedItem O = true then [] else [Event.Enqueue O.Desc]) := by
  rw [HandleFailureOwner_retry env cfg LocalOnly Log now Message errTransient errAuthErr O h]
  cases Log <;> cases hd : isDoomedItem O <;> simp [Event.isFailed, Event.isEnqueue]

/-- The retry policy of one pass of the loop of `HandleFailure`: the owner of the
pass is retried (its `Retries` goes down by one) if and only if the failure is
transient, the method is not `LocalOnly` and the owner's `Retries` is greater
than 0.  A retry does not throw, leaves the item description
unchanged, makes no call of `Failed`, and enqueues the owner with that description
exactly once unless it is doomed; without a retry `Retries` is unchanged.
Consequently an owner with `Retries = 2` that keeps failing transiently is
re-enqueued, with its description unchanged, on the first and the second failure
(1 and then 0 retries left) and is not retried on the third. -/
theorem HandleFailureOwner_retry_policy (env : Env) (cfg : Configuration) (LocalOnly Log : Bool)
    (now : Int) (Message : String) (errTransient errAuthErr : Bool) (O : Item) :
    ((HandleFailureOwner env cfg LocalOnly Log now Message errTransient errAuthErr O).Owner.Retries
        + 1 = O.Retries ↔
      (errTransient = true ∧ LocalOnly = false ∧ 0 < O.Retries)) ∧
    ((errTransient = true ∧ LocalOnly = false ∧ 0 < O.Retries) →
      (HandleFailureOwner env cfg LocalOnly Log now Message errTransient errAuthErr O).Thrown
        = false ∧
      (HandleFailureOwner env cfg LocalOnly Log now Message errTransient errAuthErr O).Owner.Desc
        = O.Desc ∧
      (HandleFailureOwner env cfg LocalOnly Log now Message errTransient
        errAuthErr O).Trace.filter Event.isFailed = [] ∧
      (HandleFailureOwner env cfg LocalOnly Log now Message errTransient
        errAuthErr O).Trace.filter Event.isEnqueue =
          (if isDoomedItem O = true then [] else [Event.Enqueue O.Desc])) ∧
    (¬(errTransient = true ∧ LocalOnly = false ∧ 0 < O.Retries) →
      (HandleFailureOwner env cfg LocalOnly Log now Message errTransient
        errAuthErr O).Owner.Retries = O.Retries) ∧
    ((O.Retries = 2 ∧ LocalOnly = false ∧ errTransient = true) →
      ∃ s1 s2 s3,
        failRepeatedly env cfg LocalOnly Log now Message errTransient errAuthErr 3 O
          = [s1, s2, s3] ∧
        s1.Owner.Retries = 1 ∧ s2.Owner.Retries = 0 ∧ s3.Owner.Retries = 0 ∧
        s1.Owner.Desc = O.Desc ∧ s2.Owner.Desc = O.Desc ∧
        s1.Trace.filter Event.isEnqueue =
          (if isDoomedItem O = true then [] else [Event.Enqueue O.Desc]) ∧
        s2.Trace.filter Event.isEnqueue =
          (if isDoomedItem O = true then [] else [Event.Enqueue O.Desc]) ∧
        s1.Trace.filter Event.isFailed = [] ∧ s2.Trace.filter Event.isFailed = []) := by
  have hpos : ∀ X : Item, (0 < X.Retries) ↔ X.Retries ≠ 0 := fun X => Nat.pos_iff_ne_zero
  refine ⟨?_, ?_, ?_, ?_⟩
  · constructor
    · intro hdec
      by_contra hn
      rw [hpos] at hn
      have := (HandleFailureOwner_no_retry_frame env cfg LocalOnly Log now Message errTransient
        errAuthErr O hn).1
      omega
    · intro hc
      rw [hpos] at hc
      rw [HandleFailureOwner_retry env cfg LocalOnly Log now Message errTransient errAuthErr O hc]
      have := hc.2.2
      show O.Retries - 1 + 1 = O.Retries
      omega
  · intro hc
    rw [hpos] at hc
    refine ⟨?_, ?_, HandleFailureOwner_retry_trace env cfg LocalOnly Log now Message errTransient
      errAuthErr O hc⟩
    · rw [HandleFailureOwner_retry env cfg LocalOnly Log now Message errTransient errAuthErr O hc]
    · rw [HandleFailureOwner_retry env cfg LocalOnly Log now Message errTransient errAuthErr O hc]
  · intro hn
    rw [hpos] at hn
    exact (HandleFailureOwner_no_retry_frame env cfg LocalOnly Log now Message errTransient
      errAuthErr O hn).1
  · rintro ⟨h2, hl, ht⟩
    obtain ⟨s1, hs1⟩ : ∃ s1, s1 = HandleFailureOwner env cfg LocalOnly Log now Message
      errTransient errAuthErr O := ⟨_, rfl⟩
    obtain ⟨s2, hs2⟩ : ∃ s2, s2 = HandleFailureOwner env cfg LocalOnly Log now Message
      errTransient errAuthErr s1.Owner := ⟨_, rfl⟩
    obtain ⟨s3, hs3⟩ : ∃ s3, s3 = HandleFailureOwner env cfg LocalOnly Log now Message
      errTransient errAuthErr s2.Owner := ⟨_, rfl⟩
    have c1 : errTransient = true ∧ LocalOnly = false ∧ O.Retries ≠ 0 := ⟨ht, hl, by omega⟩
    have e1 := HandleFailureOwner_retry env cfg LocalOnly Log now Message errTransient
      errAuthErr O c1
    have t1 := HandleFailureOwner_retry_trace env cfg LocalOnly Log now Message errTransient
      errAuthErr O c1
    rw [← hs1] at e1 t1
    have r1 : s1.Owner.Retries = 1 := by rw [e1]; show O.Retries - 1 = 1; omega
    have d1 : s1.Owner.Desc = O.Desc := by rw [e1]
    have m1 : isDoomedItem s1.Owner = isDoomedItem O := by rw [e1]; rfl
    have c2 : errTransient = true ∧ LocalOnly = false ∧ s1.Owner.Retries ≠ 0 :=
      ⟨ht, hl, by omega⟩
    have e2 := HandleFailureOwner_retry env cfg LocalOnly Log now Message errTransient
      errAuthErr s1.Owner c2
    have t2 := HandleFailureOwner_retry_trace env cfg LocalOnly Log now Message errTransient
      errAuthErr s1.Owner c2
    rw [← hs2] at e2 t2
    have r2 : s2.Owner.Retries = 0 := by rw [e2]; show s1.Owner.Retries - 1 = 0; omega
    have d2 : s2.Owner.Desc = O.Desc := by rw [e2]; exact d1
    have c3 : ¬(errTransient = true ∧ LocalOnly = false ∧ s2.Owner.Retries ≠ 0) := by
      rintro ⟨_, _, h⟩; exact h r2
    have r3 := (HandleFailureOwner_no_retry_frame env cfg LocalOnly Log now Message errTransient
      errAuthErr s2.Owner c3).1
    rw [← hs3] at r3
    rw [m1, d1] at t2
    refine ⟨s1, s2, s3, ?_, r1, r2, r3.trans r2, d1, d2, t1.2, t2.2, t1.1, t2.1⟩
    simp only [failRepeatedly]
    rw [← hs1, ← hs2, ← hs3]

/-- The retry policy on scenario E4: an owner with two retries left under
`Acquire::Retries=2`, failing three times with `FailReason: Timeout`. -/
theorem HandleFailureOwner_retry_policy_E4 :
    ∃ s1 s2 s3,
      failRepeatedly refEnv { defaultConfig with Retries := 2 } false true 1000
        "400 URI Failure\nURI: http://a/x\nFailReason: Timeout" true false 3
        { ownerE2 with Retries := 2 } = [s1, s2, s3] ∧
      s1.Owner.Retries = 1 ∧ s2.Owner.Retries = 0 ∧ s3.Owner.Retries = 0 ∧
      s1.Trace.filter Event.isEnqueue = [Event.Enqueue ownerE2.Desc] ∧
      s2.Trace.filter Event.isEnqueue = [Event.Enqueue ownerE2.Desc] := by
  obtain ⟨s1, s2, s3, h, r1, r2, r3, _, _, q1, q2, _, _⟩ :=
    (HandleFailureOwner_retry_policy refEnv { defaultConfig with Retries := 2 } false true 1000
      "400 URI Failure\nURI: http://a/x\nFailReason: Timeout" true false
      { ownerE2 with Retries := 2 }).2.2.2 ⟨rfl, rfl, rfl⟩
  exact ⟨s1, s2, s3, h, r1, r2, r3, q1, q2⟩

theorem retryIter_of_attempt (cfg : Configuration) (Retries attempt : Nat)
    (h : cfg.Retries = (Retries : Int) + 1 + (attempt : Int)) (hlt : attempt < 2 ^ 32) :
    retryIter cfg Retries = attempt := by
  unfold retryIter
  have e : cfg.Retries - (Retries : Int) - 1 = (attempt : Int) := by omega
  rw [e]
  have hm : (attempt : Int) % 2 ^ 32 = (attempt : Int) := by
    apply Int.emod_eq_of_lt
    · omega
    · have : (2 : Int) ^ 32 = 4294967296 := by norm_num
      have : (2 : Nat) ^ 32 = 4294967296 := by norm_num
      omega
  rw [hm]
  simp

/-- Within the range of a 32-bit `int` the back-off is the one of §4.5: for
`attempt = Acquire::Retries - Owner.Retries - 1` between 0 and 30 the delay is
`min(2^attempt, Acquire::Retries::Delay::Maximum)`. -/
theorem retryDelay_in_range (env : Env) (cfg : Configuration) (Retries attempt : Nat)
    (h : cfg.Retries = (Retries : Int) + 1 + (attempt : Int)) (h30 : attempt ≤ 30) :
    retryDelay env cfg Retries = min ((2 : Int) ^ attempt) cfg.RetriesDelayMaximum := by
  unfold retryDelay
  have hlt : attempt < 2 ^ 32 := by
    have : (2 : Nat) ^ 32 = 4294967296 := by norm_num
    omega
  rw [retryIter_of_attempt cfg Retries attempt h hlt]
  unfold shiftOne
  have : attempt < 31 := by omega
  simp [this]

/-- Retried owners get `FetchAfter = now + min(2^attempt, Maximum)` for `attempt`
between 0 and 30 when the delay is enabled, and `FetchAfter = now` when it is
disabled. -/
theorem HandleFailureOwner_FetchAfter (env : Env) (cfg : Configuration) (Log : Bool)
    (now : Int) (Message : String) (errAuthErr : Bool) (O : Item) (attempt : Nat)
    (hr : O.Retries ≠ 0)
    (h : cfg.Retries = ((O.Retries - 1 : Nat) : Int) + 1 + (attempt : Int))
    (h30 : attempt ≤ 30) :
    (HandleFailureOwner env cfg false Log now Message true errAuthErr O).Owner.FetchAfter =
      if cfg.RetriesDelay = true then now + min ((2 : Int) ^ attempt) cfg.RetriesDelayMaximum
      else now := by
  rw [HandleFailureOwner_retry env cfg false Log now Message true errAuthErr O ⟨rfl, rfl, hr⟩]
  show (if cfg.RetriesDelay = true then now + retryDelay env cfg (O.Retries - 1) else now) = _
  rw [retryDelay_in_range env cfg (O.Retries - 1) attempt h h30]

/-- The offsets of §8.5: with `Acquire::Retries=3` and a maximum of 30, three
transient failures in a row give `FetchAfter` offsets of 1, 2 and 4 seconds; with
a maximum of 3 they give 1, 2 and 3. -/
theorem backoff_offsets_E5 :
    (failRepeatedly refEnv defaultConfig false true 1000
        "400 URI Failure\nURI: http://a/x\nFailReason: Timeout" true false 3 ownerE2).map
        (fun s => s.Owner.FetchAfter - 1000) = [1, 2, 4] ∧
    (failRepeatedly refEnv { defaultConfig with RetriesDelayMaximum := 3 } false true 1000
        "400 URI Failure\nURI: http://a/x\nFailReason: Timeout" true false 3 ownerE2).map
        (fun s => s.Owner.FetchAfter - 1000) = [1, 2, 3] := by
  decide

/-- C7, at the input on which the code departs from it: with `Acquire::Retries=32`,
the delay enabled and a maximum of 30, an owner on its last retry (`Retries = 1`,
0 after the decrement) has `attempt = 32 - 0 - 1 = 31`; `1 << 31` overflows the
32-bit `int` to -2147483648, `std::min` keeps it, and `FetchAfter` is set
2147483648 seconds before `now`, where the claim gives `now + min(2^31, 30)`, that
is `now + 30`. -/
theorem C7_backoff_overflow :
    (URIFailure refEnv { defaultConfig with Retries := 32 } false true 1000
        "400 URI Failure\nURI: http://a/x\nFailReason: Timeout"
        [{ ownerE2 with Retries := 1 }]).map (fun s => (s.Owner.Retries, s.Owner.FetchAfter)) =
      [(0, 1000 - 2147483648)] ∧
    retryIter { defaultConfig with Retries := 32 } 0 = 31 ∧
    (1000 : Int) + min ((2 : Int) ^ 31) 30 = 1030 := by
  decide

theorem isDoomedItem_congr (A B : Item) (h : A.Transaction = B.Transaction) :
    isDoomedItem A = isDoomedItem B := by
  unfold isDoomedItem
  rw [h]

theorem RemoveAlternativeSite_frame (env : Env) (errAuthErr : Bool) (O : Item) :
    (if errAuthErr = true then RemoveAlternativeSite env (env.SiteOnly O.Desc.URI) O
      else O).Transaction = O.Transaction ∧
    (if errAuthErr = true then RemoveAlternativeSite env (env.SiteOnly O.Desc.URI) O
      else O).ExpectedHashes = O.ExpectedHashes ∧
    (if errAuthErr = true then RemoveAlternativeSite env (env.SiteOnly O.Desc.URI) O
      else O).Status = O.Status ∧
    (if errAuthErr = true then RemoveAlternativeSite env (env.SiteOnly O.Desc.URI) O
      else O).Desc = O.Desc ∧
    (if errAuthErr = true then RemoveAlternativeSite env (env.SiteOnly O.Desc.URI) O
      else O).ID = O.ID := by
  cases errAuthErr <;> simp [RemoveAlternativeSite]

/-- C8 (amended): for every owner the failure policy gives up on (it is not
retried and, after the current site was removed on an Auth failure, no alternate
URI can be popped), the worker sets the status to `AuthError` when the failure is
of class Auth and hashes were expected, else to `TransientNetworkError` when the
failure is transient, and else leaves the status as it was, to be settled by
`Owner.Failed`; `Owner.Failed` is called once with the failure message unless the
owner is doomed, and the owner is not enqueued. -/
theorem C8_give_up_status (env : Env) (cfg : Configuration) (LocalOnly Log : Bool)
    (now : Int) (Message : String) (errTransient errAuthErr : Bool) (O : Item)
    (hnr : ¬(errTransient = true ∧ LocalOnly = false ∧ 0 < O.Retries))
    (hpop : PopAlternativeURI
      (if errAuthErr = true then RemoveAlternativeSite env (env.SiteOnly O.Desc.URI) O
        else O) = none) :
    (HandleFailureOwner env cfg LocalOnly Log now Message errTransient errAuthErr O).Thrown
      = false ∧
    (HandleFailureOwner env cfg LocalOnly Log now Message errTransient errAuthErr O).Owner.Status
      = (if errAuthErr = true ∧ O.ExpectedHashes ≠ [] then ItemState.StatAuthError
         else if errTransient = true then ItemState.StatTransientNetworkError
         else O.Status) ∧
    (HandleFailureOwner env cfg LocalOnly Log now Message errTransient
      errAuthErr O).Trace.filter Event.isFailed =
        (if isDoomedItem O = true then [] else [Event.Failed O.ID Message]) ∧
    (HandleFailureOwner env cfg LocalOnly Log now Message errTransient
      errAuthErr O).Trace.filter Event.isEnqueue = [] := by
  have hnr2 : ¬(errTransient = true ∧ LocalOnly = false ∧ O.Retries ≠ 0) := by
    rw [← Nat.pos_iff_ne_zero]; exact hnr
  obtain ⟨fT, fE, fS, _, _⟩ := RemoveAlternativeSite_frame env errAuthErr O
  unfold HandleFailureOwner
  rw [if_neg hnr2]
  generalize (if errAuthErr = true then RemoveAlternativeSite env (env.SiteOnly O.Desc.URI) O
      else O) = O1 at hpop fT fE fS ⊢
  dsimp only
  rw [hpop]
  dsimp only
  have hdoom : ∀ st, isDoomedItem { O1 with Status := st } = isDoomedItem O := by
    intro st
    rw [isDoomedItem_status]
    exact isDoomedItem_congr O1 O fT
  have hdoom1 : isDoomedItem O1 = isDoomedItem O := isDoomedItem_congr O1 O fT
  by_cases ha : errAuthErr = true ∧ O1.ExpectedHashes ≠ []
  · have ha2 : errAuthErr = true ∧ O.ExpectedHashes ≠ [] := by rw [← fE]; exact ha
    rw [if_pos ha, if_pos ha2]
    simp only [hdoom]
    cases Log <;> cases hd : isDoomedItem O <;> simp [Event.isFailed, Event.isEnqueue]
  · have ha2 : ¬(errAuthErr = true ∧ O.ExpectedHashes ≠ []) := by rw [← fE]; exact ha
    rw [if_neg ha, if_neg ha2]
    by_cases ht : errTransient = true
    · rw [if_pos ht, if_pos ht]
      simp only [hdoom]
      cases Log <;> cases hd : isDoomedItem O <;> simp [Event.isFailed, Event.isEnqueue]
    · rw [if_neg ht, if_neg ht]
      simp only [hdoom1, fS]
      cases Log <;> cases hd : isDoomedItem O <;> simp [Event.isFailed, Event.isEnqueue]

/-- Witness of C8: the owner of scenario E2 with no retries and no alternates
left, failing with `FailReason: HashSumMismatch`. -/
theorem C8_give_up_status_witness :
    (HandleFailureOwner refEnv defaultConfig false true 1000
      "400 URI Failure\nURI: http://a/x\nFailReason: HashSumMismatch" false true
      { ownerE2 with Retries := 0 }).Owner.Status = ItemState.StatAuthError ∧
    (HandleFailureOwner refEnv defaultConfig false true 1000
      "400 URI Failure\nURI: http://a/x\nFailReason: HashSumMismatch" false true
      { ownerE2 with Retries := 0 }).Trace.filter Event.isFailed =
        [Event.Failed 1 "400 URI Failure\nURI: http://a/x\nFailReason: HashSumMismatch"] := by
  obtain ⟨_, h2, h3, _⟩ := C8_give_up_status refEnv defaultConfig false true 1000
    "400 URI Failure\nURI: http://a/x\nFailReason: HashSumMismatch" false true
    { ownerE2 with Retries := 0 } (by decide) (by decide)
  exact ⟨h2, h3⟩

/-- C8 fails as stated: an owner that expects hashes, has no retries and no
alternates left and fails with `FailReason: Timeout` (class Transient) is given
up on with status `TransientNetworkError`, not `AuthError`. -/
theorem C8_counterexample :
    ({ ownerE2 with Retries := 0 } : Item).ExpectedHashes ≠ [] ∧
    classifyFailure refEnv "400 URI Failure\nURI: http://a/x\nFailReason: Timeout"
      = (true, false) ∧
    (URIFailure refEnv defaultConfig false true 1000
        "400 URI Failure\nURI: http://a/x\nFailReason: Timeout"
        [{ ownerE2 with Retries := 0 }]).map
        (fun s => (s.Owner.Status, s.Trace.filter Event.isFailed, s.Trace.filter Event.isEnqueue)) =
      [(ItemState.StatTransientNetworkError,
        [Event.Failed 1 "400 URI Failure\nURI: http://a/x\nFailReason: Timeout"], [])] ∧
    ItemState.StatTransientNetworkError ≠ ItemState.StatAuthError := by
  decide

theorem PopAlternativeURI_doomed (env : Env) (errAuthErr : Bool) (O O2 : Item)
    (NewURI : String)
    (hpop : PopAlternativeURI
      (if errAuthErr = true then RemoveAlternativeSite env (env.SiteOnly O.Desc.URI) O
        else O) = some (NewURI, O2)) :
    isDoomedItem O2 = isDoomedItem O ∧ O2.Desc = O.Desc ∧ O2.ID = O.ID := by
  obtain ⟨fT, _, _, fD, fI⟩ := RemoveAlternativeSite_frame env errAuthErr O
  obtain ⟨rest, _, hO2⟩ := PopAlternativeURI_some _ O2 NewURI hpop
  subst hO2
  exact ⟨isDoomedItem_congr _ _ fT, fD, fI⟩

/-- The alternate switch of `HandleFailure` when the relabelling completes: the
owner gets the popped URI and is enqueued with it unless doomed; `Failed` is not
called. -/
theorem HandleFailureOwner_switch (env : Env) (cfg : Configuration) (LocalOnly Log : Bool)
    (now : Int) (Message : String) (errTransient errAuthErr : Bool) (O O2 O3 : Item)
    (NewURI : String)
    (hnr : ¬(errTransient = true ∧ LocalOnly = false ∧ O.Retries ≠ 0))
    (hpop : PopAlternativeURI
      (if errAuthErr = true then RemoveAlternativeSite env (env.SiteOnly O.Desc.URI) O
        else O) = some (NewURI, O2))
    (hcs : ChangeSiteIsMirrorChange env NewURI O2 = some O3) :
    HandleFailureOwner env cfg LocalOnly Log now Message errTransient errAuthErr O =
      { Owner := { O3 with Desc := { O3.Desc with URI := NewURI } }
        Trace := [Event.FailMessage O.ID Message] ++
          (if Log then [Event.LogFail O.Desc] else []) ++
          (if isDoomedItem O = false then [Event.Enqueue { O3.Desc with URI := NewURI }]
            else [])
        Thrown := false } := by
  obtain ⟨hd2, hD2, _⟩ := PopAlternativeURI_doomed env errAuthErr O O2 NewURI hpop
  have hf := ChangeSiteIsMirrorChange_frame env NewURI O2 O3 hcs
  have hd3 : isDoomedItem { O3 with Desc := { O3.Desc with URI := NewURI } } = isDoomedItem O := by
    rw [← hd2]
    exact isDoomedItem_congr _ _ hf.2.2.1
  unfold HandleFailureOwner
  rw [if_neg hnr]
  dsimp only
  rw [hpop]
  dsimp only
  rw [hcs]
  dsimp only
  rw [hd3, hD2]

/-- The alternate switch of `HandleFailure` when the relabelling throws: the pass
ends after `FailMessage` and `Log->Fail`; the URI is not replaced and nothing is
enqueued. -/
theorem HandleFailureOwner_switch_throws (env : Env) (cfg : Configuration)
    (LocalOnly Log : Bool) (now : Int) (Message : String) (errTransient errAuthErr : Bool)
    (O O2 : Item) (NewURI : String)
    (hnr : ¬(errTransient = true ∧ LocalOnly = false ∧ O.Retries ≠ 0))
    (hpop : PopAlternativeURI
      (if errAuthErr = true then RemoveAlternativeSite env (env.SiteOnly O.Desc.URI) O
        else O) = some (NewURI, O2))
    (hcs : ChangeSiteIsMirrorChange env NewURI O2 = none) :
    HandleFailureOwner env cfg LocalOnly Log now Message errTransient errAuthErr O =
      { Owner := O2
        Trace := [Event.FailMessage O.ID Message] ++
          (if Log then [Event.LogFail O.Desc] else [])
        Thrown := true } := by
  obtain ⟨_, hD2, _⟩ := PopAlternativeURI_doomed env errAuthErr O O2 NewURI hpop
  unfold HandleFailureOwner
  rw [if_neg hnr]
  dsimp only
  rw [hpop]
  dsimp only
  rw [hcs]
  dsimp only
  rw [hD2]

/-- The trace of `HandleFailure` for an owner it gives up on. -/
theorem HandleFailureOwner_give_up_trace (env : Env) (cfg : Configuration)
    (LocalOnly Log : Bool) (now : Int) (Message : String) (errTransient errAuthErr : Bool)
    (O : Item)
    (hnr : ¬(errTransient = true ∧ LocalOnly = false ∧ O.Retries ≠ 0))
    (hpop : PopAlternativeURI
      (if errAuthErr = true then RemoveAlternativeSite env (env.SiteOnly O.Desc.URI) O
        else O) = none) :
    (HandleFailureOwner env cfg LocalOnly Log now Message errTransient errAuthErr O).Trace =
      (if isDoomedItem O = false then [Event.Failed O.ID Message] else []) ++
      (if Log then [Event.LogFail O.Desc] else []) := by
  obtain ⟨fT, _, _, fD, _⟩ := RemoveAlternativeSite_frame env errAuthErr O
  unfold HandleFailureOwner
  rw [if_neg hnr]
  generalize (if errAuthErr = true then RemoveAlternativeSite env (env.SiteOnly O.Desc.URI) O
      else O) = O1 at hpop fT fD ⊢
  dsimp only
  rw [hpop]
  dsimp only
  have hdoom : ∀ st, isDoomedItem { O1 with Status := st } = isDoomedItem O := by
    intro st
    rw [isDoomedItem_status]
    exact isDoomedItem_congr O1 O fT
  have hdoom1 : isDoomedItem O1 = isDoomedItem O := isDoomedItem_congr O1 O fT
  split_ifs <;> simp_all

/-- C9, at the input on which the code departs from it: an owner whose URI
`http://a` is exactly the first token of its description, with the alternate
`http://b/x`, fails with `FailReason: HashSumMismatch` (class Auth).  The site
`http://a` is removed from the alternates, the pop yields `http://b/x`, and then
`ChangeSiteIsMirrorChange` calls `desc.URI.substr(9)` on a string of length 8:
the pass ends by `std::out_of_range` after `FailMessage` and `Log->Fail`, the
description URI is still `http://a` and the owner is not enqueued. -/
theorem C9_alternate_switch_throws :
    classifyFailure refEnv "400 URI Failure\nURI: http://a\nFailReason: HashSumMismatch"
      = (false, true) ∧
    (PopAlternativeURI (RemoveAlternativeSite refEnv (refEnv.SiteOnly ownerBare.Desc.URI)
      ownerBare)).map Prod.fst = some "http://b/x" ∧
    strSubstrFrom ownerBare.Desc.URI 9 = none ∧
    (URIFailure refEnv defaultConfig false true 1000
        "400 URI Failure\nURI: http://a\nFailReason: HashSumMismatch" [ownerBare]).map
        (fun s => (s.Thrown, s.Owner.Desc.URI, s.Trace)) =
      [(true, "http://a",
        [Event.FailMessage 3 "400 URI Failure\nURI: http://a\nFailReason: HashSumMismatch",
         Event.LogFail ownerBare.Desc])] := by
  decide

/-- On an Auth-class failure the alternate is popped from the owner's alternates
after the site of its current URI was removed from them; when the pop yields a URI
and the relabelling completes, the description URI becomes that URI, the owner is
enqueued with the new description unless doomed, and `Failed` is not called. -/
theorem HandleFailureOwner_Auth_switch (env : Env) (cfg : Configuration)
    (LocalOnly Log : Bool) (now : Int) (Message : String) (O O2 O3 : Item) (NewURI : String)
    (hpop : PopAlternativeURI (RemoveAlternativeSite env (env.SiteOnly O.Desc.URI) O)
      = some (NewURI, O2))
    (hcs : ChangeSiteIsMirrorChange env NewURI O2 = some O3) :
    (HandleFailureOwner env cfg LocalOnly Log now Message false true O).Thrown = false ∧
    (HandleFailureOwner env cfg LocalOnly Log now Message false true O).Owner.Desc.URI
      = NewURI ∧
    (HandleFailureOwner env cfg LocalOnly Log now Message false true O).Trace.filter
      Event.isFailed = [] ∧
    (HandleFailureOwner env cfg LocalOnly Log now Message false true O).Trace.filter
      Event.isEnqueue =
        (if isDoomedItem O = true then []
         else [Event.Enqueue
          (HandleFailureOwner env cfg LocalOnly Log now Message false true O).Owner.Desc]) := by
  have hnr : ¬(false = true ∧ LocalOnly = false ∧ O.Retries ≠ 0) := by simp
  rw [HandleFailureOwner_switch env cfg LocalOnly Log now Message false true O O2 O3 NewURI hnr
    (by simpa using hpop) hcs]
  cases Log <;> cases hd : isDoomedItem O <;> simp [Event.isFailed, Event.isEnqueue]

/-! ## Doomed owners -/

theorem URIDoneOwner_doomed (env : Env) (cfg : Configuration) (Log : Bool)
    (R : HashStringList) (ims : Bool) (M : String) (O : Item)
    (hd : isDoomedItem O = true) :
    (URIDoneOwner env cfg Log R ims M O).Trace.filter Event.isCallback = [] ∧
    ((URIDoneOwner env cfg Log R ims M O).Trace.filter Event.isUI).length =
      (if Log = true then 1 else 0) := by
  unfold URIDoneOwner
  cases consideredOkayByHashes env cfg.ForceHash R ims O <;>
    cases env.VerifyDone O M <;> cases Log <;> cases ims <;>
    simp [hd, isDoomedItem_status, Event.isCallback, Event.isUI]

theorem HandleFailureOwner_doomed (env : Env) (cfg : Configuration) (LocalOnly Log : Bool)
    (now : Int) (Message : String) (errTransient errAuthErr : Bool) (O : Item)
    (hd : isDoomedItem O = true) :
    (HandleFailureOwner env cfg LocalOnly Log now Message errTransient errAuthErr O).Trace.filter
      Event.isCallback = [] ∧
    ((HandleFailureOwner env cfg LocalOnly Log now Message errTransient
      errAuthErr O).Trace.filter Event.isUI).length = (if Log = true then 1 else 0) := by
  by_cases hr : errTransient = true ∧ LocalOnly = false ∧ O.Retries ≠ 0
  · rw [HandleFailureOwner_retry env cfg LocalOnly Log now Message errTransient errAuthErr O hr]
    cases Log <;> simp [hd, Event.isCallback, Event.isUI]
  · cases hpop : PopAlternativeURI
        (if errAuthErr = true then RemoveAlternativeSite env (env.SiteOnly O.Desc.URI) O
          else O) with
    | none =>
      rw [HandleFailureOwner_give_up_trace env cfg LocalOnly Log now Message errTransient
        errAuthErr O hr hpop]
      cases Log <;> simp [hd, Event.isCallback, Event.isUI]
    | some p =>
      obtain ⟨NewURI, O2⟩ := p
      cases hcs : ChangeSiteIsMirrorChange env NewURI O2 with
      | none =>
        rw [HandleFailureOwner_switch_throws env cfg LocalOnly Log now Message errTransient
          errAuthErr O O2 NewURI hr hpop hcs]
        cases Log <;> simp [Event.isCallback, Event.isUI]
      | some O3 =>
        rw [HandleFailureOwner_switch env cfg LocalOnly Log now Message errTransient
          errAuthErr O O2 O3 NewURI hr hpop hcs]
        cases Log <;> simp [hd, Event.isCallback, Event.isUI]

/-- Every pass the loop of `HandleFailure` makes is the loop body run on the owner
at that position. -/
theorem HandleFailure_get (env : Env) (cfg : Configuration) (LocalOnly Log : Bool)
    (now : Int) (Message : String) (errTransient errAuthErr : Bool) :
    ∀ (owners : List Item) (i : Nat) (s : Step),
      (HandleFailure env cfg LocalOnly Log now Message errTransient errAuthErr owners)[i]?
        = some s →
      ∃ O, owners[i]? = some O ∧
        s = HandleFailureOwner env cfg LocalOnly Log now Message errTransient errAuthErr O := by
  intro owners
  induction owners with
  | nil => intro i s h; simp [HandleFailure] at h
  | cons o rest ih =>
    intro i s h
    unfold HandleFailure at h
    dsimp only at h
    cases i with
    | zero =>
      refine ⟨o, by simp, ?_⟩
      split_ifs at h <;> simp at h <;> exact h.symm
    | succ j =>
      split_ifs at h
      · simp at h
      · simp only [List.getElem?_cons_succ] at h ⊢
        exact ih j s h

/-- A doomed owner in one pass: the pass of the `URI_DONE` loop over it and the
pass of the failure policy over it make no call of `Owner->Done`, `Owner->Failed`
or `Enqueue`, and emit exactly one UI event (`Log->Done`, `Log->IMSHit` or
`Log->Fail`) when a progress sink is attached, none when there is no sink. -/
theorem doomed_owner_pass_only_UI (env : Env) (cfg : Configuration) (Log : Bool)
    (R : HashStringList) (Message : String) (owners : List Item) (i : Nat) (O : Item)
    (LocalOnly : Bool) (now : Int) (FailureMessage : String) (errTransient errAuthErr : Bool)
    (hO : owners[i]? = some O) (hd : isDoomedItem O = true) :
    (∃ s, (URIDone env cfg Log R Message owners)[i]? = some s ∧
      s.Trace.filter Event.isCallback = [] ∧
      (s.Trace.filter Event.isUI).length = (if Log = true then 1 else 0)) ∧
    (HandleFailureOwner env cfg LocalOnly Log now FailureMessage errTransient
      errAuthErr O).Trace.filter Event.isCallback = [] ∧
    ((HandleFailureOwner env cfg LocalOnly Log now FailureMessage errTransient
      errAuthErr O).Trace.filter Event.isUI).length = (if Log = true then 1 else 0) := by
  refine ⟨⟨_, URIDoneOwners_get env cfg Log R (isIMSHit env Message) owners Message i O hO,
    URIDoneOwner_doomed env cfg Log R _ _ O hd⟩,
    HandleFailureOwner_doomed env cfg LocalOnly Log now FailureMessage errTransient errAuthErr
      O hd⟩

/-- The same on a doomed owner second in line behind the owner of scenario E2,
with a progress sink attached. -/
theorem doomed_owner_pass_only_UI_example :
    [ownerE2, ownerDoomed][1]? = some ownerDoomed ∧ isDoomedItem ownerDoomed = true ∧
    ((∃ s, (URIDone refEnv defaultConfig true [⟨"SHA256", "abc"⟩]
        "201 URI Done\nURI: http://a/x\nSHA256-Hash: abc" [ownerE2, ownerDoomed])[1]? = some s ∧
      s.Trace.filter Event.isCallback = [] ∧
      (s.Trace.filter Event.isUI).length = (if true = true then 1 else 0)) ∧
    (HandleFailureOwner refEnv defaultConfig false true 1000
      "400 URI Failure\nURI: http://a/x\nFailReason: Timeout" true
      false ownerDoomed).Trace.filter Event.isCallback = [] ∧
    ((HandleFailureOwner refEnv defaultConfig false true 1000
      "400 URI Failure\nURI: http://a/x\nFailReason: Timeout" true
      false ownerDoomed).Trace.filter Event.isUI).length = (if true = true then 1 else 0)) :=
  ⟨rfl, by decide, doomed_owner_pass_only_UI refEnv defaultConfig true [⟨"SHA256", "abc"⟩]
    "201 URI Done\nURI: http://a/x\nSHA256-Hash: abc" [ownerE2, ownerDoomed] 1 ownerDoomed
    false 1000 "400 URI Failure\nURI: http://a/x\nFailReason: Timeout" true false rfl
    (by decide)⟩

/-! ## `103 Redirect` -/

theorem pushAlternates_eq (env : WorkerEnv) (enc : Bool) (alts : List String) (O : Item) :
    pushAlternates env enc alts O =
      { O with AlternativeURIs :=
          alts.map (fun alt => if enc = true then alt else env.EncodePath alt) ++
            O.AlternativeURIs } := by
  unfold pushAlternates
  rw [List.foldl_reverse]
  induction alts with
  | nil => rfl
  | cons a rest ih =>
    simp only [List.foldr_cons, List.map_cons, List.cons_append]
    rw [ih]
    rfl

/-- Every pass the loop of the `REDIRECT` case makes is the loop body run on the
owner at that position, from some value of `NewURI`. -/
theorem RedirectOwners_get (env : WorkerEnv) (enc Log : Bool) (Message GotNewURI : String)
    (AltUris : List String) :
    ∀ (owners : List Item) (NewURI : String) (i : Nat) (s : RedirectStep),
      (RedirectOwners env enc Log Message GotNewURI AltUris NewURI owners)[i]? = some s →
      ∃ O N, owners[i]? = some O ∧
        s = RedirectOwner env enc Log Message GotNewURI AltUris N O := by
  intro owners
  induction owners with
  | nil => intro N i s h; simp [RedirectOwners] at h
  | cons o rest ih =>
    intro N i s h
    unfold RedirectOwners at h
    dsimp only at h
    cases i with
    | zero =>
      refine ⟨o, N, by simp, ?_⟩
      split_ifs at h <;> simp at h <;> exact h.symm
    | succ j =>
      split_ifs at h
      · simp at h
      · simp only [List.getElem?_cons_succ] at h ⊢
        exact ih _ j s h

/-- The pass of the `REDIRECT` loop over an owner for which the redirect is a
simple retry. -/
theorem RedirectOwner_simple (env : WorkerEnv) (enc Log : Bool) (Message GotNewURI : String)
    (AltUris : List String) (NewURI : String) (O : Item)
    (h : isSimpleRetry env enc GotNewURI O = true) :
    RedirectOwner env enc Log Message GotNewURI AltUris NewURI O =
      { Owner := pushAlternates env enc AltUris O
        NewURI := NewURI
        Trace := if isDoomedItem O = false then [Call.Item (Event.Enqueue O.Desc)] else []
        Thrown := false } := by
  unfold RedirectOwner
  simp only [h, if_true]
  rw [pushAlternates_eq]
  rfl

/-- C11: for every owner of a 103 Redirect for which the new URI equals the owner's
current URI after the encoding normalisation (compared directly when the method
sends encoded URIs, else against the owner's URI with its path de-quoted), the
pass over the owner is a simple retry: it does not throw, pops no alternate (the
alternates the owner had are all still there, below the pushed ones), makes no
loop check and no call of `Failed`, leaves the owner's item description, URI
included, and the variable `NewURI` as they were, and enqueues the owner exactly
once with that description unless it is doomed. -/
theorem C11_simple_retry (env : WorkerEnv) (enc Log : Bool) (Message GotNewURI : String)
    (AltUris : List String) (NewURI : String) (O : Item)
    (h : (enc = true → O.Desc.URI = GotNewURI) ∧
      (enc = false → GotNewURI = env.DeQuotePath O.Desc.URI)) :
    (RedirectOwner env enc Log Message GotNewURI AltUris NewURI O).Thrown = false ∧
    (RedirectOwner env enc Log Message GotNewURI AltUris NewURI O).Owner.Desc = O.Desc ∧
    (RedirectOwner env enc Log Message GotNewURI AltUris NewURI O).Owner.AlternativeURIs =
      AltUris.map (fun alt => if enc = true then alt else env.EncodePath alt) ++
        O.AlternativeURIs ∧
    (RedirectOwner env enc Log Message GotNewURI AltUris NewURI O).NewURI = NewURI ∧
    (RedirectOwner env enc Log Message GotNewURI AltUris NewURI O).Trace.filter
      Call.isLoopCheck = [] ∧
    (RedirectOwner env enc Log Message GotNewURI AltUris NewURI O).Trace.filter
      Call.isFailed = [] ∧
    (RedirectOwner env enc Log Message GotNewURI AltUris NewURI O).Trace.filter
      Call.isEnqueue =
        (if isDoomedItem O = true then [] else [Call.Item (Event.Enqueue O.Desc)]) := by
  have hs : isSimpleRetry env enc GotNewURI O = true := by
    unfold isSimpleRetry
    cases enc
    · simpa using h.2 rfl
    · simpa using h.1 rfl
  rw [RedirectOwner_simple env enc Log Message GotNewURI AltUris NewURI O hs, pushAlternates_eq]
  cases hd : isDoomedItem O <;>
    simp [Call.isLoopCheck, Call.isFailed, Call.isEnqueue, Event.isFailed, Event.isEnqueue]

/-- Witness of C11: the method redirects the owner of scenario E2 to the URI it
already has, and names one alternate. -/
theorem C11_simple_retry_witness :
    (RedirectOwner refWorkerEnv true true
      "103 Redirect\nURI: http://a/x\nNew-URI: http://a/x\nAlternate-URIs: http://c/x"
      "http://a/x" ["http://c/x"] "http://a/x" ownerE2).Owner.Desc = ownerE2.Desc ∧
    (RedirectOwner refWorkerEnv true true
      "103 Redirect\nURI: http://a/x\nNew-URI: http://a/x\nAlternate-URIs: http://c/x"
      "http://a/x" ["http://c/x"] "http://a/x" ownerE2).Trace =
        [Call.Item (Event.Enqueue ownerE2.Desc)] := by
  have h := C11_simple_retry refWorkerEnv true true
    "103 Redirect\nURI: http://a/x\nNew-URI: http://a/x\nAlternate-URIs: http://c/x"
    "http://a/x" ["http://c/x"] "http://a/x" ownerE2 ⟨fun _ => rfl, fun h => by cases h⟩
  exact ⟨h.2.1, by decide⟩

theorem replaceBadURI_frame (env : WorkerEnv) (NewURI : String) (O : Item) :
    (replaceBadURI env NewURI O).2.Desc = O.Desc ∧
    (replaceBadURI env NewURI O).2.Transaction = O.Transaction ∧
    (replaceBadURI env NewURI O).2.Retries = O.Retries ∧
    (replaceBadURI env NewURI O).2.ID = O.ID := by
  unfold replaceBadURI
  by_cases hg : IsGoodAlternativeURI env.toEnv NewURI O = false
  · rw [if_pos hg]
    cases hp : PopAlternativeURI O with
    | none => simp
    | some p =>
      obtain ⟨u, O1⟩ := p
      obtain ⟨rest, _, hO1⟩ := PopAlternativeURI_some O O1 u hp
      subst hO1
      simp
  · rw [if_neg hg]
    simp

theorem replaceBadURI_fst (env : WorkerEnv) (NewURI : String) (O : Item) :
    (replaceBadURI env NewURI O).1 =
      if IsGoodAlternativeURI env.toEnv NewURI O = true then NewURI
      else (O.AlternativeURIs.head?).getD "" := by
  unfold replaceBadURI
  cases hg : IsGoodAlternativeURI env.toEnv NewURI O
  · simp only [if_true, Bool.false_eq_true, if_false]
    unfold PopAlternativeURI
    cases O.AlternativeURIs <;> simp
  · simp

/-- The pass of the `REDIRECT` loop that fails the owner with `RedirectionLoop`. -/
theorem RedirectOwner_loop (env : WorkerEnv) (enc Log : Bool) (Message GotNewURI : String)
    (AltUris : List String) (NewURI : String) (O : Item) (N1 : String) (O2 : Item)
    (hns : isSimpleRetry env enc GotNewURI O = false)
    (hr : replaceBadURI env NewURI (pushAlternates env enc AltUris O) = (N1, O2))
    (hl : N1 = "" ∨ env.IsRedirectionLoop O2 N1 = true) :
    RedirectOwner env enc Log Message GotNewURI AltUris NewURI O =
      { Owner := O2
        NewURI := N1
        Trace := (if N1 = "" then [] else [Call.IsRedirectionLoop O.ID N1]) ++
          [Call.Item (Event.Failed O.ID (Message ++ "\nFailReason: RedirectionLoop"))] ++
          (if Log then [Call.Item (Event.LogFail O.Desc)] else [])
        Thrown := false } := by
  have hD : O2.Desc = O.Desc := by
    have := (replaceBadURI_frame env NewURI (pushAlternates env enc AltUris O)).1
    rw [hr, pushAlternates_eq] at this
    exact this
  unfold RedirectOwner
  simp only [hns, Bool.false_eq_true, if_false, hr]
  by_cases he : N1 = ""
  · simp only [he, if_true, hD, List.nil_append]
  · have hloop : env.IsRedirectionLoop O2 N1 = true := by
      rcases hl with h | h
      · exact absurd h he
      · exact h
    simp only [he, if_false, hloop, if_true, hD]
    rfl

/-- The pass of the `REDIRECT` loop that moves the owner to the new URI, when the
relabelling completes. -/
theorem RedirectOwner_moved (env : WorkerEnv) (enc Log : Bool) (Message GotNewURI : String)
    (AltUris : List String) (NewURI : String) (O : Item) (N1 : String) (O2 O3 : Item)
    (hns : isSimpleRetry env enc GotNewURI O = false)
    (hr : replaceBadURI env NewURI (pushAlternates env enc AltUris O) = (N1, O2))
    (hl : ¬(N1 = "" ∨ env.IsRedirectionLoop O2 N1 = true))
    (hcs : ChangeSiteIsMirrorChange env.toEnv N1 O2 = some O3) :
    RedirectOwner env enc Log Message GotNewURI AltUris NewURI O =
      { Owner := { O3 with Desc := { O3.Desc with URI := N1 } }
        NewURI := N1
        Trace := [Call.IsRedirectionLoop O.ID N1] ++
          (if Log then [Call.Item (Event.LogDone O.Desc)] else []) ++
          (if isDoomedItem O = false then
            [Call.Item (Event.Enqueue { O3.Desc with URI := N1 })] else [])
        Thrown := false } := by
  have hf := replaceBadURI_frame env NewURI (pushAlternates env enc AltUris O)
  rw [hr, pushAlternates_eq] at hf
  have hD : O2.Desc = O.Desc := hf.1
  have hT : O2.Transaction = O.Transaction := hf.2.1
  have hc := ChangeSiteIsMirrorChange_frame env.toEnv N1 O2 O3 hcs
  have hd3 : isDoomedItem { O3 with Desc := { O3.Desc with URI := N1 } } = isDoomedItem O :=
    isDoomedItem_congr _ _ (hc.2.2.1.trans hT)
  have he : ¬ N1 = "" := fun h => hl (Or.inl h)
  have hloop : ¬ env.IsRedirectionLoop O2 N1 = true := fun h => hl (Or.inr h)
  unfold RedirectOwner
  simp only [hns, Bool.false_eq_true, if_false, hr, he, hloop, hcs, hd3, hD]

/-- The pass of the `REDIRECT` loop that moves the owner to the new URI, when the
relabelling throws: the pass ends after the loop check and `Log->Done`. -/
theorem RedirectOwner_moved_throws (env : WorkerEnv) (enc Log : Bool)
    (Message GotNewURI : String) (AltUris : List String) (NewURI : String) (O : Item)
    (N1 : String) (O2 : Item)
    (hns : isSimpleRetry env enc GotNewURI O = false)
    (hr : replaceBadURI env NewURI (pushAlternates env enc AltUris O) = (N1, O2))
    (hl : ¬(N1 = "" ∨ env.IsRedirectionLoop O2 N1 = true))
    (hcs : ChangeSiteIsMirrorChange env.toEnv N1 O2 = none) :
    RedirectOwner env enc Log Message GotNewURI AltUris NewURI O =
      { Owner := O2
        NewURI := N1
        Trace := [Call.IsRedirectionLoop O.ID N1] ++
          (if Log then [Call.Item (Event.LogDone O.Desc)] else [])
        Thrown := true } := by
  have hf := replaceBadURI_frame env NewURI (pushAlternates env enc AltUris O)
  rw [hr, pushAlternates_eq] at hf
  have hD : O2.Desc = O.Desc := hf.1
  have he : ¬ N1 = "" := fun h => hl (Or.inl h)
  have hloop : ¬ env.IsRedirectionLoop O2 N1 = true := fun h => hl (Or.inr h)
  unfold RedirectOwner
  simp only [hns, Bool.false_eq_true, if_false, hr, he, hloop, hcs, hD]

/-- One pass of the loop of the `REDIRECT` case that is not a simple retry: let
`NewURI` be the new URI the worker holds when the pass starts (the redirect
target for the first owner) and `N1` that URI if it is not recorded as a
bad alternative for the owner, else the alternate popped in its place, or the empty
string when none can be popped.  The owner is failed with the original message
extended by `FailReason: RedirectionLoop` if and only if `N1` is empty or
`IsRedirectionLoop` reports a cycle for `N1`; it then keeps its item description,
URI included, and is not enqueued.  In every other case `Failed` is not called
and, when the relabelling of the site completes, the owner's URI is set to `N1`
and the owner is enqueued with its new description unless it is doomed. -/
theorem RedirectOwner_outcome (env : WorkerEnv) (enc Log : Bool) (Message GotNewURI : String)
    (AltUris : List String) (NewURI : String) (O : Item) (N1 : String) (O2 : Item)
    (hns : isSimpleRetry env enc GotNewURI O = false)
    (hr : replaceBadURI env NewURI (pushAlternates env enc AltUris O) = (N1, O2)) :
    (N1 = if IsGoodAlternativeURI env.toEnv NewURI (pushAlternates env enc AltUris O) = true
      then NewURI
      else ((pushAlternates env enc AltUris O).AlternativeURIs.head?).getD "") ∧
    (Call.Item (Event.Failed O.ID (Message ++ "\nFailReason: RedirectionLoop")) ∈
        (RedirectOwner env enc Log Message GotNewURI AltUris NewURI O).Trace ↔
      (N1 = "" ∨ env.IsRedirectionLoop O2 N1 = true)) ∧
    ((N1 = "" ∨ env.IsRedirectionLoop O2 N1 = true) →
      (RedirectOwner env enc Log Message GotNewURI AltUris NewURI O).Thrown = false ∧
      (RedirectOwner env enc Log Message GotNewURI AltUris NewURI O).Owner.Desc = O.Desc ∧
      (RedirectOwner env enc Log Message GotNewURI AltUris NewURI O).Trace.filter
        Call.isEnqueue = []) ∧
    (¬(N1 = "" ∨ env.IsRedirectionLoop O2 N1 = true) →
      (RedirectOwner env enc Log Message GotNewURI AltUris NewURI O).Trace.filter
        Call.isFailed = [] ∧
      ∀ O3, ChangeSiteIsMirrorChange env.toEnv N1 O2 = some O3 →
        (RedirectOwner env enc Log Message GotNewURI AltUris NewURI O).Thrown = false ∧
        (RedirectOwner env enc Log Message GotNewURI AltUris NewURI O).Owner.Desc.URI = N1 ∧
        (RedirectOwner env enc Log Message GotNewURI AltUris NewURI O).Trace.filter
          Call.isEnqueue =
            (if isDoomedItem O = true then []
             else [Call.Item (Event.Enqueue
              (RedirectOwner env enc Log Message GotNewURI AltUris NewURI O).Owner.Desc)])) := by
  have hD : O2.Desc = O.Desc := by
    have := (replaceBadURI_frame env NewURI (pushAlternates env enc AltUris O)).1
    rw [hr, pushAlternates_eq] at this
    exact this
  have hN : N1 = (replaceBadURI env NewURI (pushAlternates env enc AltUris O)).1 := by rw [hr]
  refine ⟨by rw [hN, replaceBadURI_fst], ?_, ?_, ?_⟩
  · constructor
    · intro hmem
      by_contra hl
      cases hcs : ChangeSiteIsMirrorChange env.toEnv N1 O2 with
      | none =>
        rw [RedirectOwner_moved_throws env enc Log Message GotNewURI AltUris NewURI O N1 O2
          hns hr hl hcs] at hmem
        cases Log <;> simp at hmem
      | some O3 =>
        rw [RedirectOwner_moved env enc Log Message GotNewURI AltUris NewURI O N1 O2 O3
          hns hr hl hcs] at hmem
        cases Log <;> cases hd : isDoomedItem O <;> simp [hd] at hmem
    · intro hl
      rw [RedirectOwner_loop env enc Log Message GotNewURI AltUris NewURI O N1 O2 hns hr hl]
      simp
  · intro hl
    rw [RedirectOwner_loop env enc Log Message GotNewURI AltUris NewURI O N1 O2 hns hr hl]
    refine ⟨rfl, hD, ?_⟩
    by_cases he : N1 = "" <;> cases Log <;>
      simp [he, Call.isEnqueue, Event.isEnqueue]
  · intro hl
    constructor
    · cases hcs : ChangeSiteIsMirrorChange env.toEnv N1 O2 with
      | none =>
        rw [RedirectOwner_moved_throws env enc Log Message GotNewURI AltUris NewURI O N1 O2
          hns hr hl hcs]
        cases Log <;> simp [Call.isFailed, Event.isFailed]
      | some O3 =>
        rw [RedirectOwner_moved env enc Log Message GotNewURI AltUris NewURI O N1 O2 O3
          hns hr hl hcs]
        cases Log <;> cases hd : isDoomedItem O <;> simp [Call.isFailed, Event.isFailed]
    · intro O3 hcs
      rw [RedirectOwner_moved env enc Log Message GotNewURI AltUris NewURI O N1 O2 O3
        hns hr hl hcs]
      refine ⟨rfl, rfl, ?_⟩
      cases Log <;> cases hd : isDoomedItem O <;> simp [Call.isEnqueue, Event.isEnqueue]

/-- The same on scenario E5: the owner of E2 redirected from `http://a/x` to
`http://b/x` with no prior visit. -/
theorem RedirectOwner_outcome_E5 :
    (RedirectOwner refWorkerEnv true true "103 Redirect\nURI: http://a/x\nNew-URI: http://b/x"
      "http://b/x" [] "http://b/x" ownerE2).Trace.filter Call.isFailed = [] ∧
    (RedirectOwner refWorkerEnv true true "103 Redirect\nURI: http://a/x\nNew-URI: http://b/x"
      "http://b/x" [] "http://b/x" ownerE2).Owner.Desc.URI = "http://b/x" := by
  have h := (RedirectOwner_outcome refWorkerEnv true true
    "103 Redirect\nURI: http://a/x\nNew-URI: http://b/x" "http://b/x" [] "http://b/x" ownerE2
    "http://b/x" ownerE2 (by decide) (by decide)).2.2.2 (by decide)
  exact ⟨h.1, (h.2 _ (by decide : ChangeSiteIsMirrorChange refWorkerEnv.toEnv "http://b/x" ownerE2
    = some { ownerE2 with
        UsedMirror := "http://b"
        Desc := { ownerE2.Desc with Description := "http://b stable InRelease" } })).2.1⟩

/-- C12 fails as stated: a doomed owner is redirected from `http://a/x` to
`http://b/x`; the redirect is not a simple retry, the new URI is not a bad
alternative and no cycle is reported, the owner's URI is set to the new URI, yet
the owner is not enqueued. -/
theorem C12_counterexample :
    isSimpleRetry refWorkerEnv true "http://b/x" ownerDoomed = false ∧
    IsGoodAlternativeURI refWorkerEnv.toEnv "http://b/x" ownerDoomed = true ∧
    refWorkerEnv.IsRedirectionLoop ownerDoomed "http://b/x" = false ∧
    (RedirectOwner refWorkerEnv true true "103 Redirect\nURI: http://a/x\nNew-URI: http://b/x"
      "http://b/x" [] "http://b/x" ownerDoomed).Owner.Desc.URI = "http://b/x" ∧
    (RedirectOwner refWorkerEnv true true "103 Redirect\nURI: http://a/x\nNew-URI: http://b/x"
      "http://b/x" [] "http://b/x" ownerDoomed).Trace =
        [Call.IsRedirectionLoop 2 "http://b/x", Call.Item (Event.LogDone ownerDoomed.Desc)] := by
  decide

/-! ## The site label of the description -/

/-- C13 (amended): when an owner is moved to a new URI (redirect or alternate
switch) and `ChangeSiteIsMirrorChange` completes, the site label of its description
(the text before the first space) is replaced if and only if the site part of the
new URI differs from the site part of the old URI, the description has a space, the
old URI starts with the old label, and the new URI ends with `OldExtra`, the old
URI after the old label and one more character.  The label is then replaced by
the archive URI of the new URI without `OldExtra`, which also becomes the owner's
used mirror; the description from the first space on is unchanged; in every other
case the owner is left as it is. -/
theorem C13_site_label (env : Env) (NewURI : String) (O O2 : Item)
    (h : ChangeSiteIsMirrorChange env NewURI O = some O2) :
    ((env.SiteOnly NewURI = env.SiteOnly O.Desc.URI ∨
      strFind O.Desc.Description " " = none ∨
      (∃ firstSpace, strFind O.Desc.Description " " = some firstSpace ∧
        Startswith O.Desc.URI (strTake O.Desc.Description firstSpace) = false) ∨
      (∃ firstSpace OldExtra, strFind O.Desc.Description " " = some firstSpace ∧
        strSubstrFrom O.Desc.URI ((strTake O.Desc.Description firstSpace).data.length + 1)
          = some OldExtra ∧
        Endswith NewURI OldExtra = false)) → O2 = O) ∧
    (∀ firstSpace OldExtra,
      env.SiteOnly NewURI ≠ env.SiteOnly O.Desc.URI →
      strFind O.Desc.Description " " = some firstSpace →
      Startswith O.Desc.URI (strTake O.Desc.Description firstSpace) = true →
      strSubstrFrom O.Desc.URI ((strTake O.Desc.Description firstSpace).data.length + 1)
        = some OldExtra →
      Endswith NewURI OldExtra = true →
      O2 = { O with
        UsedMirror :=
          env.ArchiveOnly (strTake NewURI (NewURI.data.length - OldExtra.data.length))
        Desc := { O.Desc with
          Description := ⟨(env.ArchiveOnly
            (strTake NewURI (NewURI.data.length - OldExtra.data.length))).data ++
            O.Desc.Description.data.drop firstSpace⟩ } }) := by
  constructor
  · intro hc
    unfold ChangeSiteIsMirrorChange at h
    by_cases hs : env.SiteOnly NewURI = env.SiteOnly O.Desc.URI
    · rw [if_pos hs] at h
      exact (Option.some.inj h).symm
    · rw [if_neg hs] at h
      rcases hc with hc | hc | ⟨fs, hfs, hsw⟩ | ⟨fs, OldExtra, hfs, hsub, hew⟩
      · exact absurd hc hs
      · simp only [hc] at h
        exact (Option.some.inj h).symm
      · simp only [hfs, hsw, Bool.false_eq_true, if_false] at h
        exact (Option.some.inj h).symm
      · simp only [hfs] at h
        by_cases hsw : Startswith O.Desc.URI (strTake O.Desc.Description fs) = true
        · simp only [hsw, if_true, hsub, hew, Bool.false_eq_true, if_false] at h
          exact (Option.some.inj h).symm
        · simp only [hsw, if_false] at h
          exact (Option.some.inj h).symm
  · intro fs OldExtra hs hfs hsw hsub hew
    unfold ChangeSiteIsMirrorChange at h
    rw [if_neg hs] at h
    simp only [hfs, hsw, if_true, hsub, hew] at h
    exact (Option.some.inj h).symm

/-- Witness of C13: scenario E5, the owner of E2 with the description
`http://a stable InRelease` moved from `http://a/x` to `http://b/x`: the label
`http://a` becomes `http://b`, the rest of the description is unchanged. -/
theorem C13_site_label_witness :
    ChangeSiteIsMirrorChange refEnv "http://b/x" ownerE2 =
      some { ownerE2 with
        UsedMirror := "http://b"
        Desc := { ownerE2.Desc with Description := "http://b stable InRelease" } } ∧
    { ownerE2 with
        UsedMirror := "http://b"
        Desc := { ownerE2.Desc with Description := "http://b stable InRelease" } } =
      { ownerE2 with
        UsedMirror := refEnv.ArchiveOnly (strTake "http://b/x" ("http://b/x".data.length - 1))
        Desc := { ownerE2.Desc with
          Description := ⟨(refEnv.ArchiveOnly
            (strTake "http://b/x" ("http://b/x".data.length - 1))).data ++
            ownerE2.Desc.Description.data.drop 8⟩ } } :=
  ⟨by decide,
   (C13_site_label refEnv "http://b/x" ownerE2 _ (by decide)).2 8 "x" (by decide) (by decide)
    (by decide) (by decide) (by decide)⟩

/-- C13 fails as stated: an owner with the description `Debian stable InRelease`
is redirected from `http://a/x` to `http://b/x`; the site part of the URI changes
and the owner is moved to the new URI and enqueued with it, yet the first token of
its description stays `Debian`. -/
theorem C13_counterexample :
    refEnv.SiteOnly "http://b/x" ≠ refEnv.SiteOnly ownerPlain.Desc.URI ∧
    (RedirectOwner refWorkerEnv true true "103 Redirect\nURI: http://a/x\nNew-URI: http://b/x"
      "http://b/x" [] "http://b/x" ownerPlain).Owner.Desc =
        { ownerPlain.Desc with URI := "http://b/x" } ∧
    (RedirectOwner refWorkerEnv true true "103 Redirect\nURI: http://a/x\nNew-URI: http://b/x"
      "http://b/x" [] "http://b/x" ownerPlain).Trace.filter Call.isEnqueue =
        [Call.Item (Event.Enqueue { ownerPlain.Desc with URI := "http://b/x" })] ∧
    ownerPlain.Desc.Description = "Debian stable InRelease" := by
  decide

/-! ## `351 Aux Request` while aux requests are not allowed -/

theorem HandleFailure_length (env : Env) (cfg : Configuration) (LocalOnly Log : Bool)
    (now : Int) (Message : String) (errTransient errAuthErr : Bool) :
    ∀ owners : List Item,
      (HandleFailure env cfg LocalOnly Log now Message errTransient errAuthErr owners).any
        (fun s => s.Thrown) = false →
      (HandleFailure env cfg LocalOnly Log now Message errTransient errAuthErr owners).length
        = owners.length := by
  intro owners
  induction owners with
  | nil => intro _; rfl
  | cons o rest ih =>
    intro h
    unfold HandleFailure at h ⊢
    dsimp only at h ⊢
    by_cases ht : (HandleFailureOwner env cfg LocalOnly Log now Message errTransient errAuthErr
        o).Thrown = true
    · rw [if_pos ht] at h
      simp [ht] at h
    · rw [if_neg ht] at h ⊢
      simp only [List.any_cons, Bool.or_eq_false_iff] at h
      simp [ih h.2]

/-- The blocked aux request when no pass of the failure policy throws: every owner
of the item gets its pass of `HandleFailure` with class Other, the current item is
cleared, the record `600 URI Acquire` for the `Aux-URI` with the file name
`/nonexistent/auxrequest.blocked` is appended to the outbound buffer and `OutReady`
is set. -/
theorem AuxRequestCase_blocked (env : WorkerEnv) (cfg : Configuration) (now : Int)
    (w : Worker) (Message : String) (i : Nat) (Itm : QItem)
    (hA : w.Config.AuxRequests = false)
    (hnt : (HandleFailure env.toEnv cfg w.Config.LocalOnly w.Log now
      (Message ++
        "\nMessage: Method tried to make an Aux Request while not being allowed to do them")
      false false Itm.Owners).any (fun s => s.Thrown) = false) :
    (AuxRequestCase env cfg now w Message (some (i, Itm))).2 = false ∧
    (AuxRequestCase env cfg now w Message (some (i, Itm))).1.CurrentItem = none ∧
    (AuxRequestCase env cfg now w Message (some (i, Itm))).1.OutReady = true ∧
    (AuxRequestCase env cfg now w Message (some (i, Itm))).1.OutQueue =
      w.OutQueue ++ ("600 URI Acquire\nURI: " ++
        env.LookupTag (Message ++
          "\nMessage: Method tried to make an Aux Request while not being allowed to do them")
          "Aux-URI" "" ++
        "\nFilename: /nonexistent/auxrequest.blocked\n\n") ∧
    (HandleFailure env.toEnv cfg w.Config.LocalOnly w.Log now
      (Message ++
        "\nMessage: Method tried to make an Aux Request while not being allowed to do them")
      false false Itm.Owners).length = Itm.Owners.length := by
  refine ⟨?_, ?_, ?_, ?_, HandleFailure_length _ _ _ _ _ _ _ _ _ hnt⟩
  · unfold AuxRequestCase
    simp only [hA, if_true, hnt, Bool.false_eq_true, if_false]
  · unfold AuxRequestCase
    simp only [hA, if_true, hnt, Bool.false_eq_true, if_false]
    rfl
  · unfold AuxRequestCase
    simp only [hA, if_true, hnt, Bool.false_eq_true, if_false]
  · unfold AuxRequestCase
    simp only [hA, if_true, hnt, Bool.false_eq_true, if_false]
    apply congrArg
    apply String.ext
    simp [String.data_append]

/-- C14, at the input on which the code departs from it: the method may not make
aux requests and sends a 351 Aux Request for the item of an owner whose URI
`http://a` is exactly the first token of its description and which has the
alternate `http://b/x`.  The failure policy, run with class Other, pops the
alternate and `ChangeSiteIsMirrorChange` throws `std::out_of_range`; the exception
leaves `RunMessages`: the current item is not cleared, nothing is appended to the
outbound buffer and `OutReady` is not set. -/
theorem C14_blocked_aux_request_throws :
    (RunMessages refWorkerEnv defaultConfig
      { workerBare with
        MessageQueue := ["351 Aux Request\nURI: http://a\nAux-URI: http://a/x.asc"] }).map
      (fun r => (r.2, r.1.CurrentItem, r.1.OutQueue, r.1.OutReady)) =
      some (RunResult.Thrown, some 0, "", false) ∧
    workerBare.Config.AuxRequests = false := by
  decide

/-! ## Which calls a handler makes -/

theorem plain_filter_isFetched (t : List Call) (h : ∀ c ∈ t, c.plain = true) :
    t.filter Call.isFetched = [] := by
  rw [List.filter_eq_nil_iff]
  intro c hc
  have := h c hc
  unfold Call.plain at this
  simp only [Bool.and_eq_true, Bool.not_eq_true'] at this
  simp [this.2]

theorem plain_marks (t : List Call) (h : ∀ c ∈ t, c.plain = true) : marks t = [] := by
  unfold marks
  rw [List.filterMap_eq_nil_iff]
  intro c hc
  have := h c hc
  unfold Call.plain at this
  simp only [Bool.and_eq_true, Option.isNone_iff_eq_none] at this
  exact this.1

theorem plain_append (t1 t2 : List Call) (h1 : ∀ c ∈ t1, c.plain = true)
    (h2 : ∀ c ∈ t2, c.plain = true) : ∀ c ∈ t1 ++ t2, c.plain = true := by
  intro c hc
  rcases List.mem_append.mp hc with h | h
  · exact h1 c h
  · exact h2 c h

theorem plain_map_Item (l : List Event) : ∀ c ∈ l.map Call.Item, c.plain = true := by
  intro c hc
  obtain ⟨e, _, rfl⟩ := List.mem_map.mp hc
  rfl

theorem plain_flatten (L : List (List Call)) (h : ∀ l ∈ L, ∀ c ∈ l, c.plain = true) :
    ∀ c ∈ L.flatten, c.plain = true := by
  intro c hc
  obtain ⟨l, hl, hcl⟩ := List.mem_flatten.mp hc
  exact h l hl c hcl

theorem PrepareFiles_plain (env : WorkerEnv) (caller : String) (Itm : QItem) :
    ∀ c ∈ (PrepareFiles env caller Itm).1, c.plain = true := by
  intro c hc
  unfold PrepareFiles at hc
  dsimp only at hc
  split_ifs at hc with hr
  · rcases List.mem_append.mp hc with h | h
    · simp only [List.mem_singleton] at h
      subst h
      rfl
    · obtain ⟨l, hl, hcl⟩ := List.mem_flatten.mp h
      obtain ⟨r, hrm, rfl⟩ := List.mem_map.mp hl
      obtain ⟨O, _, rfl⟩ := List.mem_map.mp hrm
      split_ifs at hcl <;> simp at hcl
      all_goals (rcases hcl with rfl | rfl | rfl <;> rfl)
  · obtain ⟨O, _, rfl⟩ := List.mem_map.mp hc
    rfl

theorem pulses_plain (w : Worker) (Itm : QItem) : ∀ c ∈ pulses w Itm, c.plain = true := by
  intro c hc
  unfold pulses at hc
  split_ifs at hc
  · obtain ⟨O, _, rfl⟩ := List.mem_map.mp hc
    rfl
  · simp at hc

theorem steps_plain_Done (steps : List DoneStep) :
    ∀ c ∈ (steps.map (fun s => s.Trace.map Call.Item)).flatten, c.plain = true := by
  apply plain_flatten
  intro l hl
  obtain ⟨s, _, rfl⟩ := List.mem_map.mp hl
  exact plain_map_Item s.Trace

theorem steps_plain (steps : List Step) :
    ∀ c ∈ (steps.map (fun s => s.Trace.map Call.Item)).flatten, c.plain = true := by
  apply plain_flatten
  intro l hl
  obtain ⟨s, _, rfl⟩ := List.mem_map.mp hl
  exact plain_map_Item s.Trace

/-! ## The progress notification of `201 URI Done` -/

theorem URIDoneCase_Trace (env : WorkerEnv) (cfg : Configuration) (w : Worker)
    (Message : String) (i : Nat) (Itm : QItem) :
    (URIDoneCase env cfg w Message (some (i, Itm))).Trace =
      w.Trace ++ ((PrepareFiles env "201::URIDone" Itm).1 ++ pulses w Itm ++
        fetchedCalls env w Message Itm ++ [Call.QueueItemDone Itm.URI] ++
        ((URIDone env.toEnv cfg w.Log (receivedHashes env Message Itm) Message
          Itm.Owners).map (fun s => s.Trace.map Call.Item)).flatten) := by
  unfold URIDoneCase
  simp [Worker.ItemDone, List.append_assoc]

theorem URIDoneCase_Fetched (env : WorkerEnv) (cfg : Configuration) (w : Worker)
    (Message : String) (i : Nat) (Itm : QItem) :
    ((URIDoneCase env cfg w Message (some (i, Itm))).Trace.drop w.Trace.length).filter
      Call.isFetched = (fetchedCalls env w Message Itm).filter Call.isFetched := by
  rw [URIDoneCase_Trace, List.drop_left]
  simp only [List.filter_append]
  rw [plain_filter_isFetched _ (PrepareFiles_plain env "201::URIDone" Itm),
    plain_filter_isFetched _ (pulses_plain w Itm),
    plain_filter_isFetched _ (steps_plain_Done _)]
  simp [Call.isFetched]

/-- The notification of the `URI_DONE` case when the message has a `Filename` tag
that names the first owner's destination file: for a first owner that is neither
Local nor Complete, `Log->Fetched` is called exactly once, with the file size held
in the received hashes and the `Resume-Point` of the message (0 when it has
none). -/
theorem URIDoneCase_Fetched_of_tag (env : WorkerEnv) (cfg : Configuration) (w : Worker)
    (Message : String) (i : Nat) (Itm : QItem) (O : Item) (rest : List Item)
    (hO : Itm.Owners = O :: rest) (hLog : w.Log = true) (hC : O.Complete = false)
    (hL : O.Local = false) (hF : env.LookupTag Message "Filename" "" = O.DestFile) :
    ((URIDoneCase env cfg w Message (some (i, Itm))).Trace.drop w.Trace.length).filter
      Call.isFetched =
      [Call.LogFetched (env.FileSize (receivedHashes env Message Itm))
        (env.atoi (env.LookupTag Message "Resume-Point" "0"))] := by
  rw [URIDoneCase_Fetched]
  have hfile : authoritativeFilename env Message Itm = O.DestFile := by
    unfold authoritativeFilename QItem.DestFile
    rw [hO]
    by_cases he : env.LookupTag Message "Filename" "" = ""
    · rw [if_pos he]
    · rw [if_neg he, hF]
  unfold fetchedCalls
  rw [hO]
  simp only [hLog, hC, hL, hF, hfile, and_self, if_true]
  simp [Call.isFetched]

/-- The same on a concrete message: the 201 of scenario E2 with the tag `Filename`
naming the destination file of the owner and a `Checksum-FileSize-Hash` of 10. -/
theorem URIDoneCase_Fetched_of_tag_E2 :
    ((URIDoneCase refWorkerEnv defaultConfig workerE2
      "201 URI Done\nURI: http://a/x\nFilename: /var/lib/apt/lists/partial/x\nSHA256-Hash: abc\nChecksum-FileSize-Hash: 10"
      (some (0, itemE2))).Trace.drop workerE2.Trace.length).filter Call.isFetched =
      [Call.LogFetched 10 0] := by
  have h := URIDoneCase_Fetched_of_tag refWorkerEnv defaultConfig workerE2
    "201 URI Done\nURI: http://a/x\nFilename: /var/lib/apt/lists/partial/x\nSHA256-Hash: abc\nChecksum-FileSize-Hash: 10"
    0 itemE2 ownerE2 [] rfl rfl rfl rfl (by decide)
  rw [h]
  decide

/-- The test `givenfilename == filename` of the `URI_DONE` case, for an item whose
first owner has a destination file: the progress sink is notified of fetched
bytes exactly when it is attached, the first owner is neither Complete nor Local,
and the message has a `Filename` tag, whatever file the tag names; a message
without the tag is never counted. -/
theorem fetchedCalls_iff_tag (env : WorkerEnv) (w : Worker) (Message : String) (Itm : QItem)
    (O : Item) (rest : List Item) (hO : Itm.Owners = O :: rest) (hD : O.DestFile ≠ "") :
    fetchedCalls env w Message Itm =
      if w.Log = true ∧ O.Complete = false ∧ O.Local = false ∧
          env.LookupTag Message "Filename" "" ≠ "" then
        [Call.LogFetched (env.FileSize (receivedHashes env Message Itm))
          (env.atoi (env.LookupTag Message "Resume-Point" "0"))]
      else [] := by
  have hfile : (env.LookupTag Message "Filename" "" = authoritativeFilename env Message Itm) ↔
      env.LookupTag Message "Filename" "" ≠ "" := by
    unfold authoritativeFilename QItem.DestFile
    rw [hO]
    by_cases he : env.LookupTag Message "Filename" "" = ""
    · rw [if_pos he, he]
      exact ⟨fun h => absurd h.symm hD, fun h => absurd rfl h⟩
    · rw [if_neg he]
      exact ⟨fun _ => he, fun _ => rfl⟩
  unfold fetchedCalls
  rw [hO]
  dsimp only
  by_cases hc : w.Log = true ∧ O.Complete = false ∧ O.Local = false ∧
      env.LookupTag Message "Filename" "" ≠ ""
  · rw [if_pos hc, if_pos ⟨hc.1, hc.2.1, hc.2.2.1, hfile.mpr hc.2.2.2⟩]
  · rw [if_neg hc, if_neg (fun h => hc ⟨h.1, h.2.1, h.2.2.1, hfile.mp h.2.2.2⟩)]

/-- C15, at inputs on which the code departs from it.  Scenario E2: the first
owner is neither Local nor Complete, a progress sink is attached, and the 201
carries no `Filename` tag, so the authoritative file name is the owner's
destination file; the messages are handled without error and the owner is done,
yet `Log->Fetched` is not called.  The same 201 with a `Filename` tag that names
another file and a file size of 10: `Log->Fetched` is called with 10 and 0.  The
test `givenfilename == filename` compares the tag with the authoritative name,
which is the tag itself whenever there is one. -/
theorem C15_fetched_not_notified :
    ownerE2.Local = false ∧ ownerE2.Complete = false ∧ workerE2.Log = true ∧
    authoritativeFilename refWorkerEnv "201 URI Done\nURI: http://a/x\nSHA256-Hash: abc"
      itemE2 = ownerE2.DestFile ∧
    (RunMessages refWorkerEnv defaultConfig
      { workerE2 with MessageQueue :=
          ["200 URI Start\nURI: http://a/x\nSize: 10",
           "201 URI Done\nURI: http://a/x\nSHA256-Hash: abc"] }).map
      (fun r => (r.2, r.1.Errors, r.1.Trace.filter Call.isFetched,
        r.1.Trace.filter (fun c => c = Call.Item (Event.Done 1
          "201 URI Done\nURI: http://a/x\nSHA256-Hash: abc" [⟨"SHA256", "abc"⟩])))) =
      some (RunResult.Success, [], [],
        [Call.Item (Event.Done 1 "201 URI Done\nURI: http://a/x\nSHA256-Hash: abc"
          [⟨"SHA256", "abc"⟩])]) ∧
    authoritativeFilename refWorkerEnv
      ("201 URI Done\nURI: http://a/x\nFilename: /some/other/file\nSHA256-Hash: abc\n" ++
        "Checksum-FileSize-Hash: 10") itemE2 ≠ ownerE2.DestFile ∧
    (RunMessages refWorkerEnv defaultConfig
      { workerE2 with MessageQueue :=
          ["200 URI Start\nURI: http://a/x\nSize: 10",
           "201 URI Done\nURI: http://a/x\nFilename: /some/other/file\nSHA256-Hash: abc\n" ++
            "Checksum-FileSize-Hash: 10"] }).map
      (fun r => (r.2, r.1.Trace.filter Call.isFetched)) =
      some (RunResult.Success, [Call.LogFetched 10 0]) := by
  refine ⟨rfl, rfl, rfl, by decide, by decide, by decide, by decide⟩

/-! ## Handlers leave the message queue alone -/

theorem Extends_refl (w : Worker) : Extends w w :=
  ⟨rfl, [], by simp, by simp⟩

theorem Extends_trans {a b c : Worker} (h1 : Extends a b) (h2 : Extends b c) : Extends a c := by
  obtain ⟨q1, t1, e1, n1⟩ := h1
  obtain ⟨q2, t2, e2, n2⟩ := h2
  refine ⟨q2.trans q1, t1 ++ t2, by rw [e2, e1, List.append_assoc], ?_⟩
  intro c hc
  rcases List.mem_append.mp hc with h | h
  · exact n1 c h
  · exact n2 c h

theorem Extends_of_plain (w w2 : Worker) (t : List Call) (hq : w2.MessageQueue = w.MessageQueue)
    (ht : w2.Trace = w.Trace ++ t) (hp : ∀ c ∈ t, c.plain = true) : Extends w w2 := by
  refine ⟨hq, t, ht, ?_⟩
  intro c hc
  have := hp c hc
  unfold Call.plain at this
  simp only [Bool.and_eq_true, Option.isNone_iff_eq_none] at this
  exact this.1

theorem Extends_error (w : Worker) (kind : ErrorKind) (text : String) :
    Extends w (w.error kind text) :=
  ⟨rfl, [], by simp [Worker.error], by simp⟩

theorem RedirectOwner_plain (env : WorkerEnv) (enc Log : Bool) (Message GotNewURI : String)
    (AltUris : List String) (NewURI : String) (O : Item) :
    ∀ c ∈ (RedirectOwner env enc Log Message GotNewURI AltUris NewURI O).Trace,
      c.plain = true := by
  intro c hc
  by_cases hs : isSimpleRetry env enc GotNewURI O = true
  · rw [RedirectOwner_simple env enc Log Message GotNewURI AltUris NewURI O hs] at hc
    cases hd : isDoomedItem O <;> simp [hd] at hc
    subst hc
    rfl
  · have hns : isSimpleRetry env enc GotNewURI O = false := by simpa using hs
    obtain ⟨N1, O2, hr⟩ : ∃ N1 O2,
        replaceBadURI env NewURI (pushAlternates env enc AltUris O) = (N1, O2) := ⟨_, _, rfl⟩
    by_cases hl : N1 = "" ∨ env.IsRedirectionLoop O2 N1 = true
    · rw [RedirectOwner_loop env enc Log Message GotNewURI AltUris NewURI O N1 O2 hns hr hl]
        at hc
      by_cases he : N1 = "" <;> cases Log <;> simp [he] at hc
      all_goals (rcases hc with rfl | rfl | rfl <;> rfl)
    · cases hcs : ChangeSiteIsMirrorChange env.toEnv N1 O2 with
      | none =>
        rw [RedirectOwner_moved_throws env enc Log Message GotNewURI AltUris NewURI O N1 O2
          hns hr hl hcs] at hc
        cases Log <;> simp at hc
        all_goals (rcases hc with rfl | rfl <;> rfl)
      | some O3 =>
        rw [RedirectOwner_moved env enc Log Message GotNewURI AltUris NewURI O N1 O2 O3
          hns hr hl hcs] at hc
        cases Log <;> cases hd : isDoomedItem O <;> simp [hd] at hc
        all_goals (rcases hc with rfl | rfl | rfl <;> rfl)

theorem RedirectOwners_plain (env : WorkerEnv) (enc Log : Bool) (Message GotNewURI : String)
    (AltUris : List String) (NewURI : String) (owners : List Item) :
    ∀ c ∈ ((RedirectOwners env enc Log Message GotNewURI AltUris NewURI owners).map
      (fun s => s.Trace)).flatten, c.plain = true := by
  apply plain_flatten
  intro l hl
  obtain ⟨s, hs, rfl⟩ := List.mem_map.mp hl
  obtain ⟨i, hi, hget⟩ := List.getElem_of_mem hs
  have hget2 : (RedirectOwners env enc Log Message GotNewURI AltUris NewURI owners)[i]?
      = some s := by
    rw [List.getElem?_eq_getElem hi, hget]
  obtain ⟨O, N, _, rfl⟩ := RedirectOwners_get env enc Log Message GotNewURI AltUris owners
    NewURI i s hget2
  exact RedirectOwner_plain env enc Log Message GotNewURI AltUris N O

theorem RedirectCase_Extends (env : WorkerEnv) (w : Worker) (Message URI : String)
    (Itm : Option (Nat × QItem)) : Extends w (RedirectCase env w Message URI Itm).1 := by
  cases Itm with
  | none => exact Extends_error w _ _
  | some p =>
    obtain ⟨i, Itm⟩ := p
    refine Extends_of_plain w _ _ rfl (List.append_assoc _ _ _)
      (plain_append _ _ ?_ (RedirectOwners_plain env w.Config.SendURIEncoded w.Log Message
        (env.LookupTag Message "New-URI" URI)
        (env.VectorizeString (env.LookupTag Message "Alternate-URIs" "") '\n')
        (if w.Config.SendURIEncoded = true then env.LookupTag Message "New-URI" URI
          else env.EncodePath (env.LookupTag Message "New-URI" URI))
        (Itm.Owners.map (fun O => { O with Status := ItemState.StatIdle }))))
    intro c hc
    simp only [List.mem_singleton] at hc
    subst hc
    rfl

theorem URIStartCase_Extends (env : WorkerEnv) (w : Worker) (Message : String)
    (Itm : Option (Nat × QItem)) : Extends w (URIStartCase env w Message Itm) := by
  cases Itm with
  | none => exact Extends_error w _ _
  | some p =>
    obtain ⟨i, Itm⟩ := p
    refine Extends_of_plain w _ _ rfl rfl ?_
    apply plain_flatten
    intro l hl
    obtain ⟨O, _, rfl⟩ := List.mem_map.mp hl
    intro c hc
    by_cases hL : w.Log = true <;> by_cases hM : w.MorePulses = true <;> simp [hL, hM] at hc
    all_goals (rcases hc with rfl | rfl | rfl <;> rfl)

theorem fetchedCalls_noMark (env : WorkerEnv) (w : Worker) (Message : String) (Itm : QItem) :
    ∀ c ∈ fetchedCalls env w Message Itm, c.dispatched = none := by
  intro c hc
  unfold fetchedCalls at hc
  split at hc
  · simp at hc
  · split_ifs at hc
    · simp only [List.mem_singleton] at hc
      subst hc
      rfl
    · simp at hc

theorem noMark_of_plain (t : List Call) (h : ∀ c ∈ t, c.plain = true) :
    ∀ c ∈ t, c.dispatched = none := by
  intro c hc
  have := h c hc
  unfold Call.plain at this
  simp only [Bool.and_eq_true, Option.isNone_iff_eq_none] at this
  exact this.1

theorem noMark_append (t1 t2 : List Call) (h1 : ∀ c ∈ t1, c.dispatched = none)
    (h2 : ∀ c ∈ t2, c.dispatched = none) : ∀ c ∈ t1 ++ t2, c.dispatched = none := by
  intro c hc
  rcases List.mem_append.mp hc with h | h
  · exact h1 c h
  · exact h2 c h

theorem URIDoneCase_Extends (env : WorkerEnv) (cfg : Configuration) (w : Worker)
    (Message : String) (Itm : Option (Nat × QItem)) :
    Extends w (URIDoneCase env cfg w Message Itm) := by
  cases Itm with
  | none => exact Extends_error w _ _
  | some p =>
    obtain ⟨i, Itm⟩ := p
    refine ⟨rfl, _, URIDoneCase_Trace env cfg w Message i Itm, ?_⟩
    refine noMark_append _ _ (noMark_append _ _ (noMark_append _ _ (noMark_append _ _
      (noMark_of_plain _ (PrepareFiles_plain env _ Itm)) (noMark_of_plain _ (pulses_plain w Itm)))
      (fetchedCalls_noMark env w Message Itm)) ?_) (noMark_of_plain _ (steps_plain_Done _))
    intro c hc
    simp only [List.mem_singleton] at hc
    subst hc
    rfl

theorem afterFailure_Extends (w : Worker) (i : Nat) (Itm : QItem) (steps : List Step) :
    Extends w (w.afterFailure i Itm steps) := by
  refine Extends_of_plain w _ _ rfl (List.append_assoc _ _ _)
    (plain_append _ _ ?_ (steps_plain steps))
  intro c hc
  simp only [List.mem_singleton] at hc
  subst hc
  rfl

theorem ItemDone_Extends (w : Worker) : Extends w w.ItemDone :=
  ⟨rfl, [], by simp [Worker.ItemDone], by simp⟩

theorem AuxRequestCase_Extends (env : WorkerEnv) (cfg : Configuration) (now : Int)
    (w : Worker) (Message : String) (Itm : Option (Nat × QItem)) :
    Extends w (AuxRequestCase env cfg now w Message Itm).1 := by
  cases Itm with
  | none => exact Extends_error w _ _
  | some p =>
    obtain ⟨i, Itm⟩ := p
    unfold AuxRequestCase
    dsimp only
    split_ifs
    · exact afterFailure_Extends w i Itm _
    · obtain ⟨hq, t, ht, hn⟩ := afterFailure_Extends w i Itm
        (HandleFailure env.toEnv cfg w.Config.LocalOnly w.Log now (Message ++
          "\nMessage: Method tried to make an Aux Request while not being allowed to do them")
          false false Itm.Owners)
      exact ⟨hq, t, ht, hn⟩
    all_goals
      refine Extends_of_plain w _ _ rfl rfl ?_
      intro c hc
      simp only [List.mem_singleton] at hc
      subst hc
      rfl

theorem URIFailureCase_Extends (env : WorkerEnv) (cfg : Configuration) (now : Int)
    (w : Worker) (Message : String) (Itm : Option (Nat × QItem)) :
    Extends w (URIFailureCase env cfg now w Message Itm).1 := by
  cases Itm with
  | none => exact Extends_error w _ _
  | some p =>
    obtain ⟨i, Itm⟩ := p
    have h1 : Extends w { w with
        Errors := w.Errors ++ (PrepareFiles env "400::URIFailure" Itm).2
        Trace := w.Trace ++ (PrepareFiles env "400::URIFailure" Itm).1 ++ pulses w Itm } := by
      exact Extends_of_plain w _ ((PrepareFiles env "400::URIFailure" Itm).1 ++ pulses w Itm)
        rfl (List.append_assoc _ _ _)
        (plain_append _ _ (PrepareFiles_plain env _ Itm) (pulses_plain w Itm))
    unfold URIFailureCase
    dsimp only
    split_ifs
    · exact Extends_trans h1 (afterFailure_Extends _ i Itm _)
    · exact Extends_trans (Extends_trans h1 (afterFailure_Extends _ i Itm _)) (ItemDone_Extends _)

theorem MediaChange_Extends (env : WorkerEnv) (w : Worker) (Message : String) :
    Extends w (MediaChange env w Message) := by
  unfold MediaChange
  dsimp only
  have hs : ∀ c ∈ (if 0 < env.StatusFd then
      [Call.StatusFdWrite env.StatusFd
        ("media-change: " ++ env.LookupTag Message "Media" "" ++ ":" ++
          env.LookupTag Message "Drive" "" ++ ":" ++
          env.MediaChangePrompt (env.LookupTag Message "Media" "")
            (env.LookupTag Message "Drive" "") ++ "\n")]
      else []), c.plain = true := by
    intro c hc
    split_ifs at hc
    · simp only [List.mem_singleton] at hc
      subst hc
      rfl
    · simp at hc
  have hm : ∀ c ∈ [Call.LogMediaChange (env.LookupTag Message "Media" "")
      (env.LookupTag Message "Drive" "")], c.plain = true := by
    intro c hc
    simp only [List.mem_singleton] at hc
    subst hc
    rfl
  generalize (if 0 < env.StatusFd then
      [Call.StatusFdWrite env.StatusFd
        ("media-change: " ++ env.LookupTag Message "Media" "" ++ ":" ++
          env.LookupTag Message "Drive" "" ++ ":" ++
          env.MediaChangePrompt (env.LookupTag Message "Media" "")
            (env.LookupTag Message "Drive" "") ++ "\n")]
      else []) = sc at hs ⊢
  split_ifs
  · exact Extends_of_plain w _ sc rfl rfl hs
  · exact Extends_of_plain w _ (sc ++ _) rfl (List.append_assoc _ _ _) (plain_append _ _ hs hm)
  · exact Extends_of_plain w _ (sc ++ _) rfl (List.append_assoc _ _ _) (plain_append _ _ hs hm)

theorem Extends_of_same (w w2 : Worker) (hq : w2.MessageQueue = w.MessageQueue)
    (ht : w2.Trace = w.Trace) : Extends w w2 :=
  ⟨hq, [], by rw [ht, List.append_nil], fun c hc => absurd hc (List.not_mem_nil c)⟩

theorem dispatch_Extends (env : WorkerEnv) (cfg : Configuration) (w : Worker) (Number : Nat)
    (Message : String) :
    (dispatch env cfg w Number Message).1.MessageQueue = w.MessageQueue ∧
    ∃ t, (dispatch env cfg w Number Message).1.Trace =
        w.Trace ++ Call.Dispatch Number Message w.MessageQueue :: t ∧
      ∀ c ∈ t, c.dispatched = none := by
  have key : ∀ w2 : Worker, w2.MessageQueue = w.MessageQueue →
      w2.Trace = w.Trace ++ [Call.Dispatch Number Message w.MessageQueue] →
      ∀ w3 : Worker, Extends w2 w3 →
        w3.MessageQueue = w.MessageQueue ∧
        ∃ t, w3.Trace = w.Trace ++ Call.Dispatch Number Message w.MessageQueue :: t ∧
          ∀ c ∈ t, c.dispatched = none := by
    intro w2 hq ht w3 ⟨hq3, t, ht3, hn⟩
    exact ⟨hq3.trans hq, t, by rw [ht3, ht, List.append_assoc]; rfl, hn⟩
  unfold dispatch
  dsimp only
  generalize hItm : Option.map (fun f => (f.1, updateUsedMirror env Message f.2))
    (w.find (env.LookupTag Message "URI" "")) = Itm
  have hw2 : ∀ w1 : Worker, w1.MessageQueue = w.MessageQueue → w1.Trace = w.Trace →
      ({ w1 with Trace := w1.Trace ++ [Call.Dispatch Number Message w.MessageQueue] } :
        Worker).MessageQueue = w.MessageQueue ∧
      ({ w1 with Trace := w1.Trace ++ [Call.Dispatch Number Message w.MessageQueue] } :
        Worker).Trace = w.Trace ++ [Call.Dispatch Number Message w.MessageQueue] := by
    intro w1 h1 h2
    exact ⟨h1, by show w1.Trace ++ _ = _; rw [h2]⟩
  have hw1 : (match Itm with
      | none => w
      | some (i, Itm1) => { w with Items := w.Items.set i Itm1 }).MessageQueue = w.MessageQueue ∧
      (match Itm with
      | none => w
      | some (i, Itm1) => { w with Items := w.Items.set i Itm1 }).Trace = w.Trace := by
    cases Itm with
    | none => exact ⟨rfl, rfl⟩
    | some p => exact ⟨rfl, rfl⟩
  generalize (match Itm with
      | none => w
      | some (i, Itm1) => { w with Items := w.Items.set i Itm1 }) = w1 at hw1 ⊢
  obtain ⟨hq2, ht2⟩ := hw2 w1 hw1.1 hw1.2
  generalize ({ w1 with Trace := w1.Trace ++ [Call.Dispatch Number Message w.MessageQueue] } :
    Worker) = w2 at hq2 ht2 ⊢
  by_cases h100 : Number = 100
  · rw [if_pos h100]
    exact key w2 hq2 ht2 _ (Extends_of_same w2 _ rfl rfl)
  rw [if_neg h100]
  by_cases h101 : Number = 101
  · rw [if_pos h101]
    exact key w2 hq2 ht2 _ (Extends_refl w2)
  rw [if_neg h101]
  by_cases h102 : Number = 102
  · rw [if_pos h102]
    refine ⟨hw1.1, [], ?_, fun c hc => absurd hc (List.not_mem_nil c)⟩
    show w1.Trace ++ [_] = _
    rw [hw1.2]
  rw [if_neg h102]
  by_cases h103 : Number = 103
  · rw [if_pos h103]
    exact key w2 hq2 ht2 _ (RedirectCase_Extends env w2 Message _ Itm)
  rw [if_neg h103]
  by_cases h104 : Number = 104
  · rw [if_pos h104]
    exact key w2 hq2 ht2 _ (Extends_error w2 _ _)
  rw [if_neg h104]
  by_cases h200 : Number = 200
  · rw [if_pos h200]
    exact key w2 hq2 ht2 _ (URIStartCase_Extends env w2 Message Itm)
  rw [if_neg h200]
  by_cases h201 : Number = 201
  · rw [if_pos h201]
    exact key w2 hq2 ht2 _ (URIDoneCase_Extends env cfg w2 Message Itm)
  rw [if_neg h201]
  by_cases h351 : Number = 351
  · rw [if_pos h351]
    exact key w2 hq2 ht2 _ (AuxRequestCase_Extends env cfg _ w2 Message Itm)
  rw [if_neg h351]
  by_cases h400 : Number = 400
  · rw [if_pos h400]
    exact key w2 hq2 ht2 _ (URIFailureCase_Extends env cfg _ w2 Message Itm)
  rw [if_neg h400]
  by_cases h401 : Number = 401
  · rw [if_pos h401]
    exact key w2 hq2 ht2 _ (Extends_error w2 _ _)
  rw [if_neg h401]
  by_cases h403 : Number = 403
  · rw [if_pos h403]
    exact key w2 hq2 ht2 _ (MediaChange_Extends env w2 Message)
  rw [if_neg h403]
  exact key w2 hq2 ht2 _ (Extends_refl w2)

/-! ## `RunMessages`: order of dispatch and termination -/

theorem marks_append (a b : List Call) : marks (a ++ b) = marks a ++ marks b := by
  unfold marks
  rw [List.filterMap_append]

theorem marks_of_noMark (t : List Call) (h : ∀ c ∈ t, c.dispatched = none) : marks t = [] := by
  unfold marks
  rw [List.filterMap_eq_nil_iff]
  exact h

/-- The loop of `RunMessages` with a bound of at least the number of pending
messages ends, and ends in one of three ways, after `k` messages were dispatched:
with success, all messages dispatched in order and the queue empty; with failure,
on a message without a leading number, which is taken off the queue and not
dispatched, the messages behind it still pending; or by an exception thrown by the
handler of the last dispatched message. -/
theorem RunMessagesLoop_spec (env : WorkerEnv) (cfg : Configuration) :
    ∀ (fuel : Nat) (w : Worker), w.MessageQueue.length ≤ fuel →
      ∃ w2 r k, RunMessagesLoop env cfg fuel w = some (w2, r) ∧
        k ≤ w.MessageQueue.length ∧
        (∃ t, w2.Trace = w.Trace ++ t ∧ marks t = (inOrder w.MessageQueue).take k) ∧
        (r = RunResult.Success → k = w.MessageQueue.length ∧ w2.MessageQueue = []) ∧
        (r = RunResult.Failure → ∃ bad, w.MessageQueue[k]? = some bad ∧ strtoul bad = none ∧
          w2.MessageQueue = w.MessageQueue.drop (k + 1) ∧
          w2.Errors.getLast? = some (ErrorKind.Error,
            "Invalid message from method " ++ w2.Config.Access ++ ": " ++ bad)) ∧
        (r = RunResult.Thrown → 0 < k ∧ w2.MessageQueue = w.MessageQueue.drop k) := by
  intro fuel
  induction fuel with
  | zero =>
    intro w hw
    have hq : w.MessageQueue = [] := List.length_eq_zero.mp (Nat.le_zero.mp hw)
    refine ⟨w, RunResult.Success, 0, ?_, by simp, ⟨[], by simp, by simp [marks]⟩, ?_, ?_, ?_⟩
    · unfold RunMessagesLoop
      rw [hq]
    · intro _
      exact ⟨by rw [hq]; rfl, hq⟩
    · intro h; cases h
    · intro h; cases h
  | succ f ih =>
    intro w hw
    cases hq : w.MessageQueue with
    | nil =>
      refine ⟨w, RunResult.Success, 0, ?_, by simp, ⟨[], by simp, by simp [marks]⟩, ?_, ?_, ?_⟩
      · unfold RunMessagesLoop
        rw [hq]
      · intro _
        exact ⟨rfl, hq⟩
      · intro h; cases h
      · intro h; cases h
    | cons m rest =>
      cases hp : strtoul m with
      | none =>
        refine ⟨({ w with MessageQueue := rest } : Worker).error ErrorKind.Error
            ("Invalid message from method " ++ w.Config.Access ++ ": " ++ m),
          RunResult.Failure, 0, ?_, by simp, ⟨[], by simp [Worker.error], by simp [marks]⟩,
          ?_, ?_, ?_⟩
        · unfold RunMessagesLoop
          simp only [hq, hp]
        · intro h; cases h
        · intro _
          exact ⟨m, by simp, hp, by simp [Worker.error], by simp [Worker.error]⟩
        · intro h; cases h
      | some v =>
        obtain ⟨hdq, t0, hdt, hdn⟩ := dispatch_Extends env cfg
          ({ w with MessageQueue := rest } : Worker) (MessageNumber v) m
        have hloop : RunMessagesLoop env cfg (f + 1) w =
            if (dispatch env cfg ({ w with MessageQueue := rest } : Worker)
                (MessageNumber v) m).2 = true then
              some ((dispatch env cfg ({ w with MessageQueue := rest } : Worker)
                (MessageNumber v) m).1, RunResult.Thrown)
            else RunMessagesLoop env cfg f
              (dispatch env cfg ({ w with MessageQueue := rest } : Worker)
                (MessageNumber v) m).1 := by
          conv_lhs => unfold RunMessagesLoop
          simp only [hq, hp]
        generalize dispatch env cfg ({ w with MessageQueue := rest } : Worker)
          (MessageNumber v) m = d at hdq hdt hdn hloop
        have hdq2 : d.1.MessageQueue = rest := hdq
        have hdt2 : d.1.Trace = w.Trace ++ Call.Dispatch (MessageNumber v) m rest :: t0 := hdt
        have hm0 : marks (Call.Dispatch (MessageNumber v) m rest :: t0) = [(m, rest)] := by
          have : Call.Dispatch (MessageNumber v) m rest :: t0 =
              [Call.Dispatch (MessageNumber v) m rest] ++ t0 := rfl
          rw [this, marks_append, marks_of_noMark t0 hdn]
          rfl
        by_cases hth : d.2 = true
        · refine ⟨d.1, RunResult.Thrown, 1, ?_, by simp, ⟨_, hdt2, ?_⟩, ?_, ?_, ?_⟩
          · rw [hloop, if_pos hth]
          · rw [hm0]; rfl
          · intro h; cases h
          · intro h; cases h
          · intro _
            exact ⟨Nat.one_pos, by simp [hdq2]⟩
        · have hlen : d.1.MessageQueue.length ≤ f := by
            rw [hdq2]
            rw [hq] at hw
            simpa using hw
          obtain ⟨w2, r, k, hrun, hk, ⟨t, ht, hmk⟩, hS, hF, hT⟩ := ih d.1 hlen
          rw [hdq2] at hk hmk hS hF hT
          refine ⟨w2, r, k + 1, ?_, by simpa using hk, ⟨Call.Dispatch (MessageNumber v) m rest
            :: t0 ++ t, ?_, ?_⟩, ?_, ?_, ?_⟩
          · rw [hloop, if_neg hth, hrun]
          · rw [ht, hdt2, List.append_assoc]
          · rw [marks_append, hm0, hmk]
            rfl
          · intro h
            obtain ⟨h1, h2⟩ := hS h
            exact ⟨by simp [h1], h2⟩
          · intro h
            obtain ⟨bad, h1, h2, h3, h4⟩ := hF h
            exact ⟨bad, by simpa using h1, h2, by simpa using h3, h4⟩
          · intro h
            obtain ⟨h1, h2⟩ := hT h
            exact ⟨Nat.succ_pos k, by simpa using h2⟩

/-- C16: `RunMessages` ends for every queue of pending messages.  The messages it
dispatches are the first `k` of the queue, in queue order, each once, and each is
off the queue when it is handled: the queue then holds exactly the messages behind
it.  No handler changes the queue.  Whenever `RunMessages` returns success, all
messages were dispatched and the queue is empty. -/
theorem C16_dispatch_in_order (env : WorkerEnv) (cfg : Configuration) (w : Worker) :
    (∃ w2 r k, RunMessages env cfg w = some (w2, r) ∧
      k ≤ w.MessageQueue.length ∧
      marks (w2.Trace.drop w.Trace.length) = (inOrder w.MessageQueue).take k ∧
      (r = RunResult.Success → k = w.MessageQueue.length ∧ w2.MessageQueue = [])) ∧
    (∀ (w1 : Worker) (Number : Nat) (Message : String),
      (dispatch env cfg w1 Number Message).1.MessageQueue = w1.MessageQueue) := by
  refine ⟨?_, fun w1 n m => (dispatch_Extends env cfg w1 n m).1⟩
  obtain ⟨w2, r, k, hrun, hk, ⟨t, ht, hm⟩, hS, _, _⟩ :=
    RunMessagesLoop_spec env cfg w.MessageQueue.length w (Nat.le_refl _)
  refine ⟨w2, r, k, hrun, hk, ?_, hS⟩
  rw [ht, List.drop_left, hm]

/-- The run of `RunMessages` up to the first message without a leading integer:
unless an exception leaves the handler of a message before it, exactly the
messages before it are dispatched, it is taken off the queue, the error is
recorded and the loop returns false. -/
theorem RunMessagesLoop_reaches_bad (env : WorkerEnv) (cfg : Configuration) (bad : String)
    (post : List String) (hbad : strtoul bad = none) :
    ∀ (pre : List String) (fuel : Nat) (w : Worker),
      w.MessageQueue = pre ++ bad :: post → (∀ m ∈ pre, strtoul m ≠ none) →
      pre.length + 1 ≤ fuel →
      ∃ w2 r, RunMessagesLoop env cfg fuel w = some (w2, r) ∧
        ((r = RunResult.Failure ∧ w2.MessageQueue = post ∧
          (∃ t, w2.Trace = w.Trace ++ t ∧
            marks t = (inOrder (pre ++ bad :: post)).take pre.length) ∧
          w2.Errors.getLast? = some (ErrorKind.Error,
            "Invalid message from method " ++ w2.Config.Access ++ ": " ++ bad)) ∨
         (r = RunResult.Thrown ∧ ∃ k, 0 < k ∧ k ≤ pre.length ∧
          w2.MessageQueue = (pre ++ bad :: post).drop k ∧
          ∃ t, w2.Trace = w.Trace ++ t ∧
            marks t = (inOrder (pre ++ bad :: post)).take k)) := by
  intro pre
  induction pre with
  | nil =>
    intro fuel w hq _ hf
    obtain ⟨f, rfl⟩ : ∃ f, fuel = f + 1 := ⟨fuel - 1, by omega⟩
    have hq2 : w.MessageQueue = bad :: post := hq
    refine ⟨({ w with MessageQueue := post } : Worker).error ErrorKind.Error
        ("Invalid message from method " ++ w.Config.Access ++ ": " ++ bad),
      RunResult.Failure, ?_, Or.inl ⟨rfl, rfl, ⟨[], by simp [Worker.error], by simp [marks]⟩, ?_⟩⟩
    · unfold RunMessagesLoop
      simp only [hq2, hbad]
    · simp [Worker.error]
  | cons m pre1 ih =>
    intro fuel w hq hpre hf
    obtain ⟨f, rfl⟩ : ∃ f, fuel = f + 1 := ⟨fuel - 1, by omega⟩
    have hq2 : w.MessageQueue = m :: (pre1 ++ bad :: post) := hq
    obtain ⟨v, hp⟩ : ∃ v, strtoul m = some v := by
      cases hm : strtoul m with
      | none => exact absurd hm (hpre m (List.mem_cons_self _ _))
      | some v => exact ⟨v, rfl⟩
    obtain ⟨hdq, t0, hdt, hdn⟩ := dispatch_Extends env cfg
      ({ w with MessageQueue := pre1 ++ bad :: post } : Worker) (MessageNumber v) m
    have hloop : RunMessagesLoop env cfg (f + 1) w =
        if (dispatch env cfg ({ w with MessageQueue := pre1 ++ bad :: post } : Worker)
            (MessageNumber v) m).2 = true then
          some ((dispatch env cfg ({ w with MessageQueue := pre1 ++ bad :: post } : Worker)
            (MessageNumber v) m).1, RunResult.Thrown)
        else RunMessagesLoop env cfg f
          (dispatch env cfg ({ w with MessageQueue := pre1 ++ bad :: post } : Worker)
            (MessageNumber v) m).1 := by
      conv_lhs => unfold RunMessagesLoop
      simp only [hq2, hp]
    generalize dispatch env cfg ({ w with MessageQueue := pre1 ++ bad :: post } : Worker)
      (MessageNumber v) m = d at hdq hdt hdn hloop
    have hdq2 : d.1.MessageQueue = pre1 ++ bad :: post := hdq
    have hdt2 : d.1.Trace =
        w.Trace ++ Call.Dispatch (MessageNumber v) m (pre1 ++ bad :: post) :: t0 := hdt
    have hm0 : marks (Call.Dispatch (MessageNumber v) m (pre1 ++ bad :: post) :: t0) =
        [(m, pre1 ++ bad :: post)] := by
      have : Call.Dispatch (MessageNumber v) m (pre1 ++ bad :: post) :: t0 =
          [Call.Dispatch (MessageNumber v) m (pre1 ++ bad :: post)] ++ t0 := rfl
      rw [this, marks_append, marks_of_noMark t0 hdn]
      rfl
    by_cases hth : d.2 = true
    · refine ⟨d.1, RunResult.Thrown, ?_, Or.inr ⟨rfl, 1, Nat.one_pos, by simp, ?_, _, hdt2, ?_⟩⟩
      · rw [hloop, if_pos hth]
      · rw [hdq2]; rfl
      · rw [hm0]; rfl
    · obtain ⟨w2, r, hrun, hcase⟩ := ih f d.1 hdq2
        (fun x hx => hpre x (List.mem_cons_of_mem _ hx)) (by simp at hf; omega)
      refine ⟨w2, r, ?_, ?_⟩
      · rw [hloop, if_neg hth, hrun]
      · rcases hcase with ⟨hr, hq3, ⟨t, ht, hmk⟩, he⟩ | ⟨hr, k, hk0, hk, hq3, t, ht, hmk⟩
        · refine Or.inl ⟨hr, hq3, ⟨Call.Dispatch (MessageNumber v) m (pre1 ++ bad :: post) :: t0
            ++ t, ?_, ?_⟩, he⟩
          · rw [ht, hdt2, List.append_assoc]
          · rw [marks_append, hm0, hmk]
            rfl
        · refine Or.inr ⟨hr, k + 1, Nat.succ_pos k, by simpa using hk, ?_,
            Call.Dispatch (MessageNumber v) m (pre1 ++ bad :: post) :: t0 ++ t, ?_, ?_⟩
          · rw [hq3]; rfl
          · rw [ht, hdt2, List.append_assoc]
          · rw [marks_append, hm0, hmk]
            rfl

/-- C17 (amended): take the pending messages together with the ones just read,
and in them the first message `bad` without a leading integer: the messages `pre`
before it all have one.  Then `RunMessages` does not return true.  Unless an
exception leaves the handler of one of the messages before `bad`, it returns
false: it has dispatched exactly the messages before `bad`, in order, has taken
`bad` off the queue without dispatching it, has left the messages queued after
`bad` pending and not dispatched, and the last record on the error sink is the
error `Invalid message from method`; `InFdReady` does not look at that result and
returns true with that state.  When an exception leaves the handler of the `k`-th
message before `bad`, the messages behind that one, `bad` included, stay pending,
and the exception leaves `InFdReady`. -/
theorem C17_unparseable_message (env : WorkerEnv) (cfg : Configuration) (w : Worker)
    (Messages pre post : List String) (bad : String)
    (hq : w.MessageQueue ++ Messages = pre ++ bad :: post)
    (hpre : ∀ m ∈ pre, strtoul m ≠ none) (hbad : strtoul bad = none) :
    ∃ w2 r,
      RunMessages env cfg { w with MessageQueue := w.MessageQueue ++ Messages } = some (w2, r) ∧
      ((r = RunResult.Failure ∧ w2.MessageQueue = post ∧
        marks (w2.Trace.drop w.Trace.length) = (inOrder (pre ++ bad :: post)).take pre.length ∧
        w2.Errors.getLast? = some (ErrorKind.Error,
          "Invalid message from method " ++ w2.Config.Access ++ ": " ++ bad) ∧
        InFdReady env cfg w (some Messages) = some (w2, RunResult.Success)) ∨
       (r = RunResult.Thrown ∧ ∃ k, 0 < k ∧ k ≤ pre.length ∧
        w2.MessageQueue = (pre ++ bad :: post).drop k ∧
        marks (w2.Trace.drop w.Trace.length) = (inOrder (pre ++ bad :: post)).take k ∧
        InFdReady env cfg w (some Messages) = some (w2, RunResult.Thrown))) := by
  obtain ⟨w2, r, hrun, hcase⟩ := RunMessagesLoop_reaches_bad env cfg bad post hbad pre
    (w.MessageQueue ++ Messages).length
    ({ w with MessageQueue := w.MessageQueue ++ Messages } : Worker) hq hpre
    (by rw [hq]; simp)
  have hrun2 : RunMessages env cfg { w with MessageQueue := w.MessageQueue ++ Messages }
      = some (w2, r) := hrun
  refine ⟨w2, r, hrun2, ?_⟩
  rcases hcase with ⟨hr, hq3, ⟨t, ht, hmk⟩, he⟩ | ⟨hr, k, hk0, hk, hq3, t, ht, hmk⟩
  · subst hr
    refine Or.inl ⟨rfl, hq3, ?_, he, ?_⟩
    · have ht2 : w2.Trace = w.Trace ++ t := ht
      rw [ht2, List.drop_left]
      exact hmk
    · unfold InFdReady ReadMessages
      simp only [Bool.true_eq_false, if_false, hrun2]
  · subst hr
    refine Or.inr ⟨rfl, k, hk0, hk, hq3, ?_, ?_⟩
    · have ht2 : w2.Trace = w.Trace ++ t := ht
      rw [ht2, List.drop_left]
      exact hmk
    · unfold InFdReady ReadMessages
      simp only [Bool.true_eq_false, if_false, hrun2]

/-- Witness of C17: a status message, a line without a number and another status
message are read. -/
theorem C17_unparseable_message_witness :
    ∃ w2 r,
      RunMessages refWorkerEnv defaultConfig
        { workerE2 with MessageQueue := workerE2.MessageQueue ++
          ["102 Status\nMessage: y", "garbage", "102 Status\nMessage: x"] } = some (w2, r) ∧
      ((r = RunResult.Failure ∧ w2.MessageQueue = ["102 Status\nMessage: x"] ∧
        marks (w2.Trace.drop workerE2.Trace.length) =
          (inOrder (["102 Status\nMessage: y"] ++ "garbage" ::
            ["102 Status\nMessage: x"])).take ["102 Status\nMessage: y"].length ∧
        w2.Errors.getLast? = some (ErrorKind.Error,
          "Invalid message from method " ++ w2.Config.Access ++ ": " ++ "garbage") ∧
        InFdReady refWorkerEnv defaultConfig workerE2
          (some ["102 Status\nMessage: y", "garbage", "102 Status\nMessage: x"]) =
            some (w2, RunResult.Success)) ∨
       (r = RunResult.Thrown ∧ ∃ k, 0 < k ∧ k ≤ ["102 Status\nMessage: y"].length ∧
        w2.MessageQueue = (["102 Status\nMessage: y"] ++ "garbage" ::
          ["102 Status\nMessage: x"]).drop k ∧
        marks (w2.Trace.drop workerE2.Trace.length) =
          (inOrder (["102 Status\nMessage: y"] ++ "garbage" ::
            ["102 Status\nMessage: x"])).take k ∧
        InFdReady refWorkerEnv defaultConfig workerE2
          (some ["102 Status\nMessage: y", "garbage", "102 Status\nMessage: x"]) =
            some (w2, RunResult.Thrown))) :=
  C17_unparseable_message refWorkerEnv defaultConfig workerE2
    ["102 Status\nMessage: y", "garbage", "102 Status\nMessage: x"]
    ["102 Status\nMessage: y"] ["102 Status\nMessage: x"] "garbage" rfl (by decide) (by decide)

/-- C17 fails as stated: the method sends a line without a leading integer,
followed by a status message.  `RunMessages` records the error and returns false,
yet `InFdReady` returns true to the event loop, and the status message stays in
the queue, to be dispatched by the next run. -/
theorem C17_counterexample :
    strtoul "garbage" = none ∧
    (RunMessages refWorkerEnv defaultConfig
      { workerE2 with MessageQueue := ["garbage", "102 Status\nMessage: x"] }).map
      (fun r => (r.2, r.1.MessageQueue, r.1.Errors, r.1.Trace)) =
      some (RunResult.Failure, ["102 Status\nMessage: x"],
        [(ErrorKind.Error, "Invalid message from method http: garbage")], []) ∧
    (InFdReady refWorkerEnv defaultConfig workerE2
      (some ["garbage", "102 Status\nMessage: x"])).map (fun r => (r.2, r.1.MessageQueue)) =
      some (RunResult.Success, ["102 Status\nMessage: x"]) ∧
    (RunMessages refWorkerEnv defaultConfig
      { workerE2 with MessageQueue := ["102 Status\nMessage: x"] }).map
      (fun r => (r.2, r.1.Status)) = some (RunResult.Success, "x") := by
  refine ⟨by decide, by decide, by decide, by decide⟩

/-- Calls of `write` that were interrupted are retried: they do not change what
the loop of `OutFdReady` ends with. -/
theorem writeLoop_skip (pre l : List (Int × Bool))
    (hpre : ∀ p ∈ pre, p.1 < 0 ∧ p.2 = true) : writeLoop (pre ++ l) = writeLoop l := by
  induction pre with
  | nil => rfl
  | cons p pre ih =>
    obtain ⟨Res, eintr⟩ := p
    have hp := hpre (Res, eintr) (List.mem_cons_self _ _)
    have ih2 := ih (fun q hq => hpre q (List.mem_cons_of_mem _ hq))
    show (if Res < 0 ∧ eintr = true then writeLoop (pre ++ l) else some Res) = writeLoop l
    rw [if_pos hp, ih2]

/-- A write result that is not positive and is not an interrupted call makes
`OutFdReady` end in `MethodFailure`. -/
theorem OutFdReady_death (w : Worker) (pre rest : List (Int × Bool)) (Res : Int) (eintr : Bool)
    (hpre : ∀ p ∈ pre, p.1 < 0 ∧ p.2 = true) (hRes : Res ≤ 0)
    (hno : ¬ (Res < 0 ∧ eintr = true)) :
    OutFdReady w (pre ++ (Res, eintr) :: rest) = some (MethodFailure w) := by
  unfold OutFdReady
  rw [writeLoop_skip pre _ hpre]
  show (match (if Res < 0 ∧ eintr = true then writeLoop rest else some Res) with
    | none => none
    | some Res =>
      if Res ≤ 0 then some (MethodFailure w)
      else
        some ({ w with
          OutQueue := ⟨w.OutQueue.data.drop Res.toNat⟩
          OutReady := if w.OutQueue.data.drop Res.toNat = [] then false else w.OutReady },
          true)) = _
  rw [if_neg hno]
  show (if Res ≤ 0 then some (MethodFailure w) else _) = _
  rw [if_pos hRes]

/-- C19: let the outbound buffer be `B` and let the call of `write` that is not
interrupted accept `n` characters, `0 < n ≤ |B|`, after any number of calls
interrupted by `EINTR`.  Then `OutFdReady` returns true, the buffer is `B` without
its first `n` characters, `OutReady` is false when that rest is empty and is
unchanged otherwise, the rest being empty exactly when `n = |B|`, and nothing else
of the worker changes.  With a write result of 0, or of -1 with an `errno` other
than `EINTR`, `OutFdReady` is `MethodFailure`, which returns false. -/
theorem C19_OutFdReady_write (w : Worker) (pre rest : List (Int × Bool)) (n : Nat)
    (eintr : Bool) (hpre : ∀ p ∈ pre, p.1 < 0 ∧ p.2 = true)
    (hn : 0 < n) (hle : n ≤ w.OutQueue.length) :
    OutFdReady w (pre ++ ((n : Int), eintr) :: rest) =
      some ({ w with
        OutQueue := ⟨w.OutQueue.data.drop n⟩
        OutReady := if w.OutQueue.data.drop n = [] then false else w.OutReady }, true) ∧
    (w.OutQueue.data.drop n = [] ↔ n = w.OutQueue.length) ∧
    OutFdReady w (pre ++ (0, eintr) :: rest) = some (MethodFailure w) ∧
    OutFdReady w (pre ++ (-1, false) :: rest) = some (MethodFailure w) ∧
    (MethodFailure w).2 = false := by
  refine ⟨?_, ?_, ?_, ?_, rfl⟩
  · unfold OutFdReady
    rw [writeLoop_skip pre _ hpre]
    have h1 : ¬ ((n : Int) < 0 ∧ eintr = true) := fun h => by omega
    have h2 : ¬ ((n : Int) ≤ 0) := by omega
    show (match (if (n : Int) < 0 ∧ eintr = true then writeLoop rest else some (n : Int)) with
      | none => none
      | some Res =>
        if Res ≤ 0 then some (MethodFailure w)
        else
          some ({ w with
            OutQueue := ⟨w.OutQueue.data.drop Res.toNat⟩
            OutReady := if w.OutQueue.data.drop Res.toNat = [] then false else w.OutReady },
            true)) = _
    rw [if_neg h1]
    show (if (n : Int) ≤ 0 then some (MethodFailure w) else _) = _
    rw [if_neg h2, Int.toNat_ofNat]
  · have hlen : w.OutQueue.length = w.OutQueue.data.length := rfl
    rw [List.drop_eq_nil_iff, hlen]
    omega
  · exact OutFdReady_death w pre rest 0 eintr hpre (Int.le_refl 0) (fun h => by omega)
  · exact OutFdReady_death w pre rest (-1) false hpre (by omega) (fun h => by simp at h)

/-- Witness of C19: the first call of `write` is interrupted, the second accepts
the first four characters of the buffer. -/
theorem C19_OutFdReady_write_witness :
    OutFdReady { workerE2 with OutQueue := "600 URI Acquire\n\n", OutReady := true }
        [(-1, true), (4, false)] =
      some ({ workerE2 with OutQueue := "URI Acquire\n\n", OutReady := true }, true) :=
  (C19_OutFdReady_write { workerE2 with OutQueue := "600 URI Acquire\n\n", OutReady := true }
    [(-1, true)] [] 4 false (by decide) (by decide) (by decide)).1

/-- C20: `MethodFailure` returns false.  It records the error
`Method <Access> has died unexpectedly!`, waits for the child with `ExecWait`
whose reap argument is false, closes both descriptors, and ends with no child
process, both descriptors -1, `InReady` and `OutReady` false, the outbound buffer
empty and no pending message.  On the worker it leaves, `QueueItem` and `ReplyAux`
return false and change nothing.  `MethodFailure` is what `ReadMessages` ends in
when the read of the pipe failed, then `InFdReady` returns false, and what
`OutFdReady` ends in on a write result that is not positive and not an
interrupted call. -/
theorem C20_method_death (env : WorkerEnv) (cfg : Configuration) (w : Worker) :
    (MethodFailure w).2 = false ∧
    (MethodFailure w).1.Errors = w.Errors ++
      [(ErrorKind.Error, "Method " ++ w.Config.Access ++ " has died unexpectedly!")] ∧
    (MethodFailure w).1.Trace = w.Trace ++
      [Call.ExecWait w.Process false, Call.Close w.InFd, Call.Close w.OutFd] ∧
    (MethodFailure w).1.Process = -1 ∧
    (MethodFailure w).1.InFd = -1 ∧
    (MethodFailure w).1.OutFd = -1 ∧
    (MethodFailure w).1.InReady = false ∧
    (MethodFailure w).1.OutReady = false ∧
    (MethodFailure w).1.OutQueue = "" ∧
    (MethodFailure w).1.MessageQueue = [] ∧
    (∀ Item : QItem,
      QueueItem env (MethodFailure w).1 Item = ((MethodFailure w).1, false)) ∧
    (∀ (Item : ItemDesc) (Owner : AptWorker.Item),
      ReplyAux env (MethodFailure w).1 Item Owner = ((MethodFailure w).1, false)) ∧
    ReadMessages w none = MethodFailure w ∧
    InFdReady env cfg w none = some ((MethodFailure w).1, RunResult.Failure) ∧
    (∀ (pre rest : List (Int × Bool)) (Res : Int) (eintr : Bool),
      (∀ p ∈ pre, p.1 < 0 ∧ p.2 = true) → Res ≤ 0 → ¬ (Res < 0 ∧ eintr = true) →
      OutFdReady w (pre ++ (Res, eintr) :: rest) = some (MethodFailure w)) := by
  refine ⟨rfl, rfl, rfl, rfl, rfl, rfl, rfl, rfl, rfl, rfl, fun Item => ?_,
    fun Item Owner => ?_, rfl, ?_, fun pre rest Res eintr hpre hRes hno =>
      OutFdReady_death w pre rest Res eintr hpre hRes hno⟩
  · unfold QueueItem
    rw [if_pos (show (MethodFailure w).1.OutFd = -1 from rfl)]
  · unfold ReplyAux
    rw [if_pos (show (MethodFailure w).1.OutFd = -1 from rfl)]
  · unfold InFdReady
    rw [if_pos (show (ReadMessages w none).2 = false from rfl)]
    rfl

/-! ## The counter `Retries` -/

theorem OwnersKept_refl (P : Prop) (l : List Item) : OwnersKept P l l :=
  List.forall₂_same.2 (fun _ _ => Or.inl rfl)

theorem ItemsKept_refl (P : Prop) (L : List QItem) : ItemsKept P L L :=
  List.forall₂_same.2 (fun I _ => OwnersKept_refl P I.Owners)

theorem OwnersKept_of_map (P : Prop) (f : Item → Item) (hf : ∀ o, (f o).Retries = o.Retries)
    (l l2 : List Item) (h : OwnersKept P (l.map f) l2) : OwnersKept P l l2 := by
  unfold OwnersKept at h ⊢
  rw [List.forall₂_map_left_iff] at h
  refine h.imp (fun a b hab => ?_)
  unfold RetriesKept at hab ⊢
  rw [hf a] at hab
  exact hab

theorem ItemsKept_set (P : Prop) :
    ∀ (L : List QItem) (i : Nat) (I0 I1 : QItem), L[i]? = some I0 →
      OwnersKept P I0.Owners I1.Owners → ItemsKept P L (L.set i I1) := by
  intro L
  induction L with
  | nil => intro i I0 I1 h _; simp at h
  | cons a rest ih =>
    intro i I0 I1 h hO
    cases i with
    | zero =>
      simp only [List.getElem?_cons_zero, Option.some.injEq] at h
      subst h
      exact List.Forall₂.cons hO (ItemsKept_refl P rest)
    | succ j =>
      simp only [List.getElem?_cons_succ] at h
      exact List.Forall₂.cons (OwnersKept_refl P a.Owners) (ih j I0 I1 h hO)

theorem HandleFailureOwner_Retries (env : Env) (cfg : Configuration) (LocalOnly Log : Bool)
    (now : Int) (Message : String) (errTransient errAuthErr : Bool) (O : Item) :
    RetriesKept (errTransient = true ∧ LocalOnly = false) O
      (HandleFailureOwner env cfg LocalOnly Log now Message errTransient errAuthErr O).Owner := by
  by_cases h : errTransient = true ∧ LocalOnly = false ∧ O.Retries ≠ 0
  · rw [HandleFailureOwner_retry env cfg LocalOnly Log now Message errTransient errAuthErr O h]
    refine Or.inr ⟨?_, h.1, h.2.1⟩
    show O.Retries - 1 + 1 = O.Retries
    have := h.2.2
    omega
  · exact Or.inl (HandleFailureOwner_no_retry_frame env cfg LocalOnly Log now Message
      errTransient errAuthErr O h).1

theorem HandleFailure_Retries (env : Env) (cfg : Configuration) (LocalOnly Log : Bool)
    (now : Int) (Message : String) (errTransient errAuthErr : Bool) :
    ∀ owners : List Item,
      OwnersKept (errTransient = true ∧ LocalOnly = false) owners
        (mergeOwners owners
          ((HandleFailure env cfg LocalOnly Log now Message errTransient errAuthErr owners).map
            (fun s => s.Owner))) := by
  intro owners
  induction owners with
  | nil => exact List.Forall₂.nil
  | cons o rest ih =>
    have hp := HandleFailureOwner_Retries env cfg LocalOnly Log now Message errTransient
      errAuthErr o
    unfold HandleFailure
    dsimp only
    by_cases ht : (HandleFailureOwner env cfg LocalOnly Log now Message errTransient
        errAuthErr o).Thrown = true
    · rw [if_pos ht]
      exact List.Forall₂.cons hp (OwnersKept_refl _ rest)
    · rw [if_neg ht]
      exact List.Forall₂.cons hp ih

theorem URIDoneOwner_Retries (env : Env) (cfg : Configuration) (Log : Bool)
    (ReceivedHashes : HashStringList) (ims : Bool) (Message : String) (O : Item) :
    (URIDoneOwner env cfg Log ReceivedHashes ims Message O).Owner.Retries = O.Retries := by
  unfold URIDoneOwner
  split_ifs <;> rfl

theorem URIDoneOwners_Retries (env : Env) (cfg : Configuration) (Log : Bool)
    (ReceivedHashes : HashStringList) (ims : Bool) (P : Prop) :
    ∀ (owners : List Item) (Message : String),
      OwnersKept P owners
        (mergeOwners owners
          ((URIDoneOwners env cfg Log ReceivedHashes ims Message owners).map
            (fun s => s.Owner))) := by
  intro owners
  induction owners with
  | nil => intro _; exact List.Forall₂.nil
  | cons o rest ih =>
    intro Message
    exact List.Forall₂.cons
      (Or.inl (URIDoneOwner_Retries env cfg Log ReceivedHashes ims Message o))
      (ih _)

theorem RedirectOwner_Retries (env : WorkerEnv) (enc Log : Bool) (Message GotNewURI : String)
    (AltUris : List String) (NewURI : String) (O : Item) :
    (RedirectOwner env enc Log Message GotNewURI AltUris NewURI O).Owner.Retries = O.Retries := by
  have h1 : (pushAlternates env enc AltUris O).Retries = O.Retries := by
    rw [pushAlternates_eq]
  have h2 := (replaceBadURI_frame env NewURI (pushAlternates env enc AltUris O)).2.2.1
  unfold RedirectOwner
  dsimp only
  by_cases hs : isSimpleRetry env enc GotNewURI O = true
  · rw [if_pos hs]; exact h1
  rw [if_neg hs]
  by_cases he : (replaceBadURI env NewURI (pushAlternates env enc AltUris O)).1 = ""
  · rw [if_pos he]; exact h2.trans h1
  rw [if_neg he]
  by_cases hl : env.IsRedirectionLoop (replaceBadURI env NewURI (pushAlternates env enc AltUris O)).2
      (replaceBadURI env NewURI (pushAlternates env enc AltUris O)).1 = true
  · rw [if_pos hl]; exact h2.trans h1
  rw [if_neg hl]
  split
  · exact h2.trans h1
  · rename_i O3 hc
    have hf := ChangeSiteIsMirrorChange_frame env.toEnv _ _ O3 hc
    exact (hf.2.1.trans h2).trans h1

theorem RedirectOwners_Retries (env : WorkerEnv) (enc Log : Bool) (Message GotNewURI : String)
    (AltUris : List String) (P : Prop) :
    ∀ (owners : List Item) (NewURI : String),
      OwnersKept P owners
        (mergeOwners owners
          ((RedirectOwners env enc Log Message GotNewURI AltUris NewURI owners).map
            (fun s => s.Owner))) := by
  intro owners
  induction owners with
  | nil => intro _; exact List.Forall₂.nil
  | cons o rest ih =>
    intro NewURI
    have hp : RetriesKept P o
        (RedirectOwner env enc Log Message GotNewURI AltUris NewURI o).Owner :=
      Or.inl (RedirectOwner_Retries env enc Log Message GotNewURI AltUris NewURI o)
    unfold RedirectOwners
    dsimp only
    by_cases ht : (RedirectOwner env enc Log Message GotNewURI AltUris NewURI o).Thrown = true
    · rw [if_pos ht]
      exact List.Forall₂.cons hp (OwnersKept_refl _ rest)
    · rw [if_neg ht]
      exact List.Forall₂.cons hp (ih _)

theorem OwnersKept_imp (P Q : Prop) (hPQ : P → Q) (l l2 : List Item) (h : OwnersKept P l l2) :
    OwnersKept Q l l2 :=
  List.Forall₂.imp (fun _ _ hab => hab.imp id (fun hr => ⟨hr.1, hPQ hr.2⟩)) h

theorem ItemsKept_imp (P Q : Prop) (hPQ : P → Q) (L L2 : List QItem) (h : ItemsKept P L L2) :
    ItemsKept Q L L2 :=
  List.Forall₂.imp (fun I I2 hab => OwnersKept_imp P Q hPQ I.Owners I2.Owners hab) h

theorem Worker_find_some (w : Worker) (URI : String) (i : Nat) (Itm : QItem)
    (h : w.find URI = some (i, Itm)) : w.Items[i]? = some Itm := by
  unfold Worker.find at h
  by_cases hU : URI = ""
  · rw [if_pos hU] at h; cases h
  · rw [if_neg hU] at h
    cases hF : FindItem w.Items URI with
    | none => rw [hF] at h; cases h
    | some j =>
      rw [hF] at h
      dsimp only at h
      cases hI : w.Items[j]? with
      | none => rw [hI] at h; cases h
      | some I =>
        rw [hI] at h
        simp only [Option.map_some', Option.some.injEq, Prod.mk.injEq] at h
        obtain ⟨rfl, rfl⟩ := h
        exact hI

theorem updateUsedMirror_Retries (env : WorkerEnv) (Message : String) (P : Prop) (I : QItem)
    (l2 : List Item) (h : OwnersKept P (updateUsedMirror env Message I).Owners l2) :
    OwnersKept P I.Owners l2 := by
  unfold updateUsedMirror at h
  dsimp only at h
  by_cases hU : env.LookupTag Message "UsedMirror" "" = ""
  · rw [if_pos hU] at h; exact h
  · rw [if_neg hU] at h
    exact OwnersKept_of_map P
      (fun O => { O with UsedMirror := env.LookupTag Message "UsedMirror" "" })
      (fun _ => rfl) _ _ h

theorem RedirectCase_Kept (env : WorkerEnv) (w : Worker) (Message URI : String) (P : Prop)
    (itm : Option (Nat × QItem)) :
    HandlerKept P w.Items itm (RedirectCase env w Message URI itm).1.Items := by
  cases itm with
  | none => exact Or.inl rfl
  | some p =>
    obtain ⟨i, Itm⟩ := p
    refine Or.inr ⟨i, Itm, _, rfl, rfl, ?_⟩
    exact OwnersKept_of_map P (fun O => { O with Status := ItemState.StatIdle }) (fun _ => rfl)
      _ _ (RedirectOwners_Retries env _ _ _ _ _ P _ _)

theorem URIStartCase_Kept (env : WorkerEnv) (w : Worker) (Message : String) (P : Prop)
    (itm : Option (Nat × QItem)) :
    HandlerKept P w.Items itm (URIStartCase env w Message itm).Items := by
  cases itm with
  | none => exact Or.inl rfl
  | some p =>
    obtain ⟨i, Itm⟩ := p
    exact Or.inr ⟨i, Itm, _, rfl, rfl, OwnersKept_refl P Itm.Owners⟩

theorem URIDoneCase_Kept (env : WorkerEnv) (cfg : Configuration) (w : Worker)
    (Message : String) (P : Prop) (itm : Option (Nat × QItem)) :
    HandlerKept P w.Items itm (URIDoneCase env cfg w Message itm).Items := by
  cases itm with
  | none => exact Or.inl rfl
  | some p =>
    obtain ⟨i, Itm⟩ := p
    exact Or.inr ⟨i, Itm, _, rfl, rfl, URIDoneOwners_Retries env.toEnv cfg _ _ _ P _ _⟩

theorem AuxRequestCase_Kept (env : WorkerEnv) (cfg : Configuration) (now : Int) (w : Worker)
    (Message : String) (P : Prop) (itm : Option (Nat × QItem)) :
    HandlerKept P w.Items itm (AuxRequestCase env cfg now w Message itm).1.Items := by
  cases itm with
  | none => exact Or.inl rfl
  | some p =>
    obtain ⟨i, Itm⟩ := p
    unfold AuxRequestCase
    dsimp only
    by_cases hA : w.Config.AuxRequests = false
    · rw [if_pos hA]
      have hk := OwnersKept_imp _ P (fun h => Bool.noConfusion h.1) _ _
        (HandleFailure_Retries env.toEnv cfg w.Config.LocalOnly w.Log now
          (Message ++
            "\nMessage: Method tried to make an Aux Request while not being allowed to do them")
          false false Itm.Owners)
      split_ifs
      · exact Or.inr ⟨i, Itm, _, rfl, rfl, hk⟩
      · exact Or.inr ⟨i, Itm, _, rfl, rfl, hk⟩
    · rw [if_neg hA]
      exact Or.inl rfl

theorem URIFailureCase_Kept (env : WorkerEnv) (cfg : Configuration) (now : Int) (w : Worker)
    (Message : String) (itm : Option (Nat × QItem)) :
    HandlerKept ((classifyFailure env.toEnv Message).1 = true ∧ w.Config.LocalOnly = false)
      w.Items itm (URIFailureCase env cfg now w Message itm).1.Items := by
  cases itm with
  | none => exact Or.inl rfl
  | some p =>
    obtain ⟨i, Itm⟩ := p
    unfold URIFailureCase
    dsimp only
    have hk := HandleFailure_Retries env.toEnv cfg w.Config.LocalOnly w.Log now Message
      (classifyFailure env.toEnv Message).1 (classifyFailure env.toEnv Message).2 Itm.Owners
    split_ifs
    · exact Or.inr ⟨i, Itm, _, rfl, rfl, hk⟩
    · exact Or.inr ⟨i, Itm, _, rfl, rfl, hk⟩

theorem MediaChange_Items (env : WorkerEnv) (w : Worker) (Message : String) :
    (MediaChange env w Message).Items = w.Items := by
  unfold MediaChange
  dsimp only
  split_ifs <;> rfl

/-- One pass of the loop of `RunMessages` keeps the counter `Retries` of every
owner of every item, except that the pass for a `400 URI Failure` classified as
transient, on a method that is not local only, may count it down by one. -/
theorem dispatch_Retries (env : WorkerEnv) (cfg : Configuration) (w : Worker) (Number : Nat)
    (Message : String) :
    ItemsKept (Number = 400 ∧ (classifyFailure env.toEnv Message).1 = true ∧ w.Config.LocalOnly = false)
      w.Items (dispatch env cfg w Number Message).1.Items := by
  have key : ∀ (Q : Prop) (Itm : Option (Nat × QItem)) (Items2 : List QItem),
      (Q → (Number = 400 ∧ (classifyFailure env.toEnv Message).1 = true ∧ w.Config.LocalOnly = false)) →
      ((Itm = none ∧ Items2 = w.Items) ∨
        ∃ i I0 I1, w.Items[i]? = some I0 ∧ Itm = some (i, I1) ∧ Items2 = w.Items.set i I1 ∧
          ∀ (R : Prop) (l2 : List Item), OwnersKept R I1.Owners l2 → OwnersKept R I0.Owners l2) →
      ∀ Items3 : List QItem, HandlerKept Q Items2 Itm Items3 →
        ItemsKept (Number = 400 ∧ (classifyFailure env.toEnv Message).1 = true ∧ w.Config.LocalOnly = false)
          w.Items Items3 := by
    intro Q Itm Items2 hQ hst Items3 hk
    apply ItemsKept_imp Q _ hQ
    rcases hst with ⟨hn, h2⟩ | ⟨i, I0, I1, hI0, hItm, h2, hcomp⟩
    · rcases hk with h3 | ⟨j, A, B, hA, _, _⟩
      · rw [h3, h2]; exact ItemsKept_refl Q _
      · rw [hn] at hA; cases hA
    · rcases hk with h3 | ⟨j, A, B, hA, h3, hO⟩
      · rw [h3, h2]
        exact ItemsKept_set Q _ i I0 I1 hI0 (hcomp Q _ (OwnersKept_refl Q _))
      · rw [hItm] at hA
        obtain ⟨rfl, rfl⟩ := Prod.mk.inj (Option.some.inj hA)
        rw [h3, h2, List.set_set]
        exact ItemsKept_set Q _ i I0 B hI0 (hcomp Q _ hO)
  unfold dispatch
  dsimp only
  generalize hItm : Option.map (fun f => (f.1, updateUsedMirror env Message f.2))
    (w.find (env.LookupTag Message "URI" "")) = Itm
  have hw1 : ((Itm = none ∧ (match Itm with
      | none => w
      | some (i, Itm1) => { w with Items := w.Items.set i Itm1 }).Items = w.Items) ∨
        ∃ i I0 I1, w.Items[i]? = some I0 ∧ Itm = some (i, I1) ∧ (match Itm with
      | none => w
      | some (i, Itm1) => { w with Items := w.Items.set i Itm1 }).Items = w.Items.set i I1 ∧
          ∀ (R : Prop) (l2 : List Item), OwnersKept R I1.Owners l2 → OwnersKept R I0.Owners l2) ∧
      (match Itm with
      | none => w
      | some (i, Itm1) => { w with Items := w.Items.set i Itm1 }).Config = w.Config := by
    cases hfind : w.find (env.LookupTag Message "URI" "") with
    | none =>
      rw [hfind] at hItm
      subst hItm
      exact ⟨Or.inl ⟨rfl, rfl⟩, rfl⟩
    | some p =>
      obtain ⟨i, I0⟩ := p
      rw [hfind] at hItm
      subst hItm
      exact ⟨Or.inr ⟨i, I0, _, Worker_find_some w _ i I0 hfind, rfl, rfl,
        fun R l2 h => updateUsedMirror_Retries env Message R I0 l2 h⟩, rfl⟩
  generalize (match Itm with
      | none => w
      | some (i, Itm1) => { w with Items := w.Items.set i Itm1 }) = w1 at hw1 ⊢
  obtain ⟨hst, hC⟩ := hw1
  have hst2 : ((Itm = none ∧ ({ w1 with Trace := w1.Trace ++ [Call.Dispatch Number Message w.MessageQueue] } : Worker).Items = w.Items) ∨
        ∃ i I0 I1, w.Items[i]? = some I0 ∧ Itm = some (i, I1) ∧ ({ w1 with Trace := w1.Trace ++ [Call.Dispatch Number Message w.MessageQueue] } : Worker).Items = w.Items.set i I1 ∧
          ∀ (R : Prop) (l2 : List Item), OwnersKept R I1.Owners l2 → OwnersKept R I0.Owners l2) := hst
  have hC2 : ({ w1 with Trace := w1.Trace ++ [Call.Dispatch Number Message w.MessageQueue] } : Worker).Config = w.Config := hC
  generalize ({ w1 with Trace := w1.Trace ++ [Call.Dispatch Number Message w.MessageQueue] } : Worker) = w2 at hst2 hC2 ⊢
  by_cases h100 : Number = 100
  · rw [if_pos h100]
    exact key False Itm w2.Items False.elim hst2 _ (Or.inl rfl)
  rw [if_neg h100]
  by_cases h101 : Number = 101
  · rw [if_pos h101]
    exact key False Itm w2.Items False.elim hst2 _ (Or.inl rfl)
  rw [if_neg h101]
  by_cases h102 : Number = 102
  · rw [if_pos h102]
    exact key False Itm w1.Items False.elim hst _ (Or.inl rfl)
  rw [if_neg h102]
  by_cases h103 : Number = 103
  · rw [if_pos h103]
    exact key False Itm w2.Items False.elim hst2 _ (RedirectCase_Kept env w2 Message _ False Itm)
  rw [if_neg h103]
  by_cases h104 : Number = 104
  · rw [if_pos h104]
    exact key False Itm w2.Items False.elim hst2 _ (Or.inl rfl)
  rw [if_neg h104]
  by_cases h200 : Number = 200
  · rw [if_pos h200]
    exact key False Itm w2.Items False.elim hst2 _ (URIStartCase_Kept env w2 Message False Itm)
  rw [if_neg h200]
  by_cases h201 : Number = 201
  · rw [if_pos h201]
    exact key False Itm w2.Items False.elim hst2 _ (URIDoneCase_Kept env cfg w2 Message False Itm)
  rw [if_neg h201]
  by_cases h351 : Number = 351
  · rw [if_pos h351]
    exact key False Itm w2.Items False.elim hst2 _
      (AuxRequestCase_Kept env cfg _ w2 Message False Itm)
  rw [if_neg h351]
  by_cases h400 : Number = 400
  · rw [if_pos h400]
    exact key _ Itm w2.Items (fun h => ⟨h400, h.1, by rw [← hC2]; exact h.2⟩) hst2 _
      (URIFailureCase_Kept env cfg _ w2 Message Itm)
  rw [if_neg h400]
  by_cases h401 : Number = 401
  · rw [if_pos h401]
    exact key False Itm w2.Items False.elim hst2 _ (Or.inl rfl)
  rw [if_neg h401]
  by_cases h403 : Number = 403
  · rw [if_pos h403]
    exact key False Itm w2.Items False.elim hst2 _ (Or.inl (MediaChange_Items env w2 Message))
  rw [if_neg h403]
  exact key False Itm w2.Items False.elim hst2 _ (Or.inl rfl)

theorem RetriesKept_le (P : Prop) (o o2 : Item) (h : RetriesKept P o o2) :
    o2.Retries ≤ o.Retries := by
  rcases h with h | ⟨h, _⟩ <;> omega

theorem Forall₂_chain {α : Type} (R S T : α → α → Prop)
    (h : ∀ a b c, R a b → S b c → T a c) :
    ∀ l1 l2 l3 : List α, List.Forall₂ R l1 l2 → List.Forall₂ S l2 l3 → List.Forall₂ T l1 l3 := by
  intro l1 l2 l3 h12
  induction h12 generalizing l3 with
  | nil => intro h23; cases h23; exact List.Forall₂.nil
  | cons hab _ ih =>
    intro h23
    cases h23 with
    | cons hbc htl => exact List.Forall₂.cons (h _ _ _ hab hbc) (ih _ htl)

theorem ItemsNotUp_refl (L : List QItem) : ItemsNotUp L L :=
  List.forall₂_same.2 (fun _ _ => List.forall₂_same.2 (fun _ _ => Nat.le_refl _))

theorem ItemsNotUp_trans (L1 L2 L3 : List QItem) (h12 : ItemsNotUp L1 L2)
    (h23 : ItemsNotUp L2 L3) : ItemsNotUp L1 L3 := by
  unfold ItemsNotUp at h12 h23 ⊢
  exact Forall₂_chain
    (fun (I I2 : QItem) =>
      List.Forall₂ (fun (o o2 : Item) => o2.Retries ≤ o.Retries) I.Owners I2.Owners)
    (fun (I I2 : QItem) =>
      List.Forall₂ (fun (o o2 : Item) => o2.Retries ≤ o.Retries) I.Owners I2.Owners)
    (fun (I I2 : QItem) =>
      List.Forall₂ (fun (o o2 : Item) => o2.Retries ≤ o.Retries) I.Owners I2.Owners)
    (fun A B C hab hbc =>
      Forall₂_chain (fun (o o2 : Item) => o2.Retries ≤ o.Retries)
        (fun (o o2 : Item) => o2.Retries ≤ o.Retries)
        (fun (o o2 : Item) => o2.Retries ≤ o.Retries)
        (fun _ _ _ h1 h2 => Nat.le_trans h2 h1) A.Owners B.Owners C.Owners hab hbc)
    L1 L2 L3 h12 h23

theorem ItemsNotUp_of_Kept (P : Prop) (L L2 : List QItem) (h : ItemsKept P L L2) :
    ItemsNotUp L L2 :=
  List.Forall₂.imp
    (fun _ _ hab => List.Forall₂.imp (fun o o2 ho => RetriesKept_le P o o2 ho) hab) h

/-- A run of `RunMessages` raises no counter `Retries`. -/
theorem RunMessagesLoop_Retries (env : WorkerEnv) (cfg : Configuration) :
    ∀ (fuel : Nat) (w w2 : Worker) (r : RunResult),
      RunMessagesLoop env cfg fuel w = some (w2, r) → ItemsNotUp w.Items w2.Items := by
  intro fuel
  induction fuel with
  | zero =>
    intro w w2 r h
    unfold RunMessagesLoop at h
    cases hq : w.MessageQueue with
    | nil =>
      simp only [hq, Option.some.injEq, Prod.mk.injEq] at h
      rw [← h.1]
      exact ItemsNotUp_refl _
    | cons m rest => simp only [hq] at h; cases h
  | succ f ih =>
    intro w w2 r h
    cases hq : w.MessageQueue with
    | nil =>
      unfold RunMessagesLoop at h
      simp only [hq, Option.some.injEq, Prod.mk.injEq] at h
      rw [← h.1]
      exact ItemsNotUp_refl _
    | cons m rest =>
      cases hp : strtoul m with
      | none =>
        unfold RunMessagesLoop at h
        simp only [hq, hp, Option.some.injEq, Prod.mk.injEq] at h
        rw [← h.1]
        exact ItemsNotUp_refl _
      | some v =>
        have hd : ItemsNotUp w.Items
            (dispatch env cfg ({ w with MessageQueue := rest } : Worker)
              (MessageNumber v) m).1.Items :=
          ItemsNotUp_of_Kept _ _ _
            (dispatch_Retries env cfg ({ w with MessageQueue := rest } : Worker)
              (MessageNumber v) m)
        have hloop : RunMessagesLoop env cfg (f + 1) w =
            if (dispatch env cfg ({ w with MessageQueue := rest } : Worker)
                (MessageNumber v) m).2 = true then
              some ((dispatch env cfg ({ w with MessageQueue := rest } : Worker)
                (MessageNumber v) m).1, RunResult.Thrown)
            else RunMessagesLoop env cfg f
              (dispatch env cfg ({ w with MessageQueue := rest } : Worker)
                (MessageNumber v) m).1 := by
          conv_lhs => unfold RunMessagesLoop
          simp only [hq, hp]
        rw [hloop] at h
        generalize dispatch env cfg ({ w with MessageQueue := rest } : Worker)
          (MessageNumber v) m = d at hd h
        by_cases hth : d.2 = true
        · rw [if_pos hth] at h
          obtain ⟨rfl, _⟩ := Prod.mk.inj (Option.some.inj h)
          exact hd
        · rw [if_neg hth] at h
          exact ItemsNotUp_trans _ _ _ hd (ih d.1 w2 r h)

/-- C18: no operation of the worker raises the counter `Retries` of an owner, and
none counts it down from zero; the counter changes in the retry step of
`HandleFailure` alone, by exactly one.  For every message number, one pass of
`RunMessages` leaves the counter of every owner of every queued item as it was,
or one lower than a positive value, the latter only for a `400 URI Failure`
classified as transient on a method that is not local only.  One pass of
`HandleFailure` over an owner counts the counter down by one exactly when the
failure is transient, the method is not local only and the counter is not zero,
and leaves it alone otherwise; so does the whole loop, owner by owner.
`QueueItem` and `ReplyAux` write no item.  Over a whole run of `RunMessages` no
counter goes up. -/
theorem C18_Retries_never_increase (env : WorkerEnv) (cfg : Configuration) (w : Worker) :
    (∀ (Number : Nat) (Message : String),
      List.Forall₂
        (fun I I2 => List.Forall₂
          (fun o o2 => o2.Retries = o.Retries ∨
            (o2.Retries + 1 = o.Retries ∧ Number = 400 ∧
              (classifyFailure env.toEnv Message).1 = true ∧ w.Config.LocalOnly = false))
          I.Owners I2.Owners)
        w.Items (dispatch env cfg w Number Message).1.Items) ∧
    (∀ (LocalOnly Log : Bool) (now : Int) (Message : String) (errTransient errAuthErr : Bool)
        (O : Item),
      (errTransient = true ∧ LocalOnly = false ∧ O.Retries ≠ 0 →
        (HandleFailureOwner env.toEnv cfg LocalOnly Log now Message errTransient errAuthErr
          O).Owner.Retries + 1 = O.Retries) ∧
      (¬ (errTransient = true ∧ LocalOnly = false ∧ O.Retries ≠ 0) →
        (HandleFailureOwner env.toEnv cfg LocalOnly Log now Message errTransient errAuthErr
          O).Owner.Retries = O.Retries)) ∧
    (∀ (LocalOnly Log : Bool) (now : Int) (Message : String) (errTransient errAuthErr : Bool)
        (Owners : List Item),
      List.Forall₂
        (fun o o2 => o2.Retries = o.Retries ∨
          (o2.Retries + 1 = o.Retries ∧ errTransient = true ∧ LocalOnly = false))
        Owners
        (mergeOwners Owners
          ((HandleFailure env.toEnv cfg LocalOnly Log now Message errTransient errAuthErr
            Owners).map (fun s => s.Owner)))) ∧
    (∀ Item : QItem, (QueueItem env w Item).1.Items = w.Items) ∧
    (∀ (Item : ItemDesc) (Owner : AptWorker.Item),
      (ReplyAux env w Item Owner).1.Items = w.Items) ∧
    (∀ (w2 : Worker) (r : RunResult), RunMessages env cfg w = some (w2, r) →
      List.Forall₂
        (fun I I2 => List.Forall₂ (fun o o2 => o2.Retries ≤ o.Retries) I.Owners I2.Owners)
        w.Items w2.Items) := by
  refine ⟨fun Number Message => dispatch_Retries env cfg w Number Message, ?_, ?_, ?_, ?_, ?_⟩
  · intro LocalOnly Log now Message errTransient errAuthErr O
    constructor
    · intro h
      rw [HandleFailureOwner_retry env.toEnv cfg LocalOnly Log now Message errTransient
        errAuthErr O h]
      show O.Retries - 1 + 1 = O.Retries
      have := h.2.2
      omega
    · intro h
      exact (HandleFailureOwner_no_retry_frame env.toEnv cfg LocalOnly Log now Message
        errTransient errAuthErr O h).1
  · intro LocalOnly Log now Message errTransient errAuthErr Owners
    exact HandleFailure_Retries env.toEnv cfg LocalOnly Log now Message errTransient
      errAuthErr Owners
  · intro Item
    unfold QueueItem
    by_cases hO : w.OutFd = -1
    · rw [if_pos hO]
    · rw [if_neg hO]
      cases Item.Owners with
      | nil => rfl
      | cons Owner rest =>
        dsimp only
        by_cases hD : isDoomedItem Owner = true
        · rw [if_pos hD]
        · rw [if_neg hD]
  · intro Item Owner
    unfold ReplyAux
    dsimp only
    split_ifs <;> rfl
  · intro w2 r h
    exact RunMessagesLoop_Retries env cfg w.MessageQueue.length w w2 r h

/-! ## `403 Media Change` -/

/-- What `MediaChange` does to a worker: the calls it adds, the record it appends
to the outbound buffer, and the flag it sets. -/
theorem MediaChange_spec (env : WorkerEnv) (w : Worker) (Message : String) :
    (MediaChange env w Message).Trace = w.Trace ++
      (if 0 < env.StatusFd then
        [Call.StatusFdWrite env.StatusFd
          ("media-change: " ++ env.LookupTag Message "Media" "" ++ ":" ++
            env.LookupTag Message "Drive" "" ++ ":" ++
            env.MediaChangePrompt (env.LookupTag Message "Media" "")
              (env.LookupTag Message "Drive" "") ++ "\n")]
       else []) ++
      (if w.Log = true then
        [Call.LogMediaChange (env.LookupTag Message "Media" "")
          (env.LookupTag Message "Drive" "")]
       else []) ∧
    (MediaChange env w Message).OutQueue = w.OutQueue ++
      (if w.Log = true ∧ env.LogMediaChange (env.LookupTag Message "Media" "")
          (env.LookupTag Message "Drive" "") = true
       then "603 Media Changed\n\n" else "603 Media Changed\nFailed: true\n\n") ∧
    (MediaChange env w Message).OutReady = true := by
  unfold MediaChange
  dsimp only
  by_cases hL : w.Log = true <;>
    by_cases hM : env.LogMediaChange (env.LookupTag Message "Media" "")
      (env.LookupTag Message "Drive" "") = true <;>
    simp [hL, hM]

/-- The pass of the loop of `RunMessages` for a message with number 403 is
`MediaChange`, run on a worker that has the progress sink, the outbound buffer
and `OutReady` of the worker before the pass. -/
theorem dispatch_MediaChange (env : WorkerEnv) (cfg : Configuration) (w : Worker)
    (Message : String) :
    ∃ w2 : Worker, w2.Log = w.Log ∧ w2.OutQueue = w.OutQueue ∧ w2.OutReady = w.OutReady ∧
      w2.Trace = w.Trace ++ [Call.Dispatch 403 Message w.MessageQueue] ∧
      dispatch env cfg w 403 Message = (MediaChange env w2 Message, false) := by
  unfold dispatch
  dsimp only
  generalize Option.map (fun f => (f.1, updateUsedMirror env Message f.2))
    (w.find (env.LookupTag Message "URI" "")) = Itm
  have hw1 : (match Itm with
      | none => w
      | some (i, Itm1) => { w with Items := w.Items.set i Itm1 }).Log = w.Log ∧
      (match Itm with
      | none => w
      | some (i, Itm1) => { w with Items := w.Items.set i Itm1 }).OutQueue = w.OutQueue ∧
      (match Itm with
      | none => w
      | some (i, Itm1) => { w with Items := w.Items.set i Itm1 }).OutReady = w.OutReady ∧
      (match Itm with
      | none => w
      | some (i, Itm1) => { w with Items := w.Items.set i Itm1 }).Trace = w.Trace := by
    cases Itm with
    | none => exact ⟨rfl, rfl, rfl, rfl⟩
    | some p => exact ⟨rfl, rfl, rfl, rfl⟩
  generalize (match Itm with
      | none => w
      | some (i, Itm1) => { w with Items := w.Items.set i Itm1 }) = w1 at hw1 ⊢
  refine ⟨{ w1 with Trace := w1.Trace ++ [Call.Dispatch 403 Message w.MessageQueue] },
    hw1.1, hw1.2.1, hw1.2.2.1, ?_, ?_⟩
  · show w1.Trace ++ _ = _
    rw [hw1.2.2.2]
  · rw [if_neg (by decide), if_neg (by decide), if_neg (by decide), if_neg (by decide),
      if_neg (by decide), if_neg (by decide), if_neg (by decide), if_neg (by decide),
      if_neg (by decide), if_neg (by decide), if_pos rfl]

/-- C21 (amended): for every 403 Media Change with Media `m` and Drive `d`, the
pass of `RunMessages` writes to the descriptor of `APT::Status-Fd`, when that
number is positive, exactly once: the line `media-change: ` (with a space after
the colon), `m`, `:`, `d`, `:`, the localised prompt and a newline; when the
number is zero or negative it writes nothing.  It appends to the outbound buffer
`603 Media Changed` followed by an empty line when a progress sink is attached and
accepts, and `603 Media Changed` with the line `Failed: true` when there is no
progress sink or it refuses; it sets `OutReady`, and no exception leaves it. -/
theorem C21_media_change (env : WorkerEnv) (cfg : Configuration) (w : Worker)
    (Message : String) :
    ((dispatch env cfg w 403 Message).1.Trace.drop w.Trace.length).filter
        Call.isStatusFdWrite =
      (if 0 < env.StatusFd then
        [Call.StatusFdWrite env.StatusFd
          ("media-change: " ++ env.LookupTag Message "Media" "" ++ ":" ++
            env.LookupTag Message "Drive" "" ++ ":" ++
            env.MediaChangePrompt (env.LookupTag Message "Media" "")
              (env.LookupTag Message "Drive" "") ++ "\n")]
       else []) ∧
    (dispatch env cfg w 403 Message).1.OutQueue = w.OutQueue ++
      (if w.Log = true ∧ env.LogMediaChange (env.LookupTag Message "Media" "")
          (env.LookupTag Message "Drive" "") = true
       then "603 Media Changed\n\n" else "603 Media Changed\nFailed: true\n\n") ∧
    (dispatch env cfg w 403 Message).1.OutReady = true ∧
    (dispatch env cfg w 403 Message).2 = false := by
  obtain ⟨w2, hLog, hQ, _, hT, hd⟩ := dispatch_MediaChange env cfg w Message
  obtain ⟨h1, h2, h3⟩ := MediaChange_spec env w2 Message
  rw [hd]
  refine ⟨?_, ?_, h3, rfl⟩
  · show ((MediaChange env w2 Message).Trace.drop w.Trace.length).filter _ = _
    rw [h1, hT, List.append_assoc, List.append_assoc, List.drop_left]
    by_cases hfd : 0 < env.StatusFd <;> by_cases hL : w2.Log = true <;>
      simp [hfd, hL, Call.isStatusFdWrite]
  · show (MediaChange env w2 Message).OutQueue = _
    rw [h2, hQ, hLog]

/-- C21 fails as stated: with `APT::Status-Fd` set to 3 the line written for the
media `disc1` in the drive `/dev/sr0` starts with `media-change: disc1`, with a
space after the first colon, which is not the line of the claim; and with
`APT::Status-Fd` set to 0 nothing is written at all. -/
theorem C21_counterexample :
    (RunMessages statusEnv defaultConfig
      { workerE2 with
        MessageQueue := ["403 Media Change\nMedia: disc1\nDrive: /dev/sr0"] }).map
      (fun r => (r.2, r.1.Trace.filter Call.isStatusFdWrite, r.1.OutQueue)) =
      some (RunResult.Success,
        [Call.StatusFdWrite 3
          ("media-change: disc1:/dev/sr0:Please insert the disc labeled: 'disc1' in the " ++
            "drive '/dev/sr0' and press [Enter].\n")],
        "603 Media Changed\n\n") ∧
    "media-change: disc1:/dev/sr0:Please insert the disc labeled: 'disc1' in the " ++
        "drive '/dev/sr0' and press [Enter].\n" ≠
      "media-change:" ++ "disc1" ++ ":" ++ "/dev/sr0" ++ ":" ++
        statusEnv.MediaChangePrompt "disc1" "/dev/sr0" ++ "\n" ∧
    statusZeroEnv.StatusFd = 0 ∧
    (RunMessages statusZeroEnv defaultConfig
      { workerE2 with
        MessageQueue := ["403 Media Change\nMedia: disc1\nDrive: /dev/sr0"] }).map
      (fun r => (r.2, r.1.Trace.filter Call.isStatusFdWrite, r.1.OutQueue)) =
      some (RunResult.Success, [], "603 Media Changed\n\n") := by
  refine ⟨by decide, by decide, rfl, by decide⟩

/-! ## `ChangeSiteIsMirrorChange`: when it throws -/

theorem Startswith_short_iff (U S : String) :
    (Startswith U S = true ∧ ¬ (S.data.length + 1 ≤ U.data.length)) ↔ U = S := by
  unfold Startswith
  constructor
  · rintro ⟨hp, hl⟩
    have hpre : S.data <+: U.data := List.isPrefixOf_iff_prefix.mp hp
    have hlen : S.data.length = U.data.length := by
      have := hpre.length_le
      omega
    exact String.ext (hpre.eq_of_length hlen).symm
  · intro h
    subst h
    exact ⟨List.isPrefixOf_iff_prefix.mpr (List.prefix_refl _), by omega⟩

/-- C23, as the code has it: `ChangeSiteIsMirrorChange` is not total.  It throws
`std::out_of_range` exactly when the site part of the new URI differs from the
site part of the current URI, the description has a space, and the current URI is
exactly the first token of the description: `desc.URI.substr(OldSite.length() + 1)`
then starts one past the end of the string.  So it does for the new URI
`http://b/x` and an owner with the URI `http://a` and the description
`http://a stable`.  When the two site parts are equal it returns and leaves the
owner, description and used mirror included, as it is. -/
theorem C23_ChangeSiteIsMirrorChange_throws (env : Env) (NewURI : String) (O : Item) :
    (ChangeSiteIsMirrorChange env NewURI O = none ↔
      (env.SiteOnly NewURI ≠ env.SiteOnly O.Desc.URI ∧
        ∃ firstSpace, strFind O.Desc.Description " " = some firstSpace ∧
          O.Desc.URI = strTake O.Desc.Description firstSpace)) ∧
    (env.SiteOnly NewURI = env.SiteOnly O.Desc.URI →
      ChangeSiteIsMirrorChange env NewURI O = some O) ∧
    (ownerBare.Desc.URI = "http://a" ∧ ownerBare.Desc.Description = "http://a stable" ∧
      refEnv.SiteOnly "http://b/x" ≠ refEnv.SiteOnly ownerBare.Desc.URI ∧
      ChangeSiteIsMirrorChange refEnv "http://b/x" ownerBare = none) := by
  refine ⟨?_, ?_, rfl, rfl, by decide, by decide⟩
  · unfold ChangeSiteIsMirrorChange
    by_cases hs : env.SiteOnly NewURI = env.SiteOnly O.Desc.URI
    · rw [if_pos hs]
      constructor
      · intro h; cases h
      · intro h; exact absurd hs h.1
    · rw [if_neg hs]
      cases hf : strFind O.Desc.Description " " with
      | none =>
        dsimp only
        constructor
        · intro h; cases h
        · rintro ⟨_, fs, h, _⟩; cases h
      | some firstSpace =>
        dsimp only
        have key := Startswith_short_iff O.Desc.URI (strTake O.Desc.Description firstSpace)
        by_cases hp : Startswith O.Desc.URI (strTake O.Desc.Description firstSpace) = true
        · rw [if_pos hp]
          unfold strSubstrFrom
          by_cases hl : (strTake O.Desc.Description firstSpace).data.length + 1 ≤
              O.Desc.URI.data.length
          · rw [if_pos hl]
            dsimp only
            constructor
            · intro h
              split at h <;> cases h
            · rintro ⟨_, fs, h, he⟩
              cases h
              exact absurd hl (key.mpr he).2
          · rw [if_neg hl]
            dsimp only
            constructor
            · intro _
              exact ⟨hs, firstSpace, rfl, key.mp ⟨hp, hl⟩⟩
            · intro _; rfl
        · rw [if_neg hp]
          constructor
          · intro h; cases h
          · rintro ⟨_, fs, h, he⟩
            cases h
            exact absurd (key.mpr he).1 hp
  · intro hs
    unfold ChangeSiteIsMirrorChange
    rw [if_pos hs]

/-! ## `103 Redirect` on an item with several owners -/

/-- The value of the variable `NewURI` a pass of the loop of the `REDIRECT` case
leaves for the next owner: unchanged after a simple retry, else the URI after the
replacement of a bad alternative, which is the owner's popped alternate, or empty,
when the URI is a bad alternative for this owner. -/
theorem RedirectOwner_NewURI (env : WorkerEnv) (enc Log : Bool) (Message GotNewURI : String)
    (AltUris : List String) (NewURI : String) (O : Item) :
    (RedirectOwner env enc Log Message GotNewURI AltUris NewURI O).NewURI =
      if isSimpleRetry env enc GotNewURI O = true then NewURI
      else (replaceBadURI env NewURI (pushAlternates env enc AltUris O)).1 := by
  unfold RedirectOwner
  dsimp only
  by_cases hs : isSimpleRetry env enc GotNewURI O = true
  · rw [if_pos hs, if_pos hs]
  rw [if_neg hs, if_neg hs]
  by_cases he : (replaceBadURI env NewURI (pushAlternates env enc AltUris O)).1 = ""
  · rw [if_pos he]
  rw [if_neg he]
  by_cases hl : env.IsRedirectionLoop (replaceBadURI env NewURI (pushAlternates env enc AltUris O)).2
      (replaceBadURI env NewURI (pushAlternates env enc AltUris O)).1 = true
  · rw [if_pos hl]
  rw [if_neg hl]
  split <;> rfl

/-- The pass over the second owner of an item starts from the value of `NewURI`
the pass over the first owner left, not from the URI of the message. -/
theorem RedirectOwners_second (env : WorkerEnv) (enc Log : Bool) (Message GotNewURI : String)
    (AltUris : List String) (NewURI : String) (A B : Item) (rest : List Item)
    (hA : (RedirectOwner env enc Log Message GotNewURI AltUris NewURI A).Thrown = false) :
    (RedirectOwners env enc Log Message GotNewURI AltUris NewURI (A :: B :: rest))[1]? =
      some (RedirectOwner env enc Log Message GotNewURI AltUris
        (if isSimpleRetry env enc GotNewURI A = true then NewURI
         else (replaceBadURI env NewURI (pushAlternates env enc AltUris A)).1) B) := by
  have hn := RedirectOwner_NewURI env enc Log Message GotNewURI AltUris NewURI A
  unfold RedirectOwners
  dsimp only
  rw [if_neg (by rw [hA]; exact Bool.false_ne_true)]
  unfold RedirectOwners
  dsimp only
  rw [hn]
  generalize (if isSimpleRetry env enc GotNewURI A = true then NewURI
    else (replaceBadURI env NewURI (pushAlternates env enc AltUris A)).1) = N1
  by_cases hB : (RedirectOwner env enc Log Message GotNewURI AltUris N1 B).Thrown = true
  · rw [if_pos hB]
    simp only [List.getElem?_cons_succ, List.getElem?_cons_zero]
  · rw [if_neg hB]
    simp only [List.getElem?_cons_succ, List.getElem?_cons_zero]

/-- C24, at inputs on which the code departs from it: the item `http://a/x` has
two owners and is redirected to `http://b/x`; the second owner has no bad
alternative and no alternate URI.  When the first owner has none either, the
second owner is enqueued at `http://b/x`.  When the first owner has `http://b`
recorded as a bad site and the alternate `http://c/x`, the second owner is
enqueued at `http://c/x`.  When the first owner has `http://b` recorded as a bad
site and no alternate, the second owner is failed with `RedirectionLoop`.  The
three runs differ in the bad-alternative record and the alternate stack of the
first owner only. -/
theorem C24_redirect_leaks_between_owners :
    (RunMessages refWorkerEnv defaultConfig (workerShared ownerE2)).map
      (fun r => (r.2, r.1.Trace.filter (Call.outcomeOf 4))) =
      some (RunResult.Success,
        [Call.Item (Event.Enqueue
          { URI := "http://b/x", Description := "http://b stable InRelease",
            ShortDesc := "InRelease", Owner := 4 })]) ∧
    (RunMessages refWorkerEnv defaultConfig (workerShared ownerBurnt)).map
      (fun r => (r.2, r.1.Trace.filter (Call.outcomeOf 4))) =
      some (RunResult.Success,
        [Call.Item (Event.Enqueue
          { URI := "http://c/x", Description := "http://c stable InRelease",
            ShortDesc := "InRelease", Owner := 4 })]) ∧
    (RunMessages refWorkerEnv defaultConfig (workerShared ownerBurntOut)).map
      (fun r => (r.2, r.1.Trace.filter (Call.outcomeOf 4))) =
      some (RunResult.Success,
        [Call.Item (Event.Failed 4
          "103 Redirect\nURI: http://a/x\nNew-URI: http://b/x\nFailReason: RedirectionLoop")]) ∧
    ownerBurnt = { ownerE2 with
      BadAlternativeSites := ["http://b"], AlternativeURIs := ["http://c/x"] } ∧
    ownerBurntOut = { ownerE2 with BadAlternativeSites := ["http://b"] } ∧
    ownerOther.BadAlternativeSites = [] ∧ ownerOther.AlternativeURIs = [] ∧
    ownerOther.Desc.URI = "http://a/x" := by
  refine ⟨by decide, by decide, by decide, rfl, rfl, rfl, rfl, rfl⟩

/-! ## `OutReady` and the outbound buffer -/

theorem String_append_ne_empty (s t : String) (h : t ≠ "") : s ++ t ≠ "" := by
  intro he
  apply h
  have h1 : (s ++ t).data = [] := by rw [he]
  rw [String.data_append] at h1
  exact String.ext (List.append_eq_nil.mp h1).2

/-- The invariant goes from a state to the next when the step leaves buffer and
flag alone, or ends with the flag set and the buffer not empty, or ends with the
flag cleared and the buffer empty. -/
theorem OutInv_step (w w2 : Worker)
    (h : (w2.OutQueue = w.OutQueue ∧ w2.OutReady = w.OutReady) ∨
      (w2.OutReady = true ∧ w2.OutQueue ≠ "") ∨ (w2.OutReady = false ∧ w2.OutQueue = ""))
    (hw : w.OutReady = true ↔ w.OutQueue ≠ "") :
    w2.OutReady = true ↔ w2.OutQueue ≠ "" := by
  rcases h with ⟨h1, h2⟩ | ⟨h1, h2⟩ | ⟨h1, h2⟩
  · rw [h1, h2]; exact hw
  · exact ⟨fun _ => h2, fun _ => h1⟩
  · rw [h1, h2]
    exact ⟨fun h => absurd h Bool.false_ne_true, fun h => absurd rfl h⟩

theorem QueueItemMessage_ne_empty (env : WorkerEnv) (w : Worker) (Item : QItem) :
    QueueItemMessage env w Item ≠ "" := by
  unfold QueueItemMessage
  dsimp only
  exact String_append_ne_empty _ _ (by decide)

theorem QueueItem_OutStep (env : WorkerEnv) (w : Worker) (Item : QItem) :
    ((QueueItem env w Item).1.OutQueue = w.OutQueue ∧
      (QueueItem env w Item).1.OutReady = w.OutReady) ∨
    ((QueueItem env w Item).1.OutReady = true ∧ (QueueItem env w Item).1.OutQueue ≠ "") ∨
    ((QueueItem env w Item).1.OutReady = false ∧ (QueueItem env w Item).1.OutQueue = "") := by
  unfold QueueItem
  by_cases hO : w.OutFd = -1
  · rw [if_pos hO]; exact Or.inl ⟨rfl, rfl⟩
  · rw [if_neg hO]
    cases Item.Owners with
    | nil => exact Or.inl ⟨rfl, rfl⟩
    | cons Owner rest =>
      dsimp only
      by_cases hD : isDoomedItem Owner = true
      · rw [if_pos hD]; exact Or.inl ⟨rfl, rfl⟩
      · rw [if_neg hD]
        exact Or.inr (Or.inl ⟨rfl,
          String_append_ne_empty _ _ (QueueItemMessage_ne_empty env w Item)⟩)

theorem ReplyAux_OutStep (env : WorkerEnv) (w : Worker) (Item : ItemDesc)
    (Owner : AptWorker.Item) :
    ((ReplyAux env w Item Owner).1.OutQueue = w.OutQueue ∧
      (ReplyAux env w Item Owner).1.OutReady = w.OutReady) ∨
    ((ReplyAux env w Item Owner).1.OutReady = true ∧
      (ReplyAux env w Item Owner).1.OutQueue ≠ "") ∨
    ((ReplyAux env w Item Owner).1.OutReady = false ∧
      (ReplyAux env w Item Owner).1.OutQueue = "") := by
  unfold ReplyAux
  dsimp only
  by_cases hO : w.OutFd = -1
  · rw [if_pos hO]; exact Or.inl ⟨rfl, rfl⟩
  rw [if_neg hO]
  by_cases hD : isDoomedItem Owner = true
  · rw [if_pos hD]; exact Or.inl ⟨rfl, rfl⟩
  rw [if_neg hD]
  by_cases hR : env.RealFileExists Owner.DestFile = true
  · rw [if_pos hR]
    by_cases hS : Owner.Status = ItemState.StatDone
    · rw [if_pos hS]
      exact Or.inr (Or.inl ⟨rfl,
        String_append_ne_empty _ _ (String_append_ne_empty _ _ (by decide))⟩)
    · rw [if_neg hS]
      exact Or.inr (Or.inl ⟨rfl,
        String_append_ne_empty _ _ (String_append_ne_empty _ _ (by decide))⟩)
  · rw [if_neg hR]
    exact Or.inr (Or.inl ⟨rfl,
      String_append_ne_empty _ _ (String_append_ne_empty _ _ (by decide))⟩)

theorem SendConfiguration_OutStep (ConfigExists : Bool) (ConfigDump : String) (w : Worker) :
    ((SendConfiguration ConfigExists ConfigDump w).1.OutQueue = w.OutQueue ∧
      (SendConfiguration ConfigExists ConfigDump w).1.OutReady = w.OutReady) ∨
    ((SendConfiguration ConfigExists ConfigDump w).1.OutReady = true ∧
      (SendConfiguration ConfigExists ConfigDump w).1.OutQueue ≠ "") ∨
    ((SendConfiguration ConfigExists ConfigDump w).1.OutReady = false ∧
      (SendConfiguration ConfigExists ConfigDump w).1.OutQueue = "") := by
  unfold SendConfiguration
  by_cases hS : w.Config.SendConfig = false
  · rw [if_pos hS]; exact Or.inl ⟨rfl, rfl⟩
  rw [if_neg hS]
  by_cases hO : w.OutFd = -1
  · rw [if_pos hO]; exact Or.inl ⟨rfl, rfl⟩
  rw [if_neg hO]
  exact Or.inr (Or.inl ⟨rfl,
    String_append_ne_empty _ _ (String_append_ne_empty _ _ (by decide))⟩)

theorem MethodFailure_OutStep (w : Worker) :
    (MethodFailure w).1.OutReady = false ∧ (MethodFailure w).1.OutQueue = "" :=
  ⟨rfl, rfl⟩

theorem OutFdReady_OutInv (w : Worker) (writes : List (Int × Bool)) (w2 : Worker) (b : Bool)
    (h : OutFdReady w writes = some (w2, b))
    (hw : w.OutReady = true ↔ w.OutQueue ≠ "") :
    w2.OutReady = true ↔ w2.OutQueue ≠ "" := by
  unfold OutFdReady at h
  cases hl : writeLoop writes with
  | none => rw [hl] at h; cases h
  | some Res =>
    rw [hl] at h
    dsimp only at h
    by_cases hR : Res ≤ 0
    · rw [if_pos hR] at h
      obtain ⟨rfl, _⟩ := Prod.mk.inj (Option.some.inj h)
      exact OutInv_step w _ (Or.inr (Or.inr (MethodFailure_OutStep w))) hw
    · rw [if_neg hR] at h
      obtain ⟨rfl, _⟩ := Prod.mk.inj (Option.some.inj h)
      by_cases hd : w.OutQueue.data.drop Res.toNat = []
      · refine OutInv_step w _ (Or.inr (Or.inr ⟨?_, ?_⟩)) hw
        · show (if w.OutQueue.data.drop Res.toNat = [] then false else w.OutReady) = false
          rw [if_pos hd]
        · exact String.ext hd
      · have hne : w.OutQueue ≠ "" := by
          intro he
          apply hd
          rw [he]
          exact List.drop_nil
        refine OutInv_step w _ (Or.inr (Or.inl ⟨?_, ?_⟩)) hw
        · show (if w.OutQueue.data.drop Res.toNat = [] then false else w.OutReady) = true
          rw [if_neg hd]
          exact hw.mpr hne
        · intro he
          exact hd (congrArg String.data he)

theorem OutStep_of_same (w w2 w3 : Worker) (hQ : w2.OutQueue = w.OutQueue)
    (hR : w2.OutReady = w.OutReady) (h : OutStep w2 w3) : OutStep w w3 := by
  rcases h with ⟨h1, h2⟩ | h
  · exact Or.inl ⟨h1.trans hQ, h2.trans hR⟩
  · exact Or.inr h

theorem RedirectCase_OutStep (env : WorkerEnv) (w : Worker) (Message URI : String)
    (itm : Option (Nat × QItem)) : OutStep w (RedirectCase env w Message URI itm).1 := by
  cases itm with
  | none => exact Or.inl ⟨rfl, rfl⟩
  | some p => exact Or.inl ⟨rfl, rfl⟩

theorem URIStartCase_OutStep (env : WorkerEnv) (w : Worker) (Message : String)
    (itm : Option (Nat × QItem)) : OutStep w (URIStartCase env w Message itm) := by
  cases itm with
  | none => exact Or.inl ⟨rfl, rfl⟩
  | some p => exact Or.inl ⟨rfl, rfl⟩

theorem URIDoneCase_OutStep (env : WorkerEnv) (cfg : Configuration) (w : Worker)
    (Message : String) (itm : Option (Nat × QItem)) :
    OutStep w (URIDoneCase env cfg w Message itm) := by
  cases itm with
  | none => exact Or.inl ⟨rfl, rfl⟩
  | some p => exact Or.inl ⟨rfl, rfl⟩

theorem AuxRequestCase_OutStep (env : WorkerEnv) (cfg : Configuration) (now : Int)
    (w : Worker) (Message : String) (itm : Option (Nat × QItem)) :
    OutStep w (AuxRequestCase env cfg now w Message itm).1 := by
  cases itm with
  | none => exact Or.inl ⟨rfl, rfl⟩
  | some p =>
    obtain ⟨i, Itm⟩ := p
    unfold AuxRequestCase
    dsimp only
    by_cases hA : w.Config.AuxRequests = false
    · rw [if_pos hA]
      by_cases ht : (HandleFailure env.toEnv cfg w.Config.LocalOnly w.Log now
          (Message ++
            "\nMessage: Method tried to make an Aux Request while not being allowed to do them")
          false false Itm.Owners).any (fun s => s.Thrown) = true
      · rw [if_pos ht]; exact Or.inl ⟨rfl, rfl⟩
      · rw [if_neg ht]
        exact Or.inr (Or.inl ⟨rfl,
          String_append_ne_empty _ _ (String_append_ne_empty _ _ (by decide))⟩)
    · rw [if_neg hA]
      exact Or.inl ⟨rfl, rfl⟩

theorem URIFailureCase_OutStep (env : WorkerEnv) (cfg : Configuration) (now : Int)
    (w : Worker) (Message : String) (itm : Option (Nat × QItem)) :
    OutStep w (URIFailureCase env cfg now w Message itm).1 := by
  cases itm with
  | none => exact Or.inl ⟨rfl, rfl⟩
  | some p =>
    obtain ⟨i, Itm⟩ := p
    unfold URIFailureCase
    dsimp only
    by_cases ht : (URIFailure env.toEnv cfg w.Config.LocalOnly w.Log now Message
        Itm.Owners).any (fun s => s.Thrown) = true
    · rw [if_pos ht]; exact Or.inl ⟨rfl, rfl⟩
    · rw [if_neg ht]; exact Or.inl ⟨rfl, rfl⟩

theorem MediaChange_OutStep (env : WorkerEnv) (w : Worker) (Message : String) :
    OutStep w (MediaChange env w Message) := by
  obtain ⟨_, h2, h3⟩ := MediaChange_spec env w Message
  refine Or.inr (Or.inl ⟨h3, ?_⟩)
  rw [h2]
  apply String_append_ne_empty
  split_ifs <;> decide

/-- One pass of the loop of `RunMessages` leaves the outbound buffer and `OutReady`
alone, or ends with the flag set and the buffer not empty. -/
theorem dispatch_OutStep (env : WorkerEnv) (cfg : Configuration) (w : Worker) (Number : Nat)
    (Message : String) : OutStep w (dispatch env cfg w Number Message).1 := by
  unfold dispatch
  dsimp only
  generalize Option.map (fun f => (f.1, updateUsedMirror env Message f.2))
    (w.find (env.LookupTag Message "URI" "")) = Itm
  have hw1 : (match Itm with
      | none => w
      | some (i, Itm1) => { w with Items := w.Items.set i Itm1 }).OutQueue = w.OutQueue ∧
      (match Itm with
      | none => w
      | some (i, Itm1) => { w with Items := w.Items.set i Itm1 }).OutReady = w.OutReady := by
    cases Itm with
    | none => exact ⟨rfl, rfl⟩
    | some p => exact ⟨rfl, rfl⟩
  generalize (match Itm with
      | none => w
      | some (i, Itm1) => { w with Items := w.Items.set i Itm1 }) = w1 at hw1 ⊢
  have hQ2 : ({ w1 with Trace := w1.Trace ++ [Call.Dispatch Number Message w.MessageQueue] } : Worker).OutQueue = w.OutQueue := hw1.1
  have hR2 : ({ w1 with Trace := w1.Trace ++ [Call.Dispatch Number Message w.MessageQueue] } : Worker).OutReady = w.OutReady := hw1.2
  generalize ({ w1 with Trace := w1.Trace ++ [Call.Dispatch Number Message w.MessageQueue] } : Worker) = w2 at hQ2 hR2 ⊢
  by_cases h100 : Number = 100
  · rw [if_pos h100]
    exact OutStep_of_same w w2 _ hQ2 hR2 (Or.inl ⟨rfl, rfl⟩)
  rw [if_neg h100]
  by_cases h101 : Number = 101
  · rw [if_pos h101]
    exact OutStep_of_same w w2 _ hQ2 hR2 (Or.inl ⟨rfl, rfl⟩)
  rw [if_neg h101]
  by_cases h102 : Number = 102
  · rw [if_pos h102]
    exact Or.inl ⟨hw1.1, hw1.2⟩
  rw [if_neg h102]
  by_cases h103 : Number = 103
  · rw [if_pos h103]
    exact OutStep_of_same w w2 _ hQ2 hR2 (RedirectCase_OutStep env w2 Message _ Itm)
  rw [if_neg h103]
  by_cases h104 : Number = 104
  · rw [if_pos h104]
    exact OutStep_of_same w w2 _ hQ2 hR2 (Or.inl ⟨rfl, rfl⟩)
  rw [if_neg h104]
  by_cases h200 : Number = 200
  · rw [if_pos h200]
    exact OutStep_of_same w w2 _ hQ2 hR2 (URIStartCase_OutStep env w2 Message Itm)
  rw [if_neg h200]
  by_cases h201 : Number = 201
  · rw [if_pos h201]
    exact OutStep_of_same w w2 _ hQ2 hR2 (URIDoneCase_OutStep env cfg w2 Message Itm)
  rw [if_neg h201]
  by_cases h351 : Number = 351
  · rw [if_pos h351]
    exact OutStep_of_same w w2 _ hQ2 hR2 (AuxRequestCase_OutStep env cfg _ w2 Message Itm)
  rw [if_neg h351]
  by_cases h400 : Number = 400
  · rw [if_pos h400]
    exact OutStep_of_same w w2 _ hQ2 hR2 (URIFailureCase_OutStep env cfg _ w2 Message Itm)
  rw [if_neg h400]
  by_cases h401 : Number = 401
  · rw [if_pos h401]
    exact OutStep_of_same w w2 _ hQ2 hR2 (Or.inl ⟨rfl, rfl⟩)
  rw [if_neg h401]
  by_cases h403 : Number = 403
  · rw [if_pos h403]
    exact OutStep_of_same w w2 _ hQ2 hR2 (MediaChange_OutStep env w2 Message)
  rw [if_neg h403]
  exact OutStep_of_same w w2 _ hQ2 hR2 (Or.inl ⟨rfl, rfl⟩)

/-- A run of `RunMessages` keeps the invariant of `OutReady`. -/
theorem RunMessagesLoop_OutInv (env : WorkerEnv) (cfg : Configuration) :
    ∀ (fuel : Nat) (w w2 : Worker) (r : RunResult),
      RunMessagesLoop env cfg fuel w = some (w2, r) →
      (w.OutReady = true ↔ w.OutQueue ≠ "") → (w2.OutReady = true ↔ w2.OutQueue ≠ "") := by
  intro fuel
  induction fuel with
  | zero =>
    intro w w2 r h hw
    unfold RunMessagesLoop at h
    cases hq : w.MessageQueue with
    | nil =>
      simp only [hq, Option.some.injEq, Prod.mk.injEq] at h
      rw [← h.1]
      exact hw
    | cons m rest => simp only [hq] at h; cases h
  | succ f ih =>
    intro w w2 r h hw
    cases hq : w.MessageQueue with
    | nil =>
      unfold RunMessagesLoop at h
      simp only [hq, Option.some.injEq, Prod.mk.injEq] at h
      rw [← h.1]
      exact hw
    | cons m rest =>
      cases hp : strtoul m with
      | none =>
        unfold RunMessagesLoop at h
        simp only [hq, hp, Option.some.injEq, Prod.mk.injEq] at h
        rw [← h.1]
        exact hw
      | some v =>
        have hd : (dispatch env cfg ({ w with MessageQueue := rest } : Worker)
              (MessageNumber v) m).1.OutReady = true ↔
            (dispatch env cfg ({ w with MessageQueue := rest } : Worker)
              (MessageNumber v) m).1.OutQueue ≠ "" :=
          OutInv_step ({ w with MessageQueue := rest } : Worker) _
            (dispatch_OutStep env cfg ({ w with MessageQueue := rest } : Worker)
              (MessageNumber v) m) hw
        have hloop : RunMessagesLoop env cfg (f + 1) w =
            if (dispatch env cfg ({ w with MessageQueue := rest } : Worker)
                (MessageNumber v) m).2 = true then
              some ((dispatch env cfg ({ w with MessageQueue := rest } : Worker)
                (MessageNumber v) m).1, RunResult.Thrown)
            else RunMessagesLoop env cfg f
              (dispatch env cfg ({ w with MessageQueue := rest } : Worker)
                (MessageNumber v) m).1 := by
          conv_lhs => unfold RunMessagesLoop
          simp only [hq, hp]
        rw [hloop] at h
        generalize dispatch env cfg ({ w with MessageQueue := rest } : Worker)
          (MessageNumber v) m = d at hd h
        by_cases hth : d.2 = true
        · rw [if_pos hth] at h
          obtain ⟨rfl, _⟩ := Prod.mk.inj (Option.some.inj h)
          exact hd
        · rw [if_neg hth] at h
          exact ih d.1 w2 r h hd

theorem ReadMessages_OutInv (w : Worker) (read : Option (List String))
    (hw : w.OutReady = true ↔ w.OutQueue ≠ "") :
    (ReadMessages w read).1.OutReady = true ↔ (ReadMessages w read).1.OutQueue ≠ "" := by
  cases read with
  | none => exact OutInv_step w _ (Or.inr (Or.inr (MethodFailure_OutStep w))) hw
  | some Messages => exact hw

theorem InFdReady_OutInv (env : WorkerEnv) (cfg : Configuration) (w : Worker)
    (read : Option (List String)) (w2 : Worker) (r : RunResult)
    (h : InFdReady env cfg w read = some (w2, r))
    (hw : w.OutReady = true ↔ w.OutQueue ≠ "") :
    w2.OutReady = true ↔ w2.OutQueue ≠ "" := by
  have hr := ReadMessages_OutInv w read hw
  unfold InFdReady at h
  by_cases hf : (ReadMessages w read).2 = false
  · rw [if_pos hf] at h
    obtain ⟨rfl, _⟩ := Prod.mk.inj (Option.some.inj h)
    exact hr
  · rw [if_neg hf] at h
    cases hrun : RunMessages env cfg (ReadMessages w read).1 with
    | none => rw [hrun] at h; cases h
    | some p =>
      obtain ⟨w3, r3⟩ := p
      have h3 := RunMessagesLoop_OutInv env cfg _ _ w3 r3 hrun hr
      rw [hrun] at h
      cases r3 <;>
        (dsimp only at h
         obtain ⟨rfl, _⟩ := Prod.mk.inj (Option.some.inj h)
         exact h3)

theorem Start_OutInv (env : WorkerEnv) (cfg : Configuration) (se : StartEnv)
    (w w2 : Worker) (r : RunResult) (h : Start env cfg se w = some (w2, r))
    (hQ : w.OutQueue = "") (hR : w.OutReady = false) :
    w2.OutReady = true ↔ w2.OutQueue ≠ "" := by
  have hw : w.OutReady = true ↔ w.OutQueue ≠ "" := by
    rw [hQ, hR]
    exact ⟨fun h => absurd h Bool.false_ne_true, fun h => absurd rfl h⟩
  unfold Start at h
  dsimp only at h
  split at h
  · obtain ⟨rfl, _⟩ := Prod.mk.inj (Option.some.inj h)
    exact hw
  split at h
  · split at h
    · split at h
      · obtain ⟨rfl, _⟩ := Prod.mk.inj (Option.some.inj h)
        exact hw
      · obtain ⟨rfl, _⟩ := Prod.mk.inj (Option.some.inj h)
        exact hw
    · obtain ⟨rfl, _⟩ := Prod.mk.inj (Option.some.inj h)
      exact hw
  split at h
  · obtain ⟨rfl, _⟩ := Prod.mk.inj (Option.some.inj h)
    exact hw
  split at h
  · cases h
  have hw1 : ∀ w1 : Worker, w1.OutReady = false → w1.OutQueue = "" →
      (w1.OutReady = true ↔ w1.OutQueue ≠ "") := by
    intro w1 h1 h2
    rw [h1, h2]
    exact ⟨fun h => absurd h Bool.false_ne_true, fun h => absurd rfl h⟩
  split at h
  · obtain ⟨rfl, _⟩ := Prod.mk.inj (Option.some.inj h)
    exact hw1 _ rfl hQ
  have hread := ReadMessages_OutInv
    ({ w with
        Process := se.ExecFork
        InFd := se.Pipes.1
        OutFd := se.Pipes.2.2.2
        OutReady := false
        InReady := true
        Trace := w.Trace ++ [Call.Close se.Pipes.2.1, Call.Close se.Pipes.2.2.1] } : Worker)
    se.read (hw1 _ rfl hQ)
  split at h
  · obtain ⟨rfl, _⟩ := Prod.mk.inj (Option.some.inj h)
    exact hread
  cases hrun : RunMessages env cfg (ReadMessages
    ({ w with
        Process := se.ExecFork
        InFd := se.Pipes.1
        OutFd := se.Pipes.2.2.2
        OutReady := false
        InReady := true
        Trace := w.Trace ++ [Call.Close se.Pipes.2.1, Call.Close se.Pipes.2.2.1] } : Worker)
    se.read).1 with
  | none => rw [hrun] at h; cases h
  | some p =>
    obtain ⟨w3, r3⟩ := p
    have h3 := RunMessagesLoop_OutInv env cfg _ _ w3 r3 hrun hread
    rw [hrun] at h
    have hsend := OutInv_step w3 _
      (SendConfiguration_OutStep se.ConfigExists se.ConfigDump w3) h3
    cases r3
    · dsimp only at h
      split at h
      · obtain ⟨rfl, _⟩ := Prod.mk.inj (Option.some.inj h)
        exact hsend
      · obtain ⟨rfl, _⟩ := Prod.mk.inj (Option.some.inj h)
        exact h3
    · dsimp only at h
      split at h
      · obtain ⟨rfl, _⟩ := Prod.mk.inj (Option.some.inj h)
        exact hsend
      · obtain ⟨rfl, _⟩ := Prod.mk.inj (Option.some.inj h)
        exact h3
    · dsimp only at h
      obtain ⟨rfl, _⟩ := Prod.mk.inj (Option.some.inj h)
      exact h3

/-- C22: in every state a worker can reach after its construction, through
`Start` and any sequence of calls of `QueueItem`, `ReplyAux`, `SendConfiguration`,
`RunMessages`, `InFdReady`, `OutFdReady` and `MethodFailure`, with any arguments
and any outcomes of the system calls, `OutReady` is true if and only if the
outbound buffer is not empty. -/
theorem C22_OutReady_iff_buffer_nonempty (env : WorkerEnv) (cfg : Configuration)
    (w : Worker) (h : Reachable env cfg w) :
    w.OutReady = true ↔ w.OutQueue ≠ "" := by
  induction h with
  | constructed Cnf Log MorePulses Items =>
    exact ⟨fun h => absurd h Bool.false_ne_true, fun h => absurd rfl h⟩
  | started se Cnf Log MorePulses Items w2 r hs =>
    exact Start_OutInv env cfg se _ w2 r hs rfl rfl
  | queueItem w Item _ ih => exact OutInv_step w _ (QueueItem_OutStep env w Item) ih
  | replyAux w Item Owner _ ih => exact OutInv_step w _ (ReplyAux_OutStep env w Item Owner) ih
  | sendConfiguration w ConfigExists ConfigDump _ ih =>
    exact OutInv_step w _ (SendConfiguration_OutStep ConfigExists ConfigDump w) ih
  | runMessages w w2 r _ hrun ih => exact RunMessagesLoop_OutInv env cfg _ w w2 r hrun ih
  | inFdReady w read w2 r _ hin ih => exact InFdReady_OutInv env cfg w read w2 r hin ih
  | outFdReady w writes w2 b _ ho ih => exact OutFdReady_OutInv w writes w2 b ho ih
  | methodFailure w _ ih =>
    exact OutInv_step w _ (Or.inr (Or.inr (MethodFailure_OutStep w))) ih
  | queue w Items _ ih => exact ih

/-- Witness of C22: a worker for the `http` method is constructed and started, the
method sends its capabilities, and the item of scenario E2 is queued. -/
theorem C22_OutReady_iff_buffer_nonempty_witness :
    Start refWorkerEnv defaultConfig startHttp (Construct httpConfig true false [itemE2]) =
      some (startedHttp, RunResult.Success) ∧
    (QueueItem refWorkerEnv startedHttp itemE2).1.OutQueue =
      "601 Configuration\nConfig-Item: APT::Architecture=amd64\n\n" ++
      "600 URI Acquire\nURI: http://a/x\nFilename: /var/lib/apt/lists/partial/x\n" ++
      "Expected-SHA256: abc\n\n" ∧
    ((QueueItem refWorkerEnv startedHttp itemE2).1.OutReady = true ↔
      (QueueItem refWorkerEnv startedHttp itemE2).1.OutQueue ≠ "") :=
  ⟨by decide, by decide,
    C22_OutReady_iff_buffer_nonempty refWorkerEnv defaultConfig _
      (Reachable.queueItem _ _
        (Reachable.started startHttp httpConfig true false [itemE2] startedHttp
          RunResult.Success (by decide)))⟩

/-! ## The loops over the owners of one item, position by position -/

/-- The loop of `HandleFailure` makes a pass over the owner at position `i` exactly
when no pass over an owner before it throws. -/
theorem HandleFailure_reached (env : Env) (cfg : Configuration) (LocalOnly Log : Bool)
    (now : Int) (Message : String) (errTransient errAuthErr : Bool) :
    ∀ (owners : List Item) (i : Nat),
      ((HandleFailure env cfg LocalOnly Log now Message errTransient errAuthErr
          owners)[i]?).isSome = true ↔
        (i < owners.length ∧ ∀ k, k < i → ∀ O, owners[k]? = some O →
          (HandleFailureOwner env cfg LocalOnly Log now Message errTransient errAuthErr
            O).Thrown = false) := by
  intro owners
  induction owners with
  | nil =>
    intro i
    simp [HandleFailure]
  | cons o rest ih =>
    intro i
    unfold HandleFailure
    dsimp only
    by_cases ht : (HandleFailureOwner env cfg LocalOnly Log now Message errTransient
        errAuthErr o).Thrown = true
    · rw [if_pos ht]
      cases i with
      | zero => simp
      | succ j =>
        simp only [List.getElem?_cons_succ, List.getElem?_nil, Option.isSome_none,
          Bool.false_eq_true, false_iff, not_and]
        intro _ hall
        have := hall 0 (Nat.succ_pos j) o (List.getElem?_cons_zero)
        rw [ht] at this
        exact Bool.noConfusion this
    · rw [if_neg ht]
      have hf : (HandleFailureOwner env cfg LocalOnly Log now Message errTransient
          errAuthErr o).Thrown = false := by
        cases hx : (HandleFailureOwner env cfg LocalOnly Log now Message errTransient
          errAuthErr o).Thrown with
        | true => exact absurd hx ht
        | false => rfl
      cases i with
      | zero => simp
      | succ j =>
        simp only [List.getElem?_cons_succ, List.length_cons, Nat.add_lt_add_iff_right]
        rw [ih j]
        constructor
        · rintro ⟨hj, hall⟩
          refine ⟨hj, fun k hk O hO => ?_⟩
          cases k with
          | zero =>
            simp only [List.getElem?_cons_zero, Option.some.injEq] at hO
            rw [← hO]; exact hf
          | succ k1 =>
            simp only [List.getElem?_cons_succ] at hO
            exact hall k1 (by omega) O hO
        · rintro ⟨hj, hall⟩
          exact ⟨hj, fun k hk O hO => hall (k + 1) (by omega) O (by simpa using hO)⟩

/-- Scenario E4 in full: under `Acquire::Retries=2` an owner with two retries left
fails three times with `FailReason: Timeout`.  The first two passes decrement the
counter, set `FetchAfter` to 1 and 2 seconds from now and enqueue the owner; the
third pass leaves counter and `FetchAfter` alone, sets the status to
`TransientNetworkError`, calls `Failed` and does not enqueue. -/
theorem failRepeatedly_E4 :
    (failRepeatedly refEnv { defaultConfig with Retries := 2 } false true 1000
      "400 URI Failure\nURI: http://a/x\nFailReason: Timeout" true false 3
      { ownerE2 with Retries := 2 }).map
      (fun s => (s.Owner.Retries, s.Owner.FetchAfter, s.Owner.Status,
        s.Trace.filter Event.isCallback)) =
      [(1, 1001, ItemState.StatFetching, [Event.Enqueue ownerE2.Desc]),
       (0, 1002, ItemState.StatFetching, [Event.Enqueue ownerE2.Desc]),
       (0, 1002, ItemState.StatTransientNetworkError,
        [Event.Failed 1 "400 URI Failure\nURI: http://a/x\nFailReason: Timeout"])] := by
  decide

/-- C6, at an input on which the code departs from it: the item `http://a` has
two owners and fails with `FailReason: Timeout` on a method that is not local
only.  The first owner has no retry left, its URI is exactly the first token of
its description, and it has an alternate URI; the second owner has two retries
left and is not doomed.  The pass over the first owner switches to the alternate
and `ChangeSiteIsMirrorChange` throws; the loop ends there: no call is made for
the second owner, it is not enqueued and its `Retries` stays 2.  Alone on the
item, the second owner is retried: `Retries` becomes 1 and it is enqueued. -/
theorem C6_retry_skipped_behind_throw :
    classifyFailure refEnv "400 URI Failure\nURI: http://a\nFailReason: Timeout" =
      (true, false) ∧
    workerBare.Config.LocalOnly = false ∧ ownerBehind.Retries = 2 ∧
    isDoomedItem ownerBehind = false ∧
    (RunMessages refWorkerEnv defaultConfig
      (workerOwners [ownerBareSpent, ownerBehind]
        "400 URI Failure\nURI: http://a\nFailReason: Timeout")).map
      (fun r => (r.2, r.1.Trace.filter (Call.concerns 7),
        r.1.Items.map (fun I => I.Owners.map (fun o => (o.ID, o.Retries))))) =
      some (RunResult.Thrown, [], [[(3, 0), (7, 2)]]) ∧
    (RunMessages refWorkerEnv defaultConfig
      (workerOwners [ownerBehind]
        "400 URI Failure\nURI: http://a\nFailReason: Timeout")).map
      (fun r => (r.2, r.1.Trace.filter (Call.concerns 7),
        r.1.Items.map (fun I => I.Owners.map (fun o => (o.ID, o.Retries))))) =
      some (RunResult.Success,
        [Call.Item (Event.FailMessage 7 "400 URI Failure\nURI: http://a\nFailReason: Timeout"),
         Call.Item (Event.LogFail ownerBehind.Desc),
         Call.Item (Event.Enqueue ownerBehind.Desc)],
        [[(7, 1)]]) := by
  refine ⟨by decide, rfl, rfl, by decide, by decide, by decide⟩

/-- C10, at an input on which the code departs from it: the item `http://a` has
two owners, a progress sink is attached, and the item fails with
`FailReason: HashSumMismatch`.  The first owner's URI is exactly the first token
of its description and it has an alternate URI; the second owner is doomed.  The
pass over the first owner switches to the alternate and `ChangeSiteIsMirrorChange`
throws; the loop ends there, and no UI event is emitted for the doomed owner.
Alone on the item, or in front of the other owner, the doomed owner gets exactly
one `Log->Fail` and no other call. -/
theorem C10_doomed_owner_behind_throw :
    isDoomedItem ownerBehindDoomed = true ∧
    (workerOwners [ownerBare, ownerBehindDoomed]
      "400 URI Failure\nURI: http://a\nFailReason: HashSumMismatch").Log = true ∧
    (RunMessages refWorkerEnv defaultConfig
      (workerOwners [ownerBare, ownerBehindDoomed]
        "400 URI Failure\nURI: http://a\nFailReason: HashSumMismatch")).map
      (fun r => (r.2, r.1.Trace.filter (Call.isUIFor 8), r.1.Trace.filter (Call.concerns 8))) =
      some (RunResult.Thrown, [], []) ∧
    (RunMessages refWorkerEnv defaultConfig
      (workerOwners [ownerBehindDoomed]
        "400 URI Failure\nURI: http://a\nFailReason: HashSumMismatch")).map
      (fun r => (r.2, r.1.Trace.filter (Call.isUIFor 8), r.1.Trace.filter (Call.concerns 8))) =
      some (RunResult.Success, [Call.Item (Event.LogFail ownerBehindDoomed.Desc)],
        [Call.Item (Event.LogFail ownerBehindDoomed.Desc)]) ∧
    (RunMessages refWorkerEnv defaultConfig
      (workerOwners [ownerBehindDoomed, ownerBare]
        "400 URI Failure\nURI: http://a\nFailReason: HashSumMismatch")).map
      (fun r => (r.2, r.1.Trace.filter (Call.isUIFor 8), r.1.Trace.filter (Call.concerns 8))) =
      some (RunResult.Thrown, [Call.Item (Event.LogFail ownerBehindDoomed.Desc)],
        [Call.Item (Event.LogFail ownerBehindDoomed.Desc)]) := by
  refine ⟨by decide, rfl, by decide, by decide, by decide⟩

/-- Every pass the loop of the `REDIRECT` case makes is the loop body run on the
owner at that position, from the value of `NewURI` the passes before left. -/
theorem RedirectOwners_get_at (env : WorkerEnv) (enc Log : Bool) (Message GotNewURI : String)
    (AltUris : List String) :
    ∀ (owners : List Item) (NewURI : String) (i : Nat) (s : RedirectStep),
      (RedirectOwners env enc Log Message GotNewURI AltUris NewURI owners)[i]? = some s →
      ∃ O, owners[i]? = some O ∧
        s = RedirectOwner env enc Log Message GotNewURI AltUris
          (newURIAt env enc Log Message GotNewURI AltUris NewURI owners i) O := by
  intro owners
  induction owners with
  | nil => intro N i s h; simp [RedirectOwners] at h
  | cons o rest ih =>
    intro N i s h
    unfold RedirectOwners at h
    dsimp only at h
    cases i with
    | zero =>
      refine ⟨o, by simp, ?_⟩
      show s = RedirectOwner env enc Log Message GotNewURI AltUris N o
      split_ifs at h <;> simp at h <;> exact h.symm
    | succ j =>
      split_ifs at h
      · simp at h
      · simp only [List.getElem?_cons_succ] at h ⊢
        exact ih _ j s h

/-- The variable `NewURI` still holds the URI of the item when the loop comes to
position `i`, if every owner before it is a simple retry or has that URI not
recorded as a bad alternative. -/
theorem newURIAt_of_good (env : WorkerEnv) (enc Log : Bool) (Message GotNewURI : String)
    (AltUris : List String) (N : String) :
    ∀ (owners : List Item) (i : Nat),
      (∀ O ∈ owners.take i, isSimpleRetry env enc GotNewURI O = true ∨
        IsGoodAlternativeURI env.toEnv N (pushAlternates env enc AltUris O) = true) →
      newURIAt env enc Log Message GotNewURI AltUris N owners i = N := by
  intro owners
  induction owners with
  | nil => intro i _; rfl
  | cons o rest ih =>
    intro i h
    cases i with
    | zero => rfl
    | succ j =>
      have ho := h o (by simp)
      have hN : (RedirectOwner env enc Log Message GotNewURI AltUris N o).NewURI = N := by
        rw [RedirectOwner_NewURI]
        rcases ho with hs | hg
        · rw [if_pos hs]
        · by_cases hs : isSimpleRetry env enc GotNewURI o = true
          · rw [if_pos hs]
          · rw [if_neg hs, replaceBadURI_fst, if_pos hg]
      show newURIAt env enc Log Message GotNewURI AltUris
        (RedirectOwner env enc Log Message GotNewURI AltUris N o).NewURI rest j = N
      rw [hN]
      exact ih j (fun O hO => h O (by simp [hO]))

/-- C12 (amended): take an owner of a 103 Redirect over which the loop makes a
pass, whose pass is not a simple retry and starts with the URI of the redirect
still in the variable `NewURI` (that is so for the first owner of the item).
Let `N1` be that URI if it is not recorded as a bad alternative for the owner,
else the alternate popped in its place, or the empty string when none can be
popped.  The owner is failed with the original message extended by
`FailReason: RedirectionLoop` if and only if `N1` is empty or `IsRedirectionLoop`
reports a cycle for `N1`; it then keeps its item description, URI included, and
is not enqueued.  In every other case `Failed` is not called; when the relabelling
of the site completes, the owner's URI is set to `N1` and the owner is enqueued
with its new description unless it is doomed; when the relabelling throws, the
owner keeps its description and is not enqueued. -/
theorem C12_redirection_loop (env : WorkerEnv) (enc Log : Bool) (Message GotNewURI : String)
    (AltUris : List String) (ItmURI : String) (owners : List Item) (i : Nat)
    (s : RedirectStep) (O : Item) (N1 : String) (O2 : Item)
    (hs : (RedirectOwners env enc Log Message GotNewURI AltUris ItmURI owners)[i]? = some s)
    (hO : owners[i]? = some O)
    (hU : newURIAt env enc Log Message GotNewURI AltUris ItmURI owners i = ItmURI)
    (hns : isSimpleRetry env enc GotNewURI O = false)
    (hr : replaceBadURI env ItmURI (pushAlternates env enc AltUris O) = (N1, O2)) :
    newURIAt env enc Log Message GotNewURI AltUris ItmURI owners 0 = ItmURI ∧
    (N1 = if IsGoodAlternativeURI env.toEnv ItmURI (pushAlternates env enc AltUris O) = true
      then ItmURI
      else ((pushAlternates env enc AltUris O).AlternativeURIs.head?).getD "") ∧
    (Call.Item (Event.Failed O.ID (Message ++ "\nFailReason: RedirectionLoop")) ∈ s.Trace ↔
      (N1 = "" ∨ env.IsRedirectionLoop O2 N1 = true)) ∧
    ((N1 = "" ∨ env.IsRedirectionLoop O2 N1 = true) →
      s.Thrown = false ∧ s.Owner.Desc = O.Desc ∧ s.Trace.filter Call.isEnqueue = []) ∧
    (¬(N1 = "" ∨ env.IsRedirectionLoop O2 N1 = true) →
      s.Trace.filter Call.isFailed = [] ∧
      (∀ O3, ChangeSiteIsMirrorChange env.toEnv N1 O2 = some O3 →
        s.Thrown = false ∧ s.Owner.Desc.URI = N1 ∧
        s.Trace.filter Call.isEnqueue =
          (if isDoomedItem O = true then []
           else [Call.Item (Event.Enqueue s.Owner.Desc)])) ∧
      (ChangeSiteIsMirrorChange env.toEnv N1 O2 = none →
        s.Thrown = true ∧ s.Owner.Desc = O.Desc ∧ s.Trace.filter Call.isEnqueue = [])) := by
  obtain ⟨O1, hO1, hs1⟩ := RedirectOwners_get_at env enc Log Message GotNewURI AltUris owners
    ItmURI i s hs
  rw [hO] at hO1
  obtain rfl := Option.some.inj hO1
  rw [hU] at hs1
  subst hs1
  obtain ⟨h1, h2, h3, h4⟩ := RedirectOwner_outcome env enc Log Message GotNewURI AltUris
    ItmURI O N1 O2 hns hr
  have h0 : newURIAt env enc Log Message GotNewURI AltUris ItmURI owners 0 = ItmURI := by
    cases owners <;> rfl
  refine ⟨h0, h1, h2, h3, fun hl => ⟨(h4 hl).1, (h4 hl).2, fun hcs => ?_⟩⟩
  have hD : O2.Desc = O.Desc := by
    have := (replaceBadURI_frame env ItmURI (pushAlternates env enc AltUris O)).1
    rw [hr, pushAlternates_eq] at this
    exact this
  rw [RedirectOwner_moved_throws env enc Log Message GotNewURI AltUris ItmURI O N1 O2
    hns hr hl hcs]
  refine ⟨rfl, hD, ?_⟩
  cases Log <;> simp [Call.isEnqueue, Event.isEnqueue]

/-- Witness of C12: scenario E5 on an item with two owners, redirected from
`http://a/x` to `http://b/x` with no prior visit; the pass over the second owner. -/
theorem C12_redirection_loop_witness :
    ∃ s, (RedirectOwners refWorkerEnv true true
        "103 Redirect\nURI: http://a/x\nNew-URI: http://b/x" "http://b/x" [] "http://b/x"
        [ownerE2, ownerOther])[1]? = some s ∧
      s.Trace.filter Call.isFailed = [] ∧ s.Thrown = false ∧
      s.Owner.Desc.URI = "http://b/x" ∧
      s.Trace.filter Call.isEnqueue = [Call.Item (Event.Enqueue s.Owner.Desc)] := by
  obtain ⟨s, hs⟩ : ∃ s, (RedirectOwners refWorkerEnv true true
      "103 Redirect\nURI: http://a/x\nNew-URI: http://b/x" "http://b/x" [] "http://b/x"
      [ownerE2, ownerOther])[1]? = some s :=
    ⟨RedirectOwner refWorkerEnv true true
      "103 Redirect\nURI: http://a/x\nNew-URI: http://b/x" "http://b/x" [] "http://b/x"
      ownerOther, by decide⟩
  have h := (C12_redirection_loop refWorkerEnv true true
    "103 Redirect\nURI: http://a/x\nNew-URI: http://b/x" "http://b/x" [] "http://b/x"
    [ownerE2, ownerOther] 1 s ownerOther "http://b/x" ownerOther hs rfl (by decide) (by decide)
    (by decide)).2.2.2.2 (by decide)
  have h2 := h.2.1 _ (by decide : ChangeSiteIsMirrorChange refWorkerEnv.toEnv "http://b/x"
    ownerOther = some { ownerOther with
        UsedMirror := "http://b"
        Desc := { ownerOther.Desc with Description := "http://b stable InRelease" } })
  refine ⟨s, hs, h.1, h2.1, h2.2.1, ?_⟩
  rw [h2.2.2]
  rfl

end AptWorker
